import Mathlib

/-!
# ft2_audio.c: sync queues, voices, tick scheduling, output stage and device setup

A shallow embedding of the parts of `src/ft2_audio.c` that the verified
properties are about.  Global C state is passed explicitly; every function
keeps the name of the C function it embeds.

Conventions
* `SYNC_QUEUE_LEN`, `MAX_VOICES` and the `IS_*` status bits are declared in
  headers that are not part of the translated file, so they are parameters.
* The read and write indices of a queue are `int32_t` in C.  Every store to
  them is either `0` or a value masked with `SYNC_QUEUE_LEN`, so they are
  modelled as natural numbers; sizes are computed in `Int` as in the source.
* The busy-wait `while (pattQueueClearing);` has no exit in a sequential run
  when the flag is raised, so the functions that contain it return `Option`
  (`none` is the spin that never ends).
-/

namespace FT2Audio

/-! ## Sync-queue entries -/

/-- Entry of the pattern queue (`pattSyncData_t`), with the fields that
`fillVisualsSyncBuffer` stores. -/
structure pattSyncData_t where
  timer : Nat
  patternPos : Nat
  pattern : Nat
  songPos : Nat
  speed : Nat
  tempo : Nat
  globalVol : Nat
  timestamp : Nat
deriving DecidableEq

/-- Per-channel part of a channel-queue entry (`syncedChannel_t`), with the
fields that `fillVisualsSyncBuffer` stores. -/
structure syncedChannel_t where
  finalPeriod : Nat
  fineTune : Int
  relTonNr : Int
  instrNr : Nat
  sampleNr : Nat
  envSustainActive : Bool
  status : Nat
  fFinalVol : ℚ
  smpStartPos : Int
deriving DecidableEq

/-- Entry of the channel queue (`chSyncData_t`): the channel array and one
timestamp for the whole array. -/
structure chSyncData_t where
  channels : List syncedChannel_t
  timestamp : Nat
deriving DecidableEq

/-- Access to the `timestamp` member of a queue entry: reading it, and the
store `entry.timestamp = x`. -/
class HasTimestamp (α : Type) where
  timestamp : α → Nat
  setTimestamp : α → Nat → α

instance : HasTimestamp pattSyncData_t where
  timestamp e := e.timestamp
  setTimestamp e x := { e with timestamp := x }

instance : HasTimestamp chSyncData_t where
  timestamp e := e.timestamp
  setTimestamp e x := { e with timestamp := x }

/-! ## Sync queues -/

/-- State of one sync queue (`pattSync` or `chSync`) together with its clearing
flag (`pattQueueClearing` or `chQueueClearing`).  `data i` is `data[i]`. -/
@[ext]
structure SyncQueue (α : Type) where
  data : Nat → α
  readPos : Nat
  writePos : Nat
  clearing : Bool

variable {α : Type}

/-- The body shared by `pattQueueReadSize` and `chQueueReadSize`; `L` is
`SYNC_QUEUE_LEN`. -/
def queueReadSize (L : Nat) (q : SyncQueue α) : Option (Int × SyncQueue α) :=
  if q.clearing then none
  else if q.writePos > q.readPos then
    some ((q.writePos : Int) - (q.readPos : Int), q)
  else if q.writePos < q.readPos then
    some ((q.writePos : Int) - (q.readPos : Int) + (L : Int) + 1, q)
  else
    some (0, q)

/-- The body shared by `pattQueueWriteSize` and `chQueueWriteSize`. -/
def queueWriteSize [HasTimestamp α] (L : Nat) (q : SyncQueue α) : Int × SyncQueue α :=
  if q.writePos > q.readPos then
    ((q.readPos : Int) - (q.writePos : Int) + (L : Int), q)
  else if q.writePos < q.readPos then
    let q1 := { q with clearing := true }
    let q2 := { q1 with
      data := Function.update q1.data 0 (HasTimestamp.setTimestamp (q1.data 0) 0) }
    let q3 := { q2 with readPos := 0 }
    let q4 := { q3 with writePos := 0 }
    ((L : Int), { q4 with clearing := false })
  else
    ((L : Int), q)

/-- The body shared by `pattQueuePush` and `chQueuePush`; a zero write size is
the refusal. -/
def queuePush [HasTimestamp α] (L : Nat) (q : SyncQueue α) (t : α) : Bool × SyncQueue α :=
  let r := queueWriteSize L q
  if r.1 = 0 then (false, r.2)
  else
    let q1 := { r.2 with data := Function.update r.2.data r.2.writePos t }
    (true, { q1 with writePos := (q1.writePos + 1) &&& L })

/-- The body shared by `pattQueuePop` and `chQueuePop`. -/
def queuePop (L : Nat) (q : SyncQueue α) : Option (Bool × SyncQueue α) :=
  match queueReadSize L q with
  | none => none
  | some (n, q1) =>
    if n = 0 then some (false, q1)
    else some (true, { q1 with readPos := (q1.readPos + 1) &&& L })

/-- The body shared by `pattQueuePeek` and `chQueuePeek`.  The returned pointer
is `none` for `NULL` and `some i` for `&data[i]`. -/
def queuePeek (L : Nat) (q : SyncQueue α) : Option (Option Nat × SyncQueue α) :=
  match queueReadSize L q with
  | none => none
  | some (n, q1) =>
    if n = 0 then some (none, q1)
    else some (some q1.readPos, q1)

/-- The body shared by `getPattQueueTimestamp` and `getChQueueTimestamp`. -/
def getQueueTimestamp [HasTimestamp α] (L : Nat) (q : SyncQueue α) : Option (Nat × SyncQueue α) :=
  match queueReadSize L q with
  | none => none
  | some (n, q1) =>
    if n = 0 then some (0, q1)
    else some (HasTimestamp.timestamp (q1.data q1.readPos), q1)

/-- One half of `resetSyncQueues`: the three stores made to one queue. -/
def resetSyncQueue [HasTimestamp α] (q : SyncQueue α) : SyncQueue α :=
  let q1 := { q with
    data := Function.update q.data 0 (HasTimestamp.setTimestamp (q.data 0) 0) }
  let q2 := { q1 with readPos := 0 }
  { q2 with writePos := 0 }

/-- The function `resetSyncQueues`, on the pair (`pattSync`, `chSync`). -/
def resetSyncQueues (p : SyncQueue pattSyncData_t × SyncQueue chSyncData_t) :
    SyncQueue pattSyncData_t × SyncQueue chSyncData_t :=
  (resetSyncQueue p.1, resetSyncQueue p.2)

/-- `pattQueueReadSize` of the source. -/
abbrev pattQueueReadSize (L : Nat) (q : SyncQueue pattSyncData_t) :=
  queueReadSize L q
/-- `pattQueueWriteSize` of the source. -/
abbrev pattQueueWriteSize (L : Nat) (q : SyncQueue pattSyncData_t) :=
  queueWriteSize L q
/-- `pattQueuePush` of the source. -/
abbrev pattQueuePush (L : Nat) (q : SyncQueue pattSyncData_t) (t : pattSyncData_t) :=
  queuePush L q t
/-- `pattQueuePop` of the source. -/
abbrev pattQueuePop (L : Nat) (q : SyncQueue pattSyncData_t) :=
  queuePop L q
/-- `pattQueuePeek` of the source. -/
abbrev pattQueuePeek (L : Nat) (q : SyncQueue pattSyncData_t) :=
  queuePeek L q
/-- `getPattQueueTimestamp` of the source. -/
abbrev getPattQueueTimestamp (L : Nat) (q : SyncQueue pattSyncData_t) :=
  getQueueTimestamp L q
/-- `chQueueReadSize` of the source. -/
abbrev chQueueReadSize (L : Nat) (q : SyncQueue chSyncData_t) :=
  queueReadSize L q
/-- `chQueueWriteSize` of the source. -/
abbrev chQueueWriteSize (L : Nat) (q : SyncQueue chSyncData_t) :=
  queueWriteSize L q
/-- `chQueuePush` of the source. -/
abbrev chQueuePush (L : Nat) (q : SyncQueue chSyncData_t) (t : chSyncData_t) :=
  queuePush L q t
/-- `chQueuePop` of the source. -/
abbrev chQueuePop (L : Nat) (q : SyncQueue chSyncData_t) :=
  queuePop L q
/-- `chQueuePeek` of the source. -/
abbrev chQueuePeek (L : Nat) (q : SyncQueue chSyncData_t) :=
  queuePeek L q
/-- `getChQueueTimestamp` of the source. -/
abbrev getChQueueTimestamp (L : Nat) (q : SyncQueue chSyncData_t) :=
  getQueueTimestamp L q

/-! ### Sequences of calls -/

/-- A call made to a queue by one of its two users. -/
inductive QueueOp (α : Type) where
  | push (t : α)
  | pop

/-- Runs a sequence of push and pop calls; returns the value each call
returned, in call order, and the final queue. -/
def runOps [HasTimestamp α] (L : Nat) : List (QueueOp α) → SyncQueue α → Option (List Bool × SyncQueue α)
  | [], q => some ([], q)
  | QueueOp.push t :: ops, q =>
    let r := queuePush L q t
    match runOps L ops r.2 with
    | none => none
    | some (bs, q1) => some (r.1 :: bs, q1)
  | QueueOp.pop :: ops, q =>
    match queuePop L q with
    | none => none
    | some (b, q1) =>
      match runOps L ops q1 with
      | none => none
      | some (bs, q2) => some (b :: bs, q2)

/-- The queue depth seen by the consumer, `0` while the flag blocks it. -/
def queueDepth (L : Nat) (q : SyncQueue α) : Int :=
  match queueReadSize L q with
  | none => 0
  | some (n, _) => n

/-- Number of `push` calls of a run that returned `true`, given the calls and
the values they returned. -/
def pushesTrue : List (QueueOp α) → List Bool → Nat
  | QueueOp.push _ :: ops, b :: bs => (if b = true then 1 else 0) + pushesTrue ops bs
  | QueueOp.pop :: ops, _ :: bs => pushesTrue ops bs
  | _, _ => 0

/-- Number of `pop` calls of a run that returned `true`. -/
def popsTrue : List (QueueOp α) → List Bool → Nat
  | QueueOp.push _ :: ops, _ :: bs => popsTrue ops bs
  | QueueOp.pop :: ops, b :: bs => (if b = true then 1 else 0) + popsTrue ops bs
  | _, _ => 0

/-- Number of unread entries thrown away during a run: each `push` that finds
the write index behind the read index (the clearing branch of the write-size
computation) loses the entries that were unread at that moment. -/
def discarded [HasTimestamp α] (L : Nat) : List (QueueOp α) → SyncQueue α → Int
  | [], _ => 0
  | QueueOp.push t :: ops, q =>
    (if q.writePos < q.readPos then queueDepth L q else 0)
      + discarded L ops (queuePush L q t).2
  | QueueOp.pop :: ops, q =>
    match queuePop L q with
    | none => 0
    | some (_, q1) => discarded L ops q1

/-- A pattern-queue entry used in the concrete runs below; `n` is its
timestamp. -/
def sampleEntry (n : Nat) : pattSyncData_t :=
  { timer := 1, patternPos := 0, pattern := 0, songPos := 0, speed := 6, tempo := 125,
    globalVol := 64, timestamp := n }

/-- A pattern queue right after `resetSyncQueues`. -/
def resetPattQueue : SyncQueue pattSyncData_t :=
  resetSyncQueue { data := fun _ => sampleEntry 0, readPos := 0, writePos := 0,
                   clearing := false }

/-- `n` pushes of entries with timestamps `start+1 .. start+n`. -/
def pushesOf (start : Nat) : Nat → List (QueueOp pattSyncData_t)
  | 0 => []
  | n + 1 => QueueOp.push (sampleEntry (start + 1)) :: pushesOf (start + 1) n

/-- Five entries, as in the scenario of a capacity-7 queue. -/
def fiveEntries : List pattSyncData_t :=
  [sampleEntry 1, sampleEntry 2, sampleEntry 3, sampleEntry 4, sampleEntry 5]

/-- Three pushes, two pops, then five pushes: the write index wraps to `0`
while the read index is `2`. -/
def wrappedRun : List (QueueOp pattSyncData_t) :=
  pushesOf 0 3 ++ [QueueOp.pop, QueueOp.pop] ++ pushesOf 3 5

/-- The run `wrappedRun` followed by one more push. -/
def wrappedRunThenPush : List (QueueOp pattSyncData_t) :=
  wrappedRun ++ pushesOf 8 1

/-- One push, one pop, then seven pushes: seven unread entries, with the write
index (`0`) behind the read index (`1`). -/
def fullWrappedRun : List (QueueOp pattSyncData_t) :=
  pushesOf 0 1 ++ [QueueOp.pop] ++ pushesOf 1 7

/-- A pattern queue of capacity 7 with two unread entries, in slots 2 and 3;
slot `n` holds the entry with timestamp `n`. -/
def twoUnread : SyncQueue pattSyncData_t :=
  { data := sampleEntry, readPos := 2, writePos := 4, clearing := false }

/-- A pattern queue of capacity 7 with seven unread entries, in slots 0 to 6. -/
def fullQueue : SyncQueue pattSyncData_t :=
  { data := sampleEntry, readPos := 0, writePos := 7, clearing := false }

/-- A pattern queue of capacity 7 whose write index has wrapped: six unread
entries, in slots 2 to 7. -/
def wrappedQueue : SyncQueue pattSyncData_t :=
  { data := sampleEntry, readPos := 2, writePos := 0, clearing := false }

/-! ## Voices

The declarations of `voice_t`, `audio_t`, `stmTyp` and `sampleTyp` are in
headers outside the translated file; the structures below have the fields the
translated functions read and write.  Counters and positions are unbounded
integers and a store between two of them copies the value; the one signed
addition of `voiceTrigger` wraps at 32 bits.  `float` values live in a type
`F` with the operations the code applies to them, so that what is proved holds
for every arithmetic, IEEE single precision included. -/

/-- The `float` operations used by the voice code: `0.0f`, `*`, binary and
unary `-`, conversion from an integer, and the comparisons `>` and `==`. -/
class FloatOps (F : Type) extends Zero F, Mul F, Sub F, Neg F, IntCast F where
  gt : F → F → Bool
  feq : F → F → Bool

/-- Exact rational arithmetic as an instance of the `float` operations. -/
instance : FloatOps ℚ where
  gt a b := decide (a > b)
  feq a b := decide (a = b)

/-- Sample memory behind a non-null `pek` pointer, seen as `int8_t` elements
(`s8 i` is `((const int8_t *)pek)[i]`) and as `int16_t` elements. -/
structure SampleData where
  s8 : Int → Int
  s16 : Int → Int

/-- The fields of `sampleTyp` read by `voiceTrigger`; `pek = none` is `NULL`. -/
structure sampleTyp where
  len : Int
  repS : Int
  repL : Int
  typ : Nat
  pek : Option SampleData

/-- A voice (`voice_t`).  `endPos` is the C field `end`; a pointer into sample
memory is the memory and an element offset; `pan` holds a `uint8_t` value. -/
structure voice_t (F : Type) where
  base8 : Option SampleData
  revBase8 : Option (SampleData × Int)
  base16 : Option SampleData
  revBase16 : Option (SampleData × Int)
  active : Bool
  backwards : Bool
  isFadeOutVoice : Bool
  hasLooped : Bool
  mixFuncOffset : Nat
  pan : Nat
  loopType : Nat
  pos : Int
  endPos : Int
  loopStart : Int
  loopLength : Int
  volRampSamples : Int
  revDelta : Nat
  posFrac : Nat
  delta : Nat
  fTapFixSample : F
  fVol : F
  fDestVolL : F
  fDestVolR : F
  fVolL : F
  fVolR : F
  fVolDeltaL : F
  fVolDeltaR : F

/-- The fields of `audio` read by the voice code. -/
structure audio_t (F : Type) where
  volumeRampingFlag : Bool
  interpolationType : Nat
  quickVolRampSamples : Int
  samplesPerTick : Int
  fRampQuickVolMul : F
  fRampTickMul : F

/-- The fields of a replayer channel (`stmTyp`) read or written by
`updateVoices` and `fillVisualsSyncBuffer`. -/
structure stmTyp (F : Type) where
  status : Nat
  tmpStatus : Nat
  fFinalVol : F
  finalPan : Nat
  finalPeriod : Nat
  smpPtr : sampleTyp
  smpStartPos : Int
  fineTune : Int
  relTonNr : Int
  instrNr : Nat
  sampleNr : Nat
  envSustainActive : Bool

/-- What the voice code reads and does not write: the constants `MAX_VOICES`
and `IS_*` of the headers, `audio`, the panning table `fPanningTab`,
`song.antChn`, and the two functions `getMixerDelta` and `getRevMixerDelta`
of the replayer. -/
structure MixerEnv (F : Type) where
  MAX_VOICES : Nat
  IS_Vol : Nat
  IS_Period : Nat
  IS_NyTon : Nat
  IS_Pan : Nat
  IS_QuickVol : Nat
  audio : audio_t F
  fPanningTab : Nat → F
  antChn : Nat
  getMixerDelta : Nat → Nat
  getRevMixerDelta : Nat → Nat

/-- What `updateVoices` reads and writes: the voice table `voice` (primary
voice `i` at index `i`, its fade-out voice at `MAX_VOICES + i`), the channels
`stm`, and the cached period with its two deltas. -/
structure MixerState (F : Type) where
  voice : Nat → voice_t F
  stm : Nat → stmTyp F
  oldPeriod : Int
  oldDelta : Nat
  oldRevDelta : Nat

/-- Two's-complement wrap of a signed 32-bit result. -/
def wrapInt32 (x : Int) : Int :=
  (x + 2 ^ 31) % 2 ^ 32 - 2 ^ 31

variable {F : Type}

/-- The block of `voiceUpdateVolumes` commented "setup fade out voice": when
the current left or right gain of voice `i` is above zero, the voice is copied
to `voice[MAX_VOICES + i]` and the copy gets the quick ramp to silence. -/
def setupFadeOutVoice [FloatOps F] (E : MixerEnv F) (voice : Nat → voice_t F) (i : Nat) :
    Nat → voice_t F :=
  if FloatOps.gt (voice i).fVolL 0 = true ∨ FloatOps.gt (voice i).fVolR 0 = true then
    let f := E.MAX_VOICES + i
    let a := Function.update voice f (voice i)
    let a := Function.update a f { a f with volRampSamples := E.audio.quickVolRampSamples }
    let fDestVolL := -(a f).fVolL
    let fDestVolR := -(a f).fVolR
    let a := Function.update a f { a f with fVolDeltaL := fDestVolL * E.audio.fRampQuickVolMul }
    let a := Function.update a f { a f with fVolDeltaR := fDestVolR * E.audio.fRampQuickVolMul }
    Function.update a f { a f with isFadeOutVoice := true }
  else voice

/-- The block of `voiceUpdateVolumes` guarded by `status & IS_NyTon`: set up
the fade-out voice, then make voice `i` fade in from zero. -/
def rampOutIn [FloatOps F] (E : MixerEnv F) (voice : Nat → voice_t F) (i : Nat)
    (status : Nat) : Nat → voice_t F :=
  if status &&& E.IS_NyTon ≠ 0 then
    let voice1 := setupFadeOutVoice E voice i
    Function.update voice1 i { voice1 i with fVolL := 0, fVolR := 0 }
  else voice

/-- The block of `voiceUpdateVolumes` commented "ramp volume changes";
`fVolL` and `fVolR` are the two locals of that name. -/
def rampVolumeChanges [FloatOps F] (E : MixerEnv F) (fVolL fVolR : F)
    (voice : Nat → voice_t F) (i : Nat) (status : Nat) : Nat → voice_t F :=
  if FloatOps.feq fVolL (voice i).fVolL = true ∧ FloatOps.feq fVolR (voice i).fVolR = true
      ∧ ¬ (status &&& E.IS_NyTon ≠ 0) then
    Function.update voice i { voice i with volRampSamples := 0 }
  else
    let fDestVolL := fVolL - (voice i).fVolL
    let fDestVolR := fVolR - (voice i).fVolR
    if status &&& E.IS_QuickVol ≠ 0 then
      Function.update voice i
        { voice i with
          volRampSamples := E.audio.quickVolRampSamples
          fVolDeltaL := fDestVolL * E.audio.fRampQuickVolMul
          fVolDeltaR := fDestVolR * E.audio.fRampQuickVolMul }
    else
      Function.update voice i
        { voice i with
          volRampSamples := E.audio.samplesPerTick
          fVolDeltaL := fDestVolL * E.audio.fRampTickMul
          fVolDeltaR := fDestVolR * E.audio.fRampTickMul }

/-- The function `voiceUpdateVolumes(i, status)`, as a transformer of the voice
table: its three blocks in the order of the source. -/
def voiceUpdateVolumes [FloatOps F] (E : MixerEnv F) (voice : Nat → voice_t F) (i : Nat)
    (status : Nat) : Nat → voice_t F :=
  let fVolL := (voice i).fVol * E.fPanningTab (256 - (voice i).pan)
  let fVolR := (voice i).fVol * E.fPanningTab (voice i).pan
  if E.audio.volumeRampingFlag = false then
    Function.update voice i
      { voice i with fVolL := fVolL, fVolR := fVolR, volRampSamples := 0 }
  else
    let voice1 := Function.update voice i
      { voice i with fDestVolL := fVolL, fDestVolR := fVolR }
    let voice2 := rampOutIn E voice1 i status
    rampVolumeChanges E fVolL fVolR voice2 i status

/-- The function `voiceTrigger(i, s, position)`, on the voice `v = &voice[i]`.
The four `assert`s on the parity of the byte fields of a 16-bit sample compile
to nothing in a release build and are not part of the function; `>>= 1` on a
signed value is the arithmetic shift. -/
def voiceTrigger [FloatOps F] (audio : audio_t F) (v : voice_t F) (s : sampleTyp)
    (position : Int) : voice_t F :=
  let loopType0 := s.typ &&& 3
  let sampleIs16Bit : Bool := decide ((s.typ >>> 4) &&& 1 ≠ 0)
  let length := if sampleIs16Bit = true then s.len >>> (1 : Nat) else s.len
  let loopStart := if sampleIs16Bit = true then s.repS >>> (1 : Nat) else s.repS
  let loopLength := if sampleIs16Bit = true then s.repL >>> (1 : Nat) else s.repL
  let loopEnd :=
    if sampleIs16Bit = true then wrapInt32 (s.repS + s.repL) >>> (1 : Nat)
    else wrapInt32 (s.repS + s.repL)
  match s.pek with
  | none => { v with active := false }
  | some pek =>
    if length < 1 then { v with active := false }
    else
      let loopType := if loopLength < 1 then 0 else loopType0
      let v1 : voice_t F :=
        if sampleIs16Bit = true then
          let a := { v with base16 := some pek }
          let a := { a with revBase16 := some (pek, loopStart + loopEnd) }
          if loopType = 1 then { a with fTapFixSample := ((pek.s16 (loopEnd - 1) : Int) : F) }
          else if loopType = 2 then { a with fTapFixSample := ((pek.s16 loopStart : Int) : F) }
          else a
        else
          let a := { v with base8 := some pek }
          let a := { a with revBase8 := some (pek, loopStart + loopEnd) }
          if loopType = 1 then { a with fTapFixSample := ((pek.s8 (loopEnd - 1) : Int) : F) }
          else if loopType = 2 then { a with fTapFixSample := ((pek.s8 loopStart : Int) : F) }
          else a
      let v2 : voice_t F :=
        { v1 with
          hasLooped := false
          backwards := false
          loopType := loopType
          endPos := if loopType > 0 then loopEnd else length
          loopStart := loopStart
          loopLength := loopLength
          pos := position
          posFrac := 0 }
      if v2.pos ≥ v2.endPos then { v2 with active := false }
      else
        { v2 with
          mixFuncOffset :=
            ((if sampleIs16Bit = true then 1 else 0) * 9 + audio.interpolationType * 3
              + loopType) % 256
          active := true }

/-- The three statements of the loop body of `updateVoices` guarded by
`IS_Vol`, `IS_Pan` and `IS_Vol + IS_Pan`. -/
def updateVolPan [FloatOps F] (E : MixerEnv F) (i : Nat) (status : Nat) (st : MixerState F) :
    MixerState F :=
  let st1 :=
    if status &&& E.IS_Vol ≠ 0 then
      { st with voice := (Function.update st.voice i
          { st.voice i with fVol := (st.stm i).fFinalVol }) }
    else st
  let st2 :=
    if status &&& E.IS_Pan ≠ 0 then
      { st1 with voice := (Function.update st1.voice i
          { st1.voice i with pan := (st1.stm i).finalPan }) }
    else st1
  if status &&& (E.IS_Vol + E.IS_Pan) ≠ 0 then
    { st2 with voice := voiceUpdateVolumes E st2.voice i status }
  else st2

/-- The statement of the loop body of `updateVoices` guarded by `IS_Period`:
the cached deltas, recomputed when the period differs from the cached one. -/
def updatePeriod [FloatOps F] (E : MixerEnv F) (i : Nat) (status : Nat) (st : MixerState F) :
    MixerState F :=
  if status &&& E.IS_Period ≠ 0 then
    let period : Nat := (st.stm i).finalPeriod
    let c :=
      if (period : Int) ≠ st.oldPeriod then
        { st with
          oldPeriod := (period : Int)
          oldDelta := E.getMixerDelta period
          oldRevDelta := E.getRevMixerDelta period }
      else st
    { c with voice := (Function.update c.voice i
        { c.voice i with delta := c.oldDelta, revDelta := c.oldRevDelta }) }
  else st

/-- The statement of the loop body of `updateVoices` guarded by `IS_NyTon`. -/
def updateTrigger [FloatOps F] (E : MixerEnv F) (i : Nat) (status : Nat) (st : MixerState F) :
    MixerState F :=
  if status &&& E.IS_NyTon ≠ 0 then
    { st with voice := (Function.update st.voice i
        (voiceTrigger E.audio (st.voice i) (st.stm i).smpPtr (st.stm i).smpStartPos)) }
  else st

/-- The first statement of the loop body of `updateVoices`:
`ch->tmpStatus = ch->status`. -/
def storeTmpStatus (i : Nat) (st : MixerState F) : MixerState F :=
  { st with stm := Function.update st.stm i { st.stm i with tmpStatus := (st.stm i).status } }

/-- The statement `ch->status = 0` of the loop body of `updateVoices`. -/
def clearStatus (i : Nat) (st : MixerState F) : MixerState F :=
  { st with stm := Function.update st.stm i { st.stm i with status := 0 } }

/-- The body of the loop of `updateVoices` for channel `i`. -/
def updateVoicesChannel [FloatOps F] (E : MixerEnv F) (i : Nat) (st : MixerState F) :
    MixerState F :=
  let status := (st.stm i).status
  let st1 := storeTmpStatus i st
  if status = 0 then st1
  else
    let st2 := clearStatus i st1
    updateTrigger E i status (updatePeriod E i status (updateVolPan E i status st2))

/-- The loop of `updateVoices` from channel `i` on, with `n` channels left. -/
def updateVoicesFrom [FloatOps F] (E : MixerEnv F) : Nat → Nat → MixerState F → MixerState F
  | 0, _, st => st
  | n + 1, i, st => updateVoicesFrom E n (i + 1) (updateVoicesChannel E i st)

/-- The function `updateVoices`: the loop over the channels `0 .. song.antChn - 1`. -/
def updateVoices [FloatOps F] (E : MixerEnv F) (st : MixerState F) : MixerState F :=
  updateVoicesFrom E E.antChn 0 st

/-! ### The trigger conditions in the words of the specification -/

/-- Whether the descriptor is flagged 16-bit: bit 4 of the type byte. -/
def specIs16Bit (s : sampleTyp) : Bool := decide ((s.typ >>> 4) &&& 1 ≠ 0)

/-- The sample length in sample units: `len`, halved for 16-bit data. -/
def specLength (s : sampleTyp) : Int :=
  if specIs16Bit s = true then s.len / 2 else s.len

/-- The loop length in sample units. -/
def specLoopLength (s : sampleTyp) : Int :=
  if specIs16Bit s = true then s.repL / 2 else s.repL

/-- The loop end, loop start plus loop length, in sample units. -/
def specLoopEnd (s : sampleTyp) : Int :=
  if specIs16Bit s = true then (s.repS + s.repL) / 2 else s.repS + s.repL

/-- The playable end: the loop end when the loop-type bits are non-zero and
the loop length is at least 1, the sample length otherwise. -/
def specPlayableEnd (s : sampleTyp) : Int :=
  if s.typ &&& 3 ≠ 0 ∧ 1 ≤ specLoopLength s then specLoopEnd s else specLength s

/-! ### Concrete voices and samples -/

/-- A voice as `stopVoice` leaves it: all zero, pan 128. -/
def stoppedVoice : voice_t ℚ :=
  { base8 := none, revBase8 := none, base16 := none, revBase16 := none,
    active := false, backwards := false, isFadeOutVoice := false, hasLooped := false,
    mixFuncOffset := 0, pan := 128, loopType := 0, pos := 0, endPos := 0, loopStart := 0,
    loopLength := 0, volRampSamples := 0, revDelta := 0, posFrac := 0, delta := 0,
    fTapFixSample := 0, fVol := 0, fDestVolL := 0, fDestVolR := 0, fVolL := 0, fVolR := 0,
    fVolDeltaL := 0, fVolDeltaR := 0 }

/-- Audio settings at 48 kHz: ramping on, linear interpolation, a 240-sample
quick ramp and 960 samples per tick. -/
def demoAudio : audio_t ℚ :=
  { volumeRampingFlag := true, interpolationType := 1, quickVolRampSamples := 240,
    samplesPerTick := 960, fRampQuickVolMul := 1 / 240, fRampTickMul := 1 / 960 }

/-- Sample memory holding zeros. -/
def silence : SampleData := { s8 := fun _ => 0, s16 := fun _ => 0 }

/-- An 8-bit sample of 10 bytes whose forward loop (start 5, length 10) runs
past the end of the data. -/
def overrunSample : sampleTyp :=
  { len := 10, repS := 5, repL := 10, typ := 1, pek := some silence }

/-- A 16-bit sample of 2000 bytes with a forward loop over bytes 200 to 1000:
1000 sample units, loop end at unit 500. -/
def loopSample : sampleTyp :=
  { len := 2000, repS := 200, repL := 800, typ := 17, pek := some silence }

/-! ### Gains in the words of the specification -/

/-- The destination left gain of a voice: linear volume times the panning
curve at `256 - pan`. -/
def destVolL [FloatOps F] (E : MixerEnv F) (v : voice_t F) : F :=
  v.fVol * E.fPanningTab (256 - v.pan)

/-- The destination right gain of a voice: linear volume times the panning
curve at `pan`. -/
def destVolR [FloatOps F] (E : MixerEnv F) (v : voice_t F) : F :=
  v.fVol * E.fPanningTab v.pan

/-- The left gain a ramp starts from: silence when the update accompanies a
trigger, the current left gain otherwise. -/
def rampStartL [FloatOps F] (E : MixerEnv F) (status : Nat) (v : voice_t F) : F :=
  if status &&& E.IS_NyTon ≠ 0 then 0 else v.fVolL

/-- The right gain a ramp starts from. -/
def rampStartR [FloatOps F] (E : MixerEnv F) (status : Nat) (v : voice_t F) : F :=
  if status &&& E.IS_NyTon ≠ 0 then 0 else v.fVolR

/-- A voice with its destination gains recomputed from its volume and pan. -/
def withDestVol [FloatOps F] (E : MixerEnv F) (v : voice_t F) : voice_t F :=
  { v with fDestVolL := destVolL E v, fDestVolR := destVolR E v }

/-- The fade-out copy of a voice: the voice itself with the quick ramp count,
gain deltas that take its current gains to silence over the quick ramp, and
the fade-out mark. -/
def fadeOutCopy [FloatOps F] (E : MixerEnv F) (v : voice_t F) : voice_t F :=
  { v with
    volRampSamples := E.audio.quickVolRampSamples
    fVolDeltaL := -v.fVolL * E.audio.fRampQuickVolMul
    fVolDeltaR := -v.fVolR * E.audio.fRampQuickVolMul
    isFadeOutVoice := true }

/-- A voice with the volume and pan of its channel stored into it, each when
the channel's status has the matching changed-bit. -/
def withChannelVolPan (E : MixerEnv F) (ch : stmTyp F) (v : voice_t F) : voice_t F :=
  { v with
    fVol := if ch.status &&& E.IS_Vol ≠ 0 then ch.fFinalVol else v.fVol
    pan := if ch.status &&& E.IS_Pan ≠ 0 then ch.finalPan else v.pan }

/-- The condition under which a tick sets up a fade-out voice for a channel:
ramping is enabled, the channel's status has the trigger bit and the volume or
pan bit, and the current left or right gain of its voice is above zero. -/
def Retriggers [FloatOps F] (E : MixerEnv F) (ch : stmTyp F) (v : voice_t F) : Prop :=
  E.audio.volumeRampingFlag = true ∧ ch.status &&& E.IS_NyTon ≠ 0 ∧
  ch.status &&& (E.IS_Vol + E.IS_Pan) ≠ 0 ∧
  (FloatOps.gt v.fVolL 0 = true ∨ FloatOps.gt v.fVolR 0 = true)

/-- Entries 0, 64 and 256 of the square-root panning table, which are the
rational values 0, 1/2 and 1; the concrete runs read no other entry. -/
def demoPanTab : Nat → ℚ :=
  fun i => if i = 256 then 1 else if i = 64 then 1 / 2 else 0

/-- An environment with 32 voices, the status bits 1, 2, 4, 8 and 16, eight
channels, and stand-ins for the two delta functions of the replayer. -/
def demoEnv : MixerEnv ℚ :=
  { MAX_VOICES := 32, IS_Vol := 1, IS_Period := 2, IS_NyTon := 4, IS_Pan := 8,
    IS_QuickVol := 16, audio := demoAudio, fPanningTab := demoPanTab, antChn := 8,
    getMixerDelta := fun p => 2 ^ 32 / (p + 1), getRevMixerDelta := fun p => p + 1 }

/-- A voice playing hard left (pan 0) at gain 1, with no ramp pending. -/
def playingVoice : voice_t ℚ :=
  { stoppedVoice with active := true, pan := 0, endPos := 100, fVol := 1, fDestVolL := 1,
                      fVolL := 1 }

/-- The environment `demoEnv` with volume ramping disabled. -/
def demoEnvNoRamp : MixerEnv ℚ :=
  { demoEnv with audio := { demoAudio with volumeRampingFlag := false } }

/-- A channel with the given status, final volume 1, final pan 0 and the
sample `loopSample` to start at position 0. -/
def demoChannel (status : Nat) : stmTyp ℚ :=
  { status := status, tmpStatus := 0, fFinalVol := 1, finalPan := 0, finalPeriod := 428,
    smpPtr := loopSample, smpStartPos := 0, fineTune := 0, relTonNr := 0, instrNr := 1,
    sampleNr := 0, envSustainActive := false }

/-- A mixer state in which voice 0 plays (`playingVoice`) and every other
voice is stopped, channel 0 has the given status, every other channel has
status 0, and the period cache is as `resetCachedMixerVars` leaves it. -/
def demoState (status : Nat) : MixerState ℚ :=
  { voice := fun k => if k = 0 then playingVoice else stoppedVoice
    stm := fun k => if k = 0 then demoChannel status else demoChannel 0
    oldPeriod := -1
    oldDelta := 0
    oldRevDelta := 2 ^ 32 - 1 }

/-- A voice table whose voice 0 plays hard left at gain 1 and has just been
given the volume 1/2; every other voice is stopped. -/
def quieterVoices : Nat → voice_t ℚ :=
  fun k => if k = 0 then { playingVoice with fVol := 1 / 2 } else stoppedVoice

/-- A voice table whose voice 0 plays hard left at gain 1 and has just been
given the volume 0; every other voice is stopped. -/
def mutedVoices : Nat → voice_t ℚ :=
  fun k => if k = 0 then { playingVoice with fVol := 0 } else stoppedVoice

/-! ## Tick length

`double` values are exact rationals; the tables of `audio` that `calcReplayRate`
fills (outside the translated file) are parameters, and so is `MAX_BPM`. -/

/-- The tables `audio.dSamplesPerTickTab`, `audio.tickTimeTab` and
`audio.fRampTickMulTab`, and the constant `MAX_BPM`. -/
structure SpeedTables (F : Type) where
  MAX_BPM : Nat
  dSamplesPerTickTab : Nat → ℚ
  tickTimeTab : Nat → Nat
  fRampTickMulTab : Nat → F

/-- What `P_SetSpeed` writes: `audio.samplesPerTick` and `audio.fRampTickMul`
(inside `audio`), `audio.dSamplesPerTick`, and the statics `tickTimeLen` and
`tickTimeLenFrac`. -/
structure TickTiming (F : Type) where
  audio : audio_t F
  dSamplesPerTick : ℚ
  tickTimeLen : Nat
  tickTimeLenFrac : Nat

/-- The conversion `(int32_t)x` of a `double`: truncation toward zero (the
conversion is undefined in C when the result does not fit). -/
def truncToInt (x : ℚ) : Int :=
  Int.tdiv x.num x.den

/-- The function `P_SetSpeed(bpm)`. -/
def P_SetSpeed (T : SpeedTables F) (bpm : Nat) (st : TickTiming F) : TickTiming F :=
  if bpm = 0 then st
  else if bpm > T.MAX_BPM then st
  else
    let st1 := { st with dSamplesPerTick := T.dSamplesPerTickTab bpm }
    let st2 := { st1 with
      audio := { st1.audio with samplesPerTick := truncToInt (st1.dSamplesPerTick + 1 / 2) } }
    let tickTimeLen64 := T.tickTimeTab bpm
    let st3 := { st2 with tickTimeLen := (tickTimeLen64 >>> 32) % 2 ^ 32 }
    let st4 := { st3 with tickTimeLenFrac := tickTimeLen64 &&& (2 ^ 32 - 1) }
    { st4 with audio := { st4.audio with fRampTickMul := T.fRampTickMulTab bpm } }

/-! ## The audio callback

The replayer tick (`resetRampVolumes`, `tickReplayer`, `updateVoices`,
`fillVisualsSyncBuffer`) and `mixAudio` act on a state `σ` that the scheduling
loop does not look at; the tick may also change `audio.dSamplesPerTick`, through
`P_SetSpeed`.  Both are parameters of the loop. -/

/-- The state of the scheduling loop: the state `σ` of replayer and mixer, and
the two fields `audio.dTickSampleCounter` and `audio.dSamplesPerTick`. -/
structure CallbackState (σ : Type) where
  world : σ
  dTickSampleCounter : ℚ
  dSamplesPerTick : ℚ

/-- A call of `mixAudio` made by the callback: the block size `samplesToMix`
and the value of `audio.dTickSampleCounter` at the call. -/
structure MixCall where
  samples : Int
  counter : ℚ

/-- The `while (samplesLeft > 0)` loop of `audioCallback`, run for at most
`fuel` iterations (`none` when they do not suffice).  `tick w s` is the replayer
tick on state `w` with samples-per-tick value `s`: it returns the new state and
samples-per-tick value.  `mix w n` is `mixAudio(stream, n, pmpChannels)`.  The
result lists the `mixAudio` calls in order. -/
def audioCallbackLoop {σ : Type} (tick : σ → ℚ → σ × ℚ) (mix : σ → Int → σ) :
    Nat → Int → CallbackState σ → Option (List MixCall × CallbackState σ)
  | 0, samplesLeft, st => if samplesLeft > 0 then none else some ([], st)
  | fuel + 1, samplesLeft, st =>
    if samplesLeft > 0 then
      let st1 :=
        if st.dTickSampleCounter ≤ 0 then
          let r := tick st.world st.dSamplesPerTick
          let a := { st with world := r.1, dSamplesPerTick := r.2 }
          { a with dTickSampleCounter := a.dTickSampleCounter + a.dSamplesPerTick }
        else st
      let remainingTick : Int := ⌈st1.dTickSampleCounter⌉
      let samplesToMix := if samplesLeft > remainingTick then remainingTick else samplesLeft
      let st2 := { st1 with world := mix st1.world samplesToMix }
      let st3 := { st2 with dTickSampleCounter := st2.dTickSampleCounter - (samplesToMix : ℚ) }
      match audioCallbackLoop tick mix fuel (samplesLeft - samplesToMix) st3 with
      | none => none
      | some (calls, st4) =>
        some ({ samples := samplesToMix, counter := st1.dTickSampleCounter } :: calls, st4)
    else some ([], st)

/-- The function `audioCallback(userdata, stream, len)`; `wavIsRendering` is
`editor.wavIsRendering` and the division is the truncating division of C. -/
def audioCallback {σ : Type} (tick : σ → ℚ → σ × ℚ) (mix : σ → Int → σ)
    (wavIsRendering : Bool) (pmpCountDiv : Int) (fuel : Nat) (len : Int)
    (st : CallbackState σ) : Option (List MixCall × CallbackState σ) :=
  if wavIsRendering = true then some ([], st)
  else
    let samplesLeft := Int.tdiv len pmpCountDiv
    if samplesLeft ≤ 0 then some ([], st)
    else audioCallbackLoop tick mix fuel samplesLeft st

/-- A replayer tick that keeps the state and sets half a sample per tick. -/
def halfSampleTick : Unit → ℚ → Unit × ℚ := fun w _ => (w, 1 / 2)

/-- A replayer tick that keeps the state and sets 5/2 samples per tick. -/
def shortTick : Unit → ℚ → Unit × ℚ := fun w _ => (w, 5 / 2)

/-- The callback state right after `setupAudio`: tick counter 0. -/
def freshCallback : CallbackState Unit :=
  { world := (), dTickSampleCounter := 0, dSamplesPerTick := 0 }

/-! ## The output stage

The send routines read the mix buffers and write the elements of the output
stream in order; the stream a routine writes is the list it returns. -/

/-- The `float` operations of the output stage, on top of those of the voice
code: `+`, `/`, `1.0f`, `0.5f`, the comparison `<` and the conversion
`(int32_t)x`. -/
class FloatConv (F : Type) extends FloatOps F, Add F, Div F, One F where
  half : F
  lt : F → F → Bool
  toInt32 : F → Int

/-- Exact rational arithmetic as an instance of the output-stage operations;
`(int32_t)x` truncates toward zero. -/
instance : FloatConv ℚ where
  half := 1 / 2
  lt a b := decide (a < b)
  toInt32 := truncToInt

/-- Modelled from the spec: the macro `CLAMP16` of the headers, which the spec
describes as the hard clamp to the 16-bit range. -/
def CLAMP16 (i : Int) : Int :=
  if i > 32767 then 32767 else if i < -32768 then -32768 else i

/-- Modelled from the spec: the macro `CLAMP(x, low, high)` of the headers,
which the spec describes as the clamp to `[low, high]`. -/
def CLAMP [FloatConv F] (x low high : F) : F :=
  if FloatOps.gt x high = true then high else if FloatConv.lt x low = true then low else x

/-- The constant `INITIAL_DITHER_SEED`. -/
def INITIAL_DITHER_SEED : Int := 0x12345000

/-- The dither state: `randSeed`, `fPrngStateL` and `fPrngStateR`. -/
structure DitherState (F : Type) where
  randSeed : Int
  fPrngStateL : F
  fPrngStateR : F

/-- The function `resetAudioDither`. -/
def resetAudioDither [FloatConv F] (d : DitherState F) : DitherState F :=
  let d1 := { d with randSeed := INITIAL_DITHER_SEED }
  let d2 := { d1 with fPrngStateL := 0 }
  { d2 with fPrngStateR := 0 }

/-- The function `random32` on the value of `randSeed`: the new value of
`randSeed`, which is also the value returned. -/
def random32 (randSeed : Int) : Int :=
  wrapInt32 (wrapInt32 (randSeed * 134775813) + 1)

/-- What the send routines read: the two mix buffers and `fAudioNormalizeMul`. -/
structure OutEnv (F : Type) where
  fMixBufferL : Nat → F
  fMixBufferR : Nat → F
  fAudioNormalizeMul : F

/-- The loop of `sendSamples16BitDitherStereo` from index `i` on, with `n`
iterations left. -/
def sendSamples16BitDitherStereoFrom [FloatConv F] (B : OutEnv F) :
    Nat → Nat → DitherState F → List Int × DitherState F
  | 0, _, d => ([], d)
  | n + 1, i, d =>
    let d1 := { d with randSeed := random32 d.randSeed }
    let fPrngL := ((d1.randSeed : Int) : F) * (FloatConv.half / ((2147483647 : Int) : F))
    let fOutL := ((B.fMixBufferL i * B.fAudioNormalizeMul) + fPrngL) - d1.fPrngStateL
    let d2 := { d1 with fPrngStateL := fPrngL }
    let outL := CLAMP16 (FloatConv.toInt32 fOutL)
    let d3 := { d2 with randSeed := random32 d2.randSeed }
    let fPrngR := ((d3.randSeed : Int) : F) * (FloatConv.half / ((2147483647 : Int) : F))
    let fOutR := ((B.fMixBufferR i * B.fAudioNormalizeMul) + fPrngR) - d3.fPrngStateR
    let d4 := { d3 with fPrngStateR := fPrngR }
    let outR := CLAMP16 (FloatConv.toInt32 fOutR)
    let rest := sendSamples16BitDitherStereoFrom B n (i + 1) d4
    (outL :: outR :: rest.1, rest.2)

/-- The function `sendSamples16BitDitherStereo(stream, sampleBlockLength,
numAudioChannels)`: the `int16_t` elements written and the new dither state. -/
def sendSamples16BitDitherStereo [FloatConv F] (B : OutEnv F) (sampleBlockLength : Nat)
    (_numAudioChannels : Nat) (d : DitherState F) : List Int × DitherState F :=
  sendSamples16BitDitherStereoFrom B sampleBlockLength 0 d

/-- The loop of `sendSamples16BitDitherMultiChan` from index `i` on, with `n`
iterations left; the inner loop writes `numAudioChannels - 2` zeroes. -/
def sendSamples16BitDitherMultiChanFrom [FloatConv F] (B : OutEnv F) (numAudioChannels : Nat) :
    Nat → Nat → DitherState F → List Int × DitherState F
  | 0, _, d => ([], d)
  | n + 1, i, d =>
    let d1 := { d with randSeed := random32 d.randSeed }
    let fPrngL := ((d1.randSeed : Int) : F) * (FloatConv.half / ((2147483647 : Int) : F))
    let fOutL := ((B.fMixBufferL i * B.fAudioNormalizeMul) + fPrngL) - d1.fPrngStateL
    let d2 := { d1 with fPrngStateL := fPrngL }
    let outL := CLAMP16 (FloatConv.toInt32 fOutL)
    let d3 := { d2 with randSeed := random32 d2.randSeed }
    let fPrngR := ((d3.randSeed : Int) : F) * (FloatConv.half / ((2147483647 : Int) : F))
    let fOutR := ((B.fMixBufferR i * B.fAudioNormalizeMul) + fPrngR) - d3.fPrngStateR
    let d4 := { d3 with fPrngStateR := fPrngR }
    let outR := CLAMP16 (FloatConv.toInt32 fOutR)
    let zeroes := List.replicate (numAudioChannels - 2) (0 : Int)
    let rest := sendSamples16BitDitherMultiChanFrom B numAudioChannels n (i + 1) d4
    (outL :: outR :: (zeroes ++ rest.1), rest.2)

/-- The function `sendSamples16BitDitherMultiChan`. -/
def sendSamples16BitDitherMultiChan [FloatConv F] (B : OutEnv F) (sampleBlockLength : Nat)
    (numAudioChannels : Nat) (d : DitherState F) : List Int × DitherState F :=
  sendSamples16BitDitherMultiChanFrom B numAudioChannels sampleBlockLength 0 d

/-- The loop of `sendSamples32BitStereo` from index `i` on, with `n` iterations
left. -/
def sendSamples32BitStereoFrom [FloatConv F] (B : OutEnv F) : Nat → Nat → List F
  | 0, _ => []
  | n + 1, i =>
    let fOutL := CLAMP (B.fMixBufferL i * B.fAudioNormalizeMul) (-1) 1
    let fOutR := CLAMP (B.fMixBufferR i * B.fAudioNormalizeMul) (-1) 1
    fOutL :: fOutR :: sendSamples32BitStereoFrom B n (i + 1)

/-- The function `sendSamples32BitStereo`: the `float` elements written. -/
def sendSamples32BitStereo [FloatConv F] (B : OutEnv F) (sampleBlockLength : Nat)
    (_numAudioChannels : Nat) : List F :=
  sendSamples32BitStereoFrom B sampleBlockLength 0

/-- The loop of `sendSamples32BitMultiChan` from index `i` on, with `n`
iterations left. -/
def sendSamples32BitMultiChanFrom [FloatConv F] (B : OutEnv F) (numAudioChannels : Nat) :
    Nat → Nat → List F
  | 0, _ => []
  | n + 1, i =>
    let fOutL := CLAMP (B.fMixBufferL i * B.fAudioNormalizeMul) (-1) 1
    let fOutR := CLAMP (B.fMixBufferR i * B.fAudioNormalizeMul) (-1) 1
    let zeroes := List.replicate (numAudioChannels - 2) (0 : F)
    fOutL :: fOutR :: (zeroes ++ sendSamples32BitMultiChanFrom B numAudioChannels n (i + 1))

/-- The function `sendSamples32BitMultiChan`. -/
def sendSamples32BitMultiChan [FloatConv F] (B : OutEnv F) (sampleBlockLength : Nat)
    (numAudioChannels : Nat) : List F :=
  sendSamples32BitMultiChanFrom B numAudioChannels sampleBlockLength 0

/-! ### Multi-channel output in the words of the specification -/

/-- A stereo stream with every frame widened to `n` channels: left and right
go to the first two channels and the value `z` to the others. -/
def padFrames {α : Type} (n : Nat) (z : α) : List α → List α
  | l :: r :: rest => l :: r :: (List.replicate (n - 2) z ++ padFrames n z rest)
  | _ => []

/-- The first `k` values of `random32` from the seed `s` on. -/
def prngValues : Nat → Int → List Int
  | 0, _ => []
  | k + 1, s => random32 s :: prngValues k (random32 s)

/-- The dither value made from a value of `random32`:
`r * (0.5 / INT32_MAX)`. -/
def ditherValue (r : Int) : ℚ :=
  (r : ℚ) * ((1 / 2) / ((2147483647 : Int) : ℚ))

/-- Mix buffers holding 0.0 in every sample. -/
def zeroMix (mul : ℚ) : OutEnv ℚ :=
  { fMixBufferL := fun _ => 0, fMixBufferR := fun _ => 0, fAudioNormalizeMul := mul }

/-! ## Channel mixing

The mixing kernels (`mixFuncTab`, `silenceMixRoutine`) are not part of this
file of the program: they are parameters here.  A kernel gets a pointer to one
voice and the block length, so it is a function of that voice and the mix
buffers `β`, returning both. -/

/-- The kernels called by `doChannelMixing`: the table `mixFuncTab` and
`silenceMixRoutine`. -/
structure MixKernels (F : Type) (β : Type) where
  mixFuncTab : Nat → voice_t F → Int → β → voice_t F × β
  silenceMixRoutine : voice_t F → Int → β → voice_t F × β

/-- One kernel call: `routine = some k` is `mixFuncTab[k]`, `routine = none` is
`silenceMixRoutine`; `voiceIdx` is the index in `voice` of the voice passed. -/
structure KernelCall where
  routine : Option Nat
  voiceIdx : Nat
  samples : Int
deriving DecidableEq

/-- What `doChannelMixing` reads and writes: the voice table, the mix buffers,
and the kernel calls made so far, in order. -/
structure ChannelMixState (F : Type) (β : Type) where
  voice : Nat → voice_t F
  buffers : β
  calls : List KernelCall

/-- A call of `mixFuncTab[k](&voice[j], samplesToMix)`. -/
def callMixFunc {β : Type} (K : MixKernels F β) (k j : Nat) (samplesToMix : Int)
    (s : ChannelMixState F β) : ChannelMixState F β :=
  { voice := Function.update s.voice j (K.mixFuncTab k (s.voice j) samplesToMix s.buffers).1,
    buffers := (K.mixFuncTab k (s.voice j) samplesToMix s.buffers).2,
    calls := s.calls ++ [{ routine := some k, voiceIdx := j, samples := samplesToMix }] }

/-- A call of `silenceMixRoutine(&voice[j], samplesToMix)`. -/
def callSilenceMix {β : Type} (K : MixKernels F β) (j : Nat) (samplesToMix : Int)
    (s : ChannelMixState F β) : ChannelMixState F β :=
  { voice := Function.update s.voice j (K.silenceMixRoutine (s.voice j) samplesToMix s.buffers).1,
    buffers := (K.silenceMixRoutine (s.voice j) samplesToMix s.buffers).2,
    calls := s.calls ++ [{ routine := none, voiceIdx := j, samples := samplesToMix }] }

/-- The first half of the loop body of `doChannelMixing`, on the primary voice
`v = &voice[i]`.  The second component is `false` when the body ends with
`continue`. -/
def mixPrimaryVoice [FloatOps F] {β : Type} (K : MixKernels F β) (samplesToMix : Int) (i : Nat)
    (s : ChannelMixState F β) : ChannelMixState F β × Bool :=
  let v := s.voice i
  if v.active = true then
    let volRampFlag : Bool := decide (v.volRampSamples > 0)
    if volRampFlag = true then
      let centerMixFlag : Bool :=
        FloatOps.feq v.fDestVolL v.fDestVolR && FloatOps.feq v.fVolDeltaL v.fVolDeltaR
      (callMixFunc K ((centerMixFlag.toNat * 36) + (volRampFlag.toNat * 18) + v.mixFuncOffset)
        i samplesToMix s, true)
    else
      if (FloatOps.feq v.fVolL 0 && FloatOps.feq v.fVolR 0) = true then
        (callSilenceMix K i samplesToMix s, false)
      else
        let centerMixFlag : Bool := FloatOps.feq v.fVolL v.fVolR
        (callMixFunc K ((centerMixFlag.toNat * 36) + (volRampFlag.toNat * 18) + v.mixFuncOffset)
          i samplesToMix s, true)
  else
    (s, true)

/-- The second half of the loop body of `doChannelMixing`, on the fade-out
voice `r = &voice[MAX_VOICES + i]`. -/
def mixFadeOutVoice [FloatOps F] {β : Type} (E : MixerEnv F) (K : MixKernels F β)
    (samplesToMix : Int) (i : Nat) (s : ChannelMixState F β) : ChannelMixState F β :=
  let r := s.voice (E.MAX_VOICES + i)
  if r.active = true then
    let centerMixFlag : Bool :=
      FloatOps.feq r.fDestVolL r.fDestVolR && FloatOps.feq r.fVolDeltaL r.fVolDeltaR
    callMixFunc K ((centerMixFlag.toNat * 36) + 18 + r.mixFuncOffset) (E.MAX_VOICES + i)
      samplesToMix s
  else
    s

/-- The loop body of `doChannelMixing` for channel `i`. -/
def doChannelMixingSlot [FloatOps F] {β : Type} (E : MixerEnv F) (K : MixKernels F β)
    (samplesToMix : Int) (i : Nat) (s : ChannelMixState F β) : ChannelMixState F β :=
  if (mixPrimaryVoice K samplesToMix i s).2 = true then
    mixFadeOutVoice E K samplesToMix i (mixPrimaryVoice K samplesToMix i s).1
  else
    (mixPrimaryVoice K samplesToMix i s).1

/-- The loop of `doChannelMixing` from channel `i` on, with `n` channels left. -/
def doChannelMixingFrom [FloatOps F] {β : Type} (E : MixerEnv F) (K : MixKernels F β)
    (samplesToMix : Int) : Nat → Nat → ChannelMixState F β → ChannelMixState F β
  | 0, _, s => s
  | n + 1, i, s =>
    doChannelMixingFrom E K samplesToMix n (i + 1) (doChannelMixingSlot E K samplesToMix i s)

/-- The function `doChannelMixing(samplesToMix)`. -/
def doChannelMixing [FloatOps F] {β : Type} (E : MixerEnv F) (K : MixKernels F β)
    (samplesToMix : Int) (s : ChannelMixState F β) : ChannelMixState F β :=
  doChannelMixingFrom E K samplesToMix E.antChn 0 s

/-- The calls in a list that were made on the voice with index `t`. -/
def callsOn (t : Nat) (l : List KernelCall) : List KernelCall :=
  l.filter (fun c => decide (c.voiceIdx = t))

/-- The call that the fade-out branch makes on the voice `r` at index `t`. -/
def fadeOutCall [FloatOps F] (r : voice_t F) (t : Nat) (samplesToMix : Int) : KernelCall :=
  { routine := some (36 * (FloatOps.feq r.fDestVolL r.fDestVolR
                            && FloatOps.feq r.fVolDeltaL r.fVolDeltaR).toNat
                      + 18 + r.mixFuncOffset),
    voiceIdx := t, samples := samplesToMix }

/-- Kernels that leave the voice and the buffers as they are. -/
def idleKernels : MixKernels ℚ Unit :=
  { mixFuncTab := fun _ v _ b => (v, b), silenceMixRoutine := fun v _ b => (v, b) }

/-- A voice table in which voice 0 is active with both gains 0 and no ramp
pending, its fade-out voice (index 32) is active with 240 ramp samples left,
and every other voice is stopped. -/
def silentWithFadeOut : Nat → voice_t ℚ :=
  fun k =>
    if k = 0 then { playingVoice with fVol := 0, fVolL := 0, fDestVolL := 0 }
    else if k = 32 then
      { playingVoice with isFadeOutVoice := true, volRampSamples := 240, fDestVolL := 0,
                          fVolDeltaL := -1 / 240 }
    else stoppedVoice

/-- A voice table as `silentWithFadeOut`, but with voice 0 at gain 1. -/
def audibleWithFadeOut : Nat → voice_t ℚ :=
  fun k => if k = 0 then playingVoice else silentWithFadeOut k

/-! ## Choosing the send routine and writing the stream -/

/-- The four functions that `sendAudSamplesFunc` can point to. -/
inductive SendRoutine where
  | sendSamples16BitDitherStereo
  | sendSamples16BitDitherMultiChan
  | sendSamples32BitStereo
  | sendSamples32BitMultiChan
deriving DecidableEq

/-- The function `updateSendAudSamplesRoutine`: the new value of
`sendAudSamplesFunc`, from `config.specialFlags`, the constant `BITDEPTH_16` and
`pmpChannels`.  Locking the mixer is outside the model. -/
def updateSendAudSamplesRoutine (BITDEPTH_16 : Nat) (specialFlags : Nat) (pmpChannels : Int) :
    SendRoutine :=
  if specialFlags &&& BITDEPTH_16 ≠ 0 then
    if pmpChannels > 2 then SendRoutine.sendSamples16BitDitherMultiChan
    else SendRoutine.sendSamples16BitDitherStereo
  else
    if pmpChannels > 2 then SendRoutine.sendSamples32BitMultiChan
    else SendRoutine.sendSamples32BitStereo

/-- The output side of the mixer: the dither state and what has been written
to the stream so far, the `int16_t` elements in `out16` and the `float`
elements in `out32`. -/
structure StreamState (F : Type) where
  dither : DitherState F
  out16 : List Int
  out32 : List F

/-- The number of bytes written to the stream: `sizeof (int16_t)` is 2 and
`sizeof (float)` is 4. -/
def bytesWritten (w : StreamState F) : Nat :=
  2 * w.out16.length + 4 * w.out32.length

/-- The call `sendAudSamplesFunc(stream, sampleBlockLength, numAudioChannels)`
through the function pointer. -/
def callSendRoutine [FloatConv F] (B : OutEnv F) (f : SendRoutine) (sampleBlockLength : Nat)
    (numAudioChannels : Nat) (w : StreamState F) : StreamState F :=
  match f with
  | SendRoutine.sendSamples16BitDitherStereo =>
    { w with
      dither := (sendSamples16BitDitherStereo B sampleBlockLength numAudioChannels w.dither).2,
      out16 := w.out16
        ++ (sendSamples16BitDitherStereo B sampleBlockLength numAudioChannels w.dither).1 }
  | SendRoutine.sendSamples16BitDitherMultiChan =>
    { w with
      dither := (sendSamples16BitDitherMultiChan B sampleBlockLength numAudioChannels w.dither).2,
      out16 := w.out16
        ++ (sendSamples16BitDitherMultiChan B sampleBlockLength numAudioChannels w.dither).1 }
  | SendRoutine.sendSamples32BitStereo =>
    { w with out32 := w.out32 ++ sendSamples32BitStereo B sampleBlockLength numAudioChannels }
  | SendRoutine.sendSamples32BitMultiChan =>
    { w with out32 := w.out32 ++ sendSamples32BitMultiChan B sampleBlockLength numAudioChannels }

/-- The function `mixAudio(stream, sampleBlockLength, numAudioChannels)`.  The
mix buffers are cleared and filled by `doChannelMixing`, whose kernels are not
in this file: `mixed n` stands for the content of the mix buffers after
`doChannelMixing(n)`.  Then the routine in `sendAudSamplesFunc` is called. -/
def mixAudio [FloatConv F] (mixed : Nat → OutEnv F) (sendAudSamplesFunc : SendRoutine)
    (sampleBlockLength : Nat) (numAudioChannels : Nat) (w : StreamState F) : StreamState F :=
  callSendRoutine (mixed sampleBlockLength) sendAudSamplesFunc sampleBlockLength
    numAudioChannels w

/-! ## Opening and closing the audio device -/

/-- Two's-complement wrap of a value stored in an `int8_t`. -/
def wrapInt8 (x : Int) : Int :=
  (x + 128) % 256 - 128

/-- The fields of `SDL_AudioSpec` that `setupAudio` sets or reads. -/
structure SDL_AudioSpec where
  freq : Int
  format : Nat
  channels : Nat
  samples : Nat

/-- The constants of the headers that `setupAudio` reads. -/
structure AudioConsts where
  BITDEPTH_16 : Nat
  BITDEPTH_32 : Nat
  BUFFSIZE_512 : Nat
  BUFFSIZE_1024 : Nat
  BUFFSIZE_2048 : Nat
  MIN_AUDIO_FREQ : Int
  MAX_AUDIO_FREQ : Int
  AUDIO_S16 : Nat
  AUDIO_F32 : Nat

/-- The four error messages of `setupAudio`. -/
inductive SetupError where
  | couldNotOpen
  | badFormat (format : Nat)
  | badRate (freq : Int)
  | notEnoughMemory
deriving DecidableEq

/-- A call to the host made by `setupAudio` or `closeAudio`. -/
inductive HostCall where
  | SDL_PauseAudioDevice (dev : Nat)
  | SDL_CloseAudioDevice (dev : Nat)
  | showErrorMsgBox (msg : SetupError)
deriving DecidableEq

/-- The host as `setupAudio` sees it: `SDL_OpenAudioDevice` maps the device
name and the wanted spec to a device id (0 on failure) and the obtained spec,
and the three allocations succeed or not. -/
structure HostOracle where
  SDL_OpenAudioDevice : Option String → SDL_AudioSpec → Nat × SDL_AudioSpec
  mallocMixBufferL : Bool
  mallocMixBufferR : Bool
  mallocDeviceName : Bool

/-- The variables that `setupAudio` and `closeAudio` read or write, named as in
the program (`audioFreq` and `specialFlags` are fields of `config`, `speed` of
`song`, the others of `audio` or file statics).  A pointer is `true` when it is
not `NULL`; `hostCalls` lists the calls to the host in order. -/
structure AudioSetup where
  dev : Nat
  audioFreq : Int
  specialFlags : Nat
  currOutputDevice : Option String
  wantFreq : Int
  wantSamples : Nat
  wantChannels : Nat
  haveFreq : Int
  haveSamples : Nat
  haveChannels : Nat
  freq : Int
  smpBuffSize : Nat
  pmpChannels : Int
  pmpCountDiv : Int
  lastWorkingAudioFreq : Int
  lastWorkingAudioBits : Nat
  lastWorkingAudioDeviceName : Option String
  fMixBufferLUnaligned : Bool
  fMixBufferRUnaligned : Bool
  fMixBufferL : Bool
  fMixBufferR : Bool
  sendAudSamplesFunc : Option SendRoutine
  dTickSampleCounter : ℚ
  resetSyncTickTimeFlag : Bool
  speed : Nat
  hostCalls : List HostCall

/-- The function `freeAudioBuffers`. -/
def freeAudioBuffers (s : AudioSetup) : AudioSetup :=
  let s1 := if s.fMixBufferLUnaligned = true then { s with fMixBufferLUnaligned := false } else s
  let s2 :=
    if s1.fMixBufferRUnaligned = true then { s1 with fMixBufferRUnaligned := false } else s1
  { s2 with fMixBufferL := false, fMixBufferR := false }

/-- The function `closeAudio`. -/
def closeAudio (s : AudioSetup) : AudioSetup :=
  let s1 :=
    if s.dev > 0 then
      { s with
        hostCalls := s.hostCalls
          ++ [HostCall.SDL_PauseAudioDevice s.dev, HostCall.SDL_CloseAudioDevice s.dev],
        dev := 0 }
    else s
  freeAudioBuffers s1

/-- The function `setupAudioBuffers`: the result and the new state. -/
def setupAudioBuffers (H : HostOracle) (s : AudioSetup) : Bool × AudioSetup :=
  let s1 := { s with fMixBufferLUnaligned := H.mallocMixBufferL,
                     fMixBufferRUnaligned := H.mallocMixBufferR }
  if s1.fMixBufferLUnaligned = false ∨ s1.fMixBufferRUnaligned = false then (false, s1)
  else (true, { s1 with fMixBufferL := true, fMixBufferR := true })

/-- The function `setLastWorkingAudioDevName`: the old copy is freed and, when
there is a current device name, a copy of it is made if memory allows. -/
def setLastWorkingAudioDevName (H : HostOracle) (s : AudioSetup) : AudioSetup :=
  let s1 := { s with lastWorkingAudioDeviceName := none }
  match s1.currOutputDevice with
  | none => s1
  | some name =>
    { s1 with lastWorkingAudioDeviceName := if H.mallocDeviceName = true then some name else none }

/-- The call `showErrorMsgBox(...)` under `if (showErrorMsg)`. -/
def reportSetupError (showErrorMsg : Bool) (msg : SetupError) (s : AudioSetup) : AudioSetup :=
  if showErrorMsg = true then { s with hostCalls := s.hostCalls ++ [HostCall.showErrorMsgBox msg] }
  else s

/-- The start of `setupAudio`, after `closeAudio()`: the default rate, the
buffer size from the flags, and the wanted spec. -/
def setupWant (K : AudioConsts) (s : AudioSetup) : AudioSetup × SDL_AudioSpec :=
  let s1 :=
    if s.audioFreq < K.MIN_AUDIO_FREQ ∨ s.audioFreq > K.MAX_AUDIO_FREQ then
      { s with audioFreq := 48000 }
    else s
  let configAudioBufSize : Nat :=
    if s1.specialFlags &&& K.BUFFSIZE_512 ≠ 0 then 512
    else if s1.specialFlags &&& K.BUFFSIZE_2048 ≠ 0 then 2048
    else 1024
  let s2 := { s1 with wantFreq := s1.audioFreq, wantSamples := configAudioBufSize,
                      wantChannels := 2 }
  (s2, { freq := s2.audioFreq,
         format := if s2.specialFlags &&& K.BITDEPTH_32 ≠ 0 then K.AUDIO_F32 else K.AUDIO_S16,
         channels := 2,
         samples := configAudioBufSize })

/-- The assignment `x &= ~m`. -/
def clearBits (x m : Nat) : Nat := x ^^^ (x &&& m)

/-- The value of `newBitDepth` in `setupAudio`: 16, or 24 when the obtained
format is `AUDIO_F32`. -/
def newBitDepth (K : AudioConsts) (obtained : SDL_AudioSpec) : Int :=
  if obtained.format = K.AUDIO_F32 then 24 else 16

/-- The block "set new bit depth flag" of `setupAudio`. -/
def setBitDepthFlags (K : AudioConsts) (obtained : SDL_AudioSpec) (s : AudioSetup) :
    AudioSetup :=
  let s1 := { s with specialFlags := clearBits s.specialFlags K.BITDEPTH_32 }
  let s2 := { s1 with specialFlags := s1.specialFlags ||| K.BITDEPTH_16 }
  if obtained.format = K.AUDIO_F32 then
    { s2 with specialFlags := clearBits s2.specialFlags K.BITDEPTH_16 ||| K.BITDEPTH_32 }
  else s2

/-- The assignments of `setupAudio` from `audio.haveFreq = have.freq` to
`pmpCountDiv = ...`: the obtained spec is stored, and the channel count and the
frame size in bytes are kept in two `int8_t` variables. -/
def storeObtained (K : AudioConsts) (obtained : SDL_AudioSpec) (s : AudioSetup) : AudioSetup :=
  let s1 := { s with haveFreq := obtained.freq, haveSamples := obtained.samples,
                     haveChannels := obtained.channels }
  let s2 := { s1 with audioFreq := obtained.freq, freq := obtained.freq,
                      smpBuffSize := obtained.samples % 65536 }
  let s3 := { s2 with pmpChannels := wrapInt8 (obtained.channels : Int) }
  { s3 with
    pmpCountDiv := wrapInt8 (s3.pmpChannels * (if newBitDepth K obtained = 16 then 2 else 4)) }

/-- The block "make a copy of the new known working audio settings" of
`setupAudio`. -/
def storeLastWorking (K : AudioConsts) (H : HostOracle) (s : AudioSetup) : AudioSetup :=
  setLastWorkingAudioDevName H
    { s with
      lastWorkingAudioFreq := s.audioFreq,
      lastWorkingAudioBits := s.specialFlags &&&
        (K.BITDEPTH_16 + K.BITDEPTH_32 + K.BUFFSIZE_512 + K.BUFFSIZE_1024 + K.BUFFSIZE_2048) }

/-- The statement `if (song.speed == 0) song.speed = 125;` of `setupAudio`. -/
def defaultSpeed (s : AudioSetup) : AudioSetup :=
  if s.speed = 0 then { s with speed := 125 } else s

/-- The call `updateSendAudSamplesRoutine(false)` and the assignment
`audio.resetSyncTickTimeFlag = true` of `setupAudio`. -/
def setSendRoutine (K : AudioConsts) (s : AudioSetup) : AudioSetup :=
  { s with
    sendAudSamplesFunc :=
      some (updateSendAudSamplesRoutine K.BITDEPTH_16 s.specialFlags s.pmpChannels),
    resetSyncTickTimeFlag := true }

/-- The end of `setupAudio`, from "set new bit depth flag" on, with the obtained
spec `have`.  The calls `calcAudioLatencyVars`, `showConfigScreen`,
`updateWavRendererSettings`, `setAudioAmp`, `stopVoice`, `stopAllScopes`,
`calcReplayRate`, `P_SetSpeed`, `setWavRenderFrequency` and
`setWavRenderBitDepth` write variables that are not in `AudioSetup`. -/
def setupAccepted (K : AudioConsts) (H : HostOracle) (obtained : SDL_AudioSpec)
    (s : AudioSetup) : AudioSetup :=
  let s1 := storeObtained K obtained (setBitDepthFlags K obtained s)
  let s2 := storeLastWorking K H s1
  let s3 := { s2 with dTickSampleCounter := 0 }
  setSendRoutine K (defaultSpeed s3)

/-- The function `setupAudio(showErrorMsg)`: the result and the new state. -/
def setupAudio (K : AudioConsts) (H : HostOracle) (showErrorMsg : Bool) (s : AudioSetup) :
    Bool × AudioSetup :=
  let s1 := closeAudio s
  let s2 := (setupWant K s1).1
  let want := (setupWant K s1).2
  let obtained := (H.SDL_OpenAudioDevice s2.currOutputDevice want).2
  let s3 := { s2 with dev := (H.SDL_OpenAudioDevice s2.currOutputDevice want).1 }
  if s3.dev = 0 then
    (false, reportSetupError showErrorMsg SetupError.couldNotOpen s3)
  else if obtained.format ≠ K.AUDIO_S16 ∧ obtained.format ≠ K.AUDIO_F32 then
    (false, closeAudio (reportSetupError showErrorMsg (SetupError.badFormat obtained.format) s3))
  else if obtained.freq ≠ 44100 ∧ obtained.freq ≠ 48000 ∧ obtained.freq ≠ 96000
      ∧ obtained.freq ≠ 192000 then
    (false, closeAudio (reportSetupError showErrorMsg (SetupError.badRate obtained.freq) s3))
  else if (setupAudioBuffers H s3).1 = false then
    (false, closeAudio
      (reportSetupError showErrorMsg SetupError.notEnoughMemory (setupAudioBuffers H s3).2))
  else
    (true, setupAccepted K H obtained (setupAudioBuffers H s3).2)

/-- Values for the constants of the headers: the flag bits 2, 4, 8, 16 and 32,
the rate limits 44100 and 192000, and the format codes `0x8010` and `0x8120`. -/
def demoConsts : AudioConsts :=
  { BITDEPTH_16 := 2, BITDEPTH_32 := 4, BUFFSIZE_512 := 8, BUFFSIZE_1024 := 16,
    BUFFSIZE_2048 := 32, MIN_AUDIO_FREQ := 44100, MAX_AUDIO_FREQ := 192000,
    AUDIO_S16 := 0x8010, AUDIO_F32 := 0x8120 }

/-- The variables before the first `setupAudio`: no device, 48 kHz, 16 bits
and 1024-sample buffers configured. -/
def freshSetup : AudioSetup :=
  { dev := 0, audioFreq := 48000, specialFlags := 18, currOutputDevice := none,
    wantFreq := 0, wantSamples := 0, wantChannels := 0, haveFreq := 0, haveSamples := 0,
    haveChannels := 0, freq := 0, smpBuffSize := 0, pmpChannels := 2, pmpCountDiv := 0,
    lastWorkingAudioFreq := 0, lastWorkingAudioBits := 0, lastWorkingAudioDeviceName := none,
    fMixBufferLUnaligned := false, fMixBufferRUnaligned := false, fMixBufferL := false,
    fMixBufferR := false, sendAudSamplesFunc := none, dTickSampleCounter := 0,
    resetSyncTickTimeFlag := false, speed := 125, hostCalls := [] }

/-- A host whose device 1 gives what was asked for except the channel count:
it is a device with `channels` channels.  Memory is available. -/
def hostWithChannels (channels : Nat) : HostOracle :=
  { SDL_OpenAudioDevice := fun _ want => (1, { want with channels := channels }),
    mallocMixBufferL := true, mallocMixBufferR := true, mallocDeviceName := true }

/-- A replayer tick that keeps the state and sets 960 samples per tick. -/
def steadyTick : StreamState ℚ → ℚ → StreamState ℚ × ℚ := fun w _ => (w, 960)

/-- The output side right after `setupAudio` and `resetAudioDither`: nothing
written yet. -/
def freshStream : StreamState ℚ :=
  { dither := { randSeed := INITIAL_DITHER_SEED, fPrngStateL := 0, fPrngStateR := 0 },
    out16 := [], out32 := [] }

/-- The device id and the obtained spec that `SDL_OpenAudioDevice` returns when
`setupAudio` is called in state `s`. -/
def openedDevice (K : AudioConsts) (H : HostOracle) (s : AudioSetup) : Nat × SDL_AudioSpec :=
  H.SDL_OpenAudioDevice (setupWant K (closeAudio s)).1.currOutputDevice
    (setupWant K (closeAudio s)).2

/-! ### The loop fields in the words of the specification -/

/-- The loop start in sample units. -/
def specLoopStart (s : sampleTyp) : Int :=
  if specIs16Bit s = true then s.repS / 2 else s.repS

/-- The effective loop type: the two loop bits of the type byte, and none (0)
when the loop length is below 1. -/
def specLoopType (s : sampleTyp) : Nat :=
  if specLoopLength s < 1 then 0 else s.typ &&& 3

/-- The sample value at index `i` in sample units, read from the 16-bit or the
8-bit data according to the bit-depth flag. -/
def specSampleAt (s : sampleTyp) (pek : SampleData) (i : Int) : Int :=
  if specIs16Bit s = true then pek.s16 i else pek.s8 i

/-- The kernel selector of a bit depth, an interpolation type and a loop mode. -/
def specMixFuncOffset (is16Bit : Bool) (interpolationType loopMode : Nat) : Nat :=
  9 * (if is16Bit = true then 1 else 0) + 3 * interpolationType + loopMode

/-- Sample memory whose element `i` is `i` (8-bit view) and `1000 + i` (16-bit
view). -/
def rampData : SampleData := { s8 := fun i => i, s16 := fun i => 1000 + i }

/-- A 16-bit sample of 2000 bytes over `rampData` whose loop bits are both set:
loop over bytes 200 to 1000. -/
def bothLoopBitsSample : sampleTyp :=
  { len := 2000, repS := 200, repL := 800, typ := 19, pek := some rampData }

/-- A 16-bit sample of 2000 bytes over `rampData` with a ping-pong loop over
bytes 200 to 1000. -/
def pingPongSample : sampleTyp :=
  { len := 2000, repS := 200, repL := 800, typ := 18, pek := some rampData }

/-- A 16-bit sample of 2000 bytes over `rampData` with a forward loop over
bytes 200 to 1000. -/
def forwardSample : sampleTyp :=
  { len := 2000, repS := 200, repL := 800, typ := 17, pek := some rampData }

/-- A stopped voice whose cached edge sample is 7 and whose has-looped flag is
set. -/
def tappedVoice : voice_t ℚ :=
  { stoppedVoice with fTapFixSample := 7, hasLooped := true }

/-- Audio settings as `demoAudio`, with interpolation type 2. -/
def demoAudioCubic : audio_t ℚ := { demoAudio with interpolationType := 2 }

/-- The entries passed to the `push` calls of a run, in call order. -/
def pushedEntries : List (QueueOp α) → List α
  | [] => []
  | QueueOp.push t :: ops => t :: pushedEntries ops
  | QueueOp.pop :: ops => pushedEntries ops

/-- Two pushes, a pop and a third push of pattern-queue entries with the
timestamps 11, 12 and 13. -/
def interleavedRun : List (QueueOp pattSyncData_t) :=
  [QueueOp.push (sampleEntry 11), QueueOp.push (sampleEntry 12), QueueOp.pop,
   QueueOp.push (sampleEntry 13)]

/-! ## The pitch cache -/

/-- The function `resetCachedMixerVars`. -/
def resetCachedMixerVars (st : MixerState F) : MixerState F :=
  { st with oldPeriod := -1, oldDelta := 0, oldRevDelta := 4294967295 }

/-- The pitch cache is consistent: `oldPeriod` is -1, or the two cached deltas
are the deltas of the period `oldPeriod`. -/
def CacheConsistent (E : MixerEnv F) (st : MixerState F) : Prop :=
  st.oldPeriod = -1 ∨
    (st.oldDelta = E.getMixerDelta st.oldPeriod.toNat ∧
      st.oldRevDelta = E.getRevMixerDelta st.oldPeriod.toNat)

/-- The pitch update in the words of the specification, without the cache: the
voice of a channel whose pitch changed gets the two deltas of the channel's
period, recomputed. -/
def specUpdatePeriod (E : MixerEnv F) (i : Nat) (status : Nat) (voice : Nat → voice_t F)
    (stm : Nat → stmTyp F) : Nat → voice_t F :=
  if status &&& E.IS_Period ≠ 0 then
    Function.update voice i
      { voice i with delta := E.getMixerDelta (stm i).finalPeriod,
                     revDelta := E.getRevMixerDelta (stm i).finalPeriod }
  else voice

/-- A mixer state in which the first two channels have the pitch-changed bit
set and the periods 428 and 856, with the cache holding period 428. -/
def pitchState : MixerState ℚ :=
  { voice := fun _ => stoppedVoice
    stm := fun k => if k = 1 then { demoChannel 2 with finalPeriod := 856 } else demoChannel 2
    oldPeriod := 428
    oldDelta := 2 ^ 32 / 429
    oldRevDelta := 429 }

/-! ## Snapshots for the visuals

`audio.tickTime64` and `audio.tickTime64Frac` are declared in a header outside
the translated file; both are taken as `uint64_t` (the test against
`UINT32_MAX` needs more than 32 bits), `tickTimeLen` and `tickTimeLenFrac` are
`uint32_t` statics of the file. -/

/-- The fields of `song` read by `fillVisualsSyncBuffer`. -/
structure songTyp where
  curReplayerTimer : Nat
  curReplayerPattPos : Nat
  curReplayerPattNr : Nat
  curReplayerSongPos : Nat
  speed : Nat
  tempo : Nat
  globVol : Nat
  antChn : Nat

/-- What `fillVisualsSyncBuffer` reads and writes: the sync clock in `audio`,
the tick length set by `P_SetSpeed`, `songPlaying`, `song`, the channels `stm`
and the two queues. -/
structure SyncState where
  resetSyncTickTimeFlag : Bool
  tickTime64 : Nat
  tickTime64Frac : Nat
  audLatencyPerfValInt : Int
  audLatencyPerfValFrac : Nat
  tickTimeLen : Nat
  tickTimeLenFrac : Nat
  songPlaying : Bool
  song : songTyp
  stm : Nat → stmTyp ℚ
  pattSync : SyncQueue pattSyncData_t
  chSync : SyncQueue chSyncData_t

/-- The block of `fillVisualsSyncBuffer` under `audio.resetSyncTickTimeFlag`;
`perfCounter` is the value of `SDL_GetPerformanceCounter()`. -/
def resetTickTime (perfCounter : Nat) (st : SyncState) : SyncState :=
  if st.resetSyncTickTimeFlag = true then
    { st with
      resetSyncTickTimeFlag := false
      tickTime64 := (((perfCounter : Int) + st.audLatencyPerfValInt) % 2 ^ 64).toNat
      tickTime64Frac := st.audLatencyPerfValFrac }
  else st

/-- The local variable `pattSyncData` of `fillVisualsSyncBuffer` at the call of
`pattQueuePush`. -/
def pattSnapshot (st : SyncState) : pattSyncData_t :=
  { timer := st.song.curReplayerTimer
    patternPos := st.song.curReplayerPattPos
    pattern := st.song.curReplayerPattNr
    songPos := st.song.curReplayerSongPos
    speed := st.song.speed
    tempo := st.song.tempo % 256
    globalVol := st.song.globVol % 256
    timestamp := st.tickTime64 }

/-- The block of `fillVisualsSyncBuffer` under `songPlaying`; the value that
`pattQueuePush` returns is not used. -/
def pushPattSnapshot (L : Nat) (st : SyncState) : SyncState :=
  if st.songPlaying = true then
    { st with pattSync := (pattQueuePush L st.pattSync (pattSnapshot st)).2 }
  else st

/-- The element of `chSyncData.channels` that the loop of
`fillVisualsSyncBuffer` fills from the channel `s`. -/
def syncChannel (s : stmTyp ℚ) : syncedChannel_t :=
  { finalPeriod := s.finalPeriod
    fineTune := s.fineTune
    relTonNr := s.relTonNr
    instrNr := s.instrNr
    sampleNr := s.sampleNr
    envSustainActive := s.envSustainActive
    status := s.tmpStatus
    fFinalVol := s.fFinalVol
    smpStartPos := s.smpStartPos }

/-- The local variable `chSyncData` of `fillVisualsSyncBuffer` at the call of
`chQueuePush`: the first `song.antChn` channels are filled by the loop, the
others are what the variable held before (`uninit`). -/
def chSnapshot (uninit : chSyncData_t) (st : SyncState) : chSyncData_t :=
  { channels := (List.range st.song.antChn).map (fun i => syncChannel (st.stm i))
      ++ uninit.channels.drop st.song.antChn
    timestamp := st.tickTime64 }

/-- The call `chQueuePush(chSyncData)` of `fillVisualsSyncBuffer`; the value it
returns is not used. -/
def pushChSnapshot (L : Nat) (uninit : chSyncData_t) (st : SyncState) : SyncState :=
  { st with chSync := (chQueuePush L st.chSync (chSnapshot uninit st)).2 }

/-- The last five statements of `fillVisualsSyncBuffer`: the clock is advanced
by the tick length, with the carry from the fraction. -/
def advanceTickTime (st : SyncState) : SyncState :=
  let time := (st.tickTime64 + st.tickTimeLen) % 2 ^ 64
  let frac := (st.tickTime64Frac + st.tickTimeLenFrac) % 2 ^ 64
  if frac > 4294967295 then
    { st with tickTime64Frac := frac &&& (2 ^ 32 - 1), tickTime64 := (time + 1) % 2 ^ 64 }
  else
    { st with tickTime64Frac := frac, tickTime64 := time }

/-- The function `fillVisualsSyncBuffer`. -/
def fillVisualsSyncBuffer (L : Nat) (perfCounter : Nat) (uninit : chSyncData_t)
    (st : SyncState) : SyncState :=
  advanceTickTime (pushChSnapshot L uninit (pushPattSnapshot L (resetTickTime perfCounter st)))

/-- Tables whose entry for every BPM is a tick of 2.75 time units
(`0x2C0000000` in 32.32 fixed point) and 960 samples, with `MAX_BPM` 255. -/
def demoTables : SpeedTables ℚ :=
  { MAX_BPM := 255, dSamplesPerTickTab := fun _ => 960,
    tickTimeTab := fun _ => 11811160064, fRampTickMulTab := fun _ => 1 / 960 }

/-- A tick-timing record before the first `P_SetSpeed`. -/
def demoTiming : TickTiming ℚ :=
  { audio := demoAudio, dSamplesPerTick := 0, tickTimeLen := 0, tickTimeLenFrac := 0 }

/-- A sync state with the clock at 1000 and a fraction of three quarters, the
tick length of `demoTables`, a playing song and two reset queues. -/
def demoSync : SyncState :=
  { resetSyncTickTimeFlag := false, tickTime64 := 1000, tickTime64Frac := 3221225472,
    audLatencyPerfValInt := 0, audLatencyPerfValFrac := 0,
    tickTimeLen := 2, tickTimeLenFrac := 3221225472, songPlaying := true,
    song := { curReplayerTimer := 1, curReplayerPattPos := 0, curReplayerPattNr := 0,
              curReplayerSongPos := 0, speed := 6, tempo := 125, globVol := 64, antChn := 2 },
    stm := fun _ => demoChannel 0,
    pattSync := resetPattQueue,
    chSync := resetSyncQueue { data := fun _ => { channels := [], timestamp := 0 },
                               readPos := 0, writePos := 0, clearing := false } }

/-! ## Tick positions in the sample stream -/

/-- A run of callbacks with the state carried from one to the next: the
`mixAudio` calls of all of them, in order, and the final state. -/
def runCallbacks {σ : Type} (tick : σ → ℚ → σ × ℚ) (mix : σ → Int → σ) (pmpCountDiv : Int)
    (fuel : Nat) : List Int → CallbackState σ → Option (List MixCall × CallbackState σ)
  | [], st => some ([], st)
  | len :: lens, st =>
    match audioCallback tick mix false pmpCountDiv fuel len st with
    | none => none
    | some (calls, st1) =>
      match runCallbacks tick mix pmpCountDiv fuel lens st1 with
      | none => none
      | some (calls1, st2) => some (calls ++ calls1, st2)

/-- What a run is measured by: the number of samples mixed so far, and for
every replayer tick so far the number of samples that had been mixed when it
ran. -/
structure TickTrace where
  mixed : Int
  ticksAt : List Int

/-- A replayer tick that keeps the samples-per-tick value and records its
position in the sample stream. -/
def tracedTick : TickTrace → ℚ → TickTrace × ℚ :=
  fun w s => ({ w with ticksAt := w.ticksAt ++ [w.mixed] }, s)

/-- A `mixAudio` that counts the samples. -/
def tracedMix : TickTrace → Int → TickTrace :=
  fun w n => { w with mixed := w.mixed + n }

/-- The state of the measured run before the first callback, with `s` samples
per tick: nothing mixed, no tick yet, tick counter 0. -/
def freshTrace (s : ℚ) : CallbackState TickTrace :=
  { world := { mixed := 0, ticksAt := [] }, dTickSampleCounter := 0, dSamplesPerTick := s }

/-- The invariant of the measured run: tick number `n` ran after
`ceil (n * s)` samples, the tick counter is the ticks' worth of samples minus
the samples mixed, and it is above -1. -/
def TraceInv (s : ℚ) (st : CallbackState TickTrace) : Prop :=
  st.world.ticksAt = (List.range st.world.ticksAt.length).map (fun (n : Nat) => ⌈(n : ℚ) * s⌉) ∧
  st.dTickSampleCounter = (st.world.ticksAt.length : ℚ) * s - (st.world.mixed : ℚ) ∧
  -1 < st.dTickSampleCounter ∧
  st.dSamplesPerTick = s

/-- A channel as `demoChannel`, with final volume 0. -/
def mutedChannel (status : Nat) : stmTyp ℚ :=
  { status := status, tmpStatus := 0, fFinalVol := 0, finalPan := 0, finalPeriod := 428,
    smpPtr := loopSample, smpStartPos := 0, fineTune := 0, relTonNr := 0, instrNr := 1,
    sampleNr := 0, envSustainActive := false }

/-- A mixer state in which voice 0 plays at gain 1 and channel 0 flags a
trigger together with a volume change (status 5) to the volume 0; every other
voice is stopped and every other channel has status 0. -/
def retriggerToSilence : MixerState ℚ :=
  { voice := fun k => if k = 0 then playingVoice else stoppedVoice
    stm := fun k => if k = 0 then mutedChannel 5 else demoChannel 0
    oldPeriod := -1
    oldDelta := 0
    oldRevDelta := 2 ^ 32 - 1 }

/-- What the replayer does to channel 0 on the next tick of the run below: it
flags a volume change (status 1), again to the volume 0. -/
def volumeTick (st : MixerState ℚ) : MixerState ℚ :=
  { st with stm := Function.update st.stm 0 (mutedChannel 1) }

/-! ## Basic facts about the queue operations -/

/-- For `SYNC_QUEUE_LEN = 2 ^ k - 1` the masked increment is the increment
modulo the number of slots. -/
theorem mask_succ {k L : Nat} (hL : L + 1 = 2 ^ k) (x : Nat) (hx : x ≤ L) :
    (x + 1) &&& L = if x = L then 0 else x + 1 := by
  have hL2 : L = 2 ^ k - 1 := by omega
  rw [hL2, Nat.and_pow_two_sub_one_eq_mod, ← hL]
  split_ifs with h
  · have h2 : x + 1 = L + 1 := by omega
    rw [h2, Nat.mod_self]
  · exact Nat.mod_eq_of_lt (by omega)

theorem queueReadSize_of_not_clearing (L : Nat) (q : SyncQueue α)
    (hc : q.clearing = false) : queueReadSize L q = some (queueDepth L q, q) := by
  unfold queueDepth queueReadSize
  simp only [hc, Bool.false_eq_true, if_false]
  split_ifs <;> rfl

theorem queueDepth_eq (L : Nat) (q : SyncQueue α) (hc : q.clearing = false) :
    queueDepth L q =
      if q.writePos > q.readPos then (q.writePos : Int) - (q.readPos : Int)
      else if q.writePos < q.readPos then
        (q.writePos : Int) - (q.readPos : Int) + (L : Int) + 1
      else 0 := by
  unfold queueDepth queueReadSize
  simp only [hc, Bool.false_eq_true, if_false]
  split_ifs <;> rfl

theorem queueDepth_nonneg (L : Nat) (q : SyncQueue α) (hr : q.readPos ≤ L) :
    0 ≤ queueDepth L q := by
  unfold queueDepth queueReadSize
  split_ifs <;> simp <;> omega

/-- A push into a queue whose write index is not behind the read index and
that still has a free slot stores the entry and advances the write index. -/
theorem queuePush_ahead [HasTimestamp α] (L : Nat) (q : SyncQueue α) (t : α)
    (h1 : q.readPos ≤ q.writePos) (h2 : q.writePos < q.readPos + L) :
    queuePush L q t =
      (true, { q with data := Function.update q.data q.writePos t,
                      writePos := (q.writePos + 1) &&& L }) := by
  unfold queuePush queueWriteSize
  by_cases h : q.writePos > q.readPos
  · have hne : ¬ ((q.readPos : Int) - (q.writePos : Int) + (L : Int) = 0) := by omega
    simp [h, hne]
  · have he : q.writePos = q.readPos := by omega
    have hne : ¬ ((L : Int) = 0) := by omega
    simp [he, hne]

/-- A push when the write index is `SYNC_QUEUE_LEN` ahead of the read index
fails and changes nothing. -/
theorem queuePush_full [HasTimestamp α] (L : Nat) (q : SyncQueue α) (t : α)
    (h : q.writePos = q.readPos + L) :
    queuePush L q t = (false, q) := by
  unfold queuePush queueWriteSize
  by_cases h1 : q.writePos > q.readPos
  · have he : (q.readPos : Int) - (q.writePos : Int) + (L : Int) = 0 := by omega
    simp [h1, he]
  · have h2 : ¬ (q.writePos < q.readPos) := by omega
    have he : (L : Int) = 0 := by omega
    simp [h1, h2, he]

/-- A push when the write index is behind the read index takes the clearing
branch: the queue is emptied and the entry is stored in slot `0`. -/
theorem queuePush_behind [HasTimestamp α] (L : Nat) (q : SyncQueue α) (t : α)
    (h : q.writePos < q.readPos) (hL : 0 < L) :
    queuePush L q t =
      (true, { data := Function.update
                 (Function.update q.data 0 (HasTimestamp.setTimestamp (q.data 0) 0)) 0 t,
               readPos := 0, writePos := 1 &&& L, clearing := false }) := by
  unfold queuePush queueWriteSize
  have h1 : ¬ (q.writePos > q.readPos) := by omega
  have hne : ¬ ((L : Int) = 0) := by omega
  simp [h1, h, hne]

theorem queuePop_of_not_clearing (L : Nat) (q : SyncQueue α) (hc : q.clearing = false) :
    queuePop L q =
      if queueDepth L q = 0 then some (false, q)
      else some (true, { q with readPos := (q.readPos + 1) &&& L }) := by
  unfold queuePop
  rw [queueReadSize_of_not_clearing L q hc]

/-! ## Filling and draining a reset queue -/

theorem runOps_pushes [HasTimestamp α] {k L : Nat} (hL : L + 1 = 2 ^ k) (ts : List α) :
    ∀ q : SyncQueue α, q.readPos = 0 → q.writePos + ts.length ≤ L →
      ∃ q1, runOps L (ts.map QueueOp.push) q = some (List.replicate ts.length true, q1)
        ∧ q1.readPos = 0 ∧ q1.writePos = q.writePos + ts.length
        ∧ q1.clearing = q.clearing := by
  induction ts with
  | nil => intro q hr _; exact ⟨q, rfl, hr, rfl, rfl⟩
  | cons t ts ih =>
    intro q hr hlen
    simp only [List.length_cons] at hlen
    have hp := queuePush_ahead L q t (by omega) (by omega)
    have hm := mask_succ hL q.writePos (by omega)
    rw [if_neg (by omega)] at hm
    rw [hm] at hp
    obtain ⟨q1, h1, h2, h3, h4⟩ := ih
      { q with data := Function.update q.data q.writePos t, writePos := q.writePos + 1 }
      hr (by simp only []; omega)
    refine ⟨q1, ?_, h2, ?_, h4⟩
    · simp only [List.map_cons, runOps, hp, h1, List.length_cons, List.replicate_succ]
    · rw [h3]; simp only [List.length_cons]; omega

theorem runOps_pops [HasTimestamp α] {k L : Nat} (hL : L + 1 = 2 ^ k) (n : Nat) :
    ∀ q : SyncQueue α, q.clearing = false → q.readPos + n = q.writePos → q.writePos ≤ L →
      runOps L (List.replicate n QueueOp.pop ++ [QueueOp.pop]) q =
        some (List.replicate n true ++ [false], { q with readPos := q.writePos }) := by
  induction n with
  | zero =>
    intro q hc hr _
    have hd : queueDepth L q = 0 := by
      rw [queueDepth_eq L q hc, if_neg (by omega), if_neg (by omega)]
    have hq : ({ q with readPos := q.writePos } : SyncQueue α) = q := by
      ext <;> simp; omega
    simp only [List.replicate_zero, List.nil_append, runOps, queuePop_of_not_clearing L q hc,
      hd, if_true, hq]
  | succ n ih =>
    intro q hc hr hw
    have hd : queueDepth L q ≠ 0 := by
      rw [queueDepth_eq L q hc, if_pos (by omega)]; omega
    have hm := mask_succ hL q.readPos (by omega)
    rw [if_neg (by omega)] at hm
    have h := ih { q with readPos := q.readPos + 1 } hc (by simp only []; omega) hw
    simp only [List.replicate_succ, List.cons_append, runOps, queuePop_of_not_clearing L q hc,
      hd, if_false, hm, List.append_eq, h]

/-! ## One call on a queue with indices in range -/

/-- Effect of one `pop` on a queue whose indices are in `[0, SYNC_QUEUE_LEN]`. -/
theorem queuePop_spec {k L : Nat} (hL : L + 1 = 2 ^ k) (q : SyncQueue α)
    (hr : q.readPos ≤ L) (hw : q.writePos ≤ L) (hc : q.clearing = false) :
    (queueDepth L q = 0 → queuePop L q = some (false, q)) ∧
    (queueDepth L q ≠ 0 →
      0 < queueDepth L q ∧
      queuePop L q = some (true, { q with readPos := (q.readPos + 1) &&& L }) ∧
      (q.readPos + 1) &&& L ≤ L ∧
      queueDepth L { q with readPos := (q.readPos + 1) &&& L } = queueDepth L q - 1) := by
  have hpop := queuePop_of_not_clearing L q hc
  have hm := mask_succ hL q.readPos hr
  constructor
  · intro h0
    rw [hpop, if_pos h0]
  · intro hne
    rw [hpop, if_neg hne]
    have hd := queueDepth_eq L q hc
    have hd2 := queueDepth_eq L { q with readPos := (q.readPos + 1) &&& L } hc
    simp only [] at hd2
    rw [hm] at hd2 ⊢
    rw [hd2]
    rw [hd] at hne ⊢
    refine ⟨?_, rfl, ?_, ?_⟩
    · split_ifs <;> omega
    · split_ifs <;> omega
    · split_ifs at hne ⊢ <;> omega

/-- Effect of one `push` on a queue whose indices are in `[0, SYNC_QUEUE_LEN]`:
the indices stay in range, and the depth grows by one on success, after the
loss of every unread entry when the clearing branch is taken. -/
theorem queuePush_spec [HasTimestamp α] {k L : Nat} (hL : L + 1 = 2 ^ k) (q : SyncQueue α)
    (t : α) (hr : q.readPos ≤ L) (hw : q.writePos ≤ L) (hc : q.clearing = false) :
    (queuePush L q t).2.readPos ≤ L ∧ (queuePush L q t).2.writePos ≤ L ∧
    (queuePush L q t).2.clearing = false ∧
    queueDepth L (queuePush L q t).2 =
      queueDepth L q + (if (queuePush L q t).1 = true then 1 else 0)
        - (if q.writePos < q.readPos then queueDepth L q else 0) := by
  have hd := queueDepth_eq L q hc
  by_cases hb : q.writePos < q.readPos
  · have hp := queuePush_behind L q t hb (by omega)
    have hm := mask_succ hL 0 (by omega)
    rw [if_neg (by omega)] at hm
    simp only [Nat.zero_add] at hm
    rw [hm] at hp
    have hd2 := queueDepth_eq L (queuePush L q t).2 (by rw [hp])
    rw [hd2, hp]
    simp only [if_pos hb]
    refine ⟨by omega, by omega, trivial, ?_⟩
    simp
  · by_cases hf : q.writePos < q.readPos + L
    · have hp := queuePush_ahead L q t (by omega) hf
      have hm := mask_succ hL q.writePos hw
      rw [hm] at hp
      have hd2 := queueDepth_eq L (queuePush L q t).2 (by rw [hp]; exact hc)
      rw [hd2, hd, hp]
      simp only [if_neg hb]
      refine ⟨hr, ?_, hc, ?_⟩
      · split_ifs <;> omega
      · split_ifs <;> simp <;> omega
    · have hp := queuePush_full L q t (by omega)
      rw [hp]
      simp only [if_neg hb]
      refine ⟨hr, hw, hc, ?_⟩
      simp

/-- Every run on a queue with indices in range returns, keeps the indices in
range, and changes the depth by successful pushes minus successful pops minus
the entries lost to clearing resets. -/
theorem runOps_spec [HasTimestamp α] {k L : Nat} (hL : L + 1 = 2 ^ k)
    (ops : List (QueueOp α)) :
    ∀ q : SyncQueue α, q.readPos ≤ L → q.writePos ≤ L → q.clearing = false →
      ∃ bs q1, runOps L ops q = some (bs, q1) ∧
        q1.readPos ≤ L ∧ q1.writePos ≤ L ∧ q1.clearing = false ∧
        queueDepth L q1 =
          queueDepth L q + (pushesTrue ops bs : Int) - (popsTrue ops bs : Int)
            - discarded L ops q := by
  induction ops with
  | nil =>
    intro q hr hw hc
    exact ⟨[], q, rfl, hr, hw, hc, by simp [pushesTrue, popsTrue, discarded]⟩
  | cons op ops ih =>
    intro q hr hw hc
    cases op with
    | push t =>
      obtain ⟨h1, h2, h3, h4⟩ := queuePush_spec hL q t hr hw hc
      obtain ⟨bs, q1, e1, e2, e3, e4, e5⟩ := ih (queuePush L q t).2 h1 h2 h3
      refine ⟨(queuePush L q t).1 :: bs, q1, ?_, e2, e3, e4, ?_⟩
      · simp only [runOps, e1]
      · rw [e5, h4]
        simp only [pushesTrue, popsTrue, discarded]
        push_cast
        split_ifs <;> simp <;> ring
    | pop =>
      obtain ⟨hz, hnz⟩ := queuePop_spec hL q hr hw hc
      by_cases hd : queueDepth L q = 0
      · obtain ⟨bs, q1, e1, e2, e3, e4, e5⟩ := ih q hr hw hc
        refine ⟨false :: bs, q1, ?_, e2, e3, e4, ?_⟩
        · simp only [runOps, hz hd, e1]
        · rw [e5]
          simp [pushesTrue, popsTrue, discarded, hz hd]
      · obtain ⟨_, hp, hm, hdec⟩ := hnz hd
        obtain ⟨bs, q1, e1, e2, e3, e4, e5⟩ :=
          ih { q with readPos := (q.readPos + 1) &&& L } hm hw hc
        refine ⟨true :: bs, q1, ?_, e2, e3, e4, ?_⟩
        · simp only [runOps, hp, e1]
        · rw [e5, hdec]
          simp only [pushesTrue, popsTrue, discarded, hp]
          push_cast
          simp
          ring

theorem queueDepth_le (L : Nat) (q : SyncQueue α) (hw : q.writePos ≤ L) :
    queueDepth L q ≤ L := by
  unfold queueDepth queueReadSize
  split_ifs <;> simp <;> omega

/-- The value of a concrete run: what each call returned, and the indices and
depth of the final queue. -/
theorem run_facts (L : Nat) (ops : List (QueueOp pattSyncData_t))
    (q : SyncQueue pattSyncData_t) (bs : List Bool) (r w : Nat) (d : Int)
    (h : (runOps L ops q).map (fun x => (x.1, x.2.readPos, x.2.writePos, queueDepth L x.2))
      = some (bs, r, w, d)) :
    ∃ q1, runOps L ops q = some (bs, q1) ∧ q1.readPos = r ∧ q1.writePos = w ∧
      queueDepth L q1 = d := by
  cases hrun : runOps L ops q with
  | none => rw [hrun] at h; cases h
  | some x =>
    rw [hrun] at h
    simp only [Option.map_some', Option.some.injEq, Prod.mk.injEq] at h
    obtain ⟨h1, h2, h3, h4⟩ := h
    exact ⟨x.2, by rw [← h1], h2, h3, h4⟩

/-! ## The sync-queue properties -/

/-- C1: with `SYNC_QUEUE_LEN = 2 ^ k - 1`, for either queue (any entry type)
and every `n ≤ SYNC_QUEUE_LEN`: starting from a queue with
`readPos = writePos = 0`, `n` consecutive pushes all return true, the read size
is then exactly `n`, the next `n` pops return true and the pop after them
returns false. -/
theorem fill_then_drain [HasTimestamp α] {k L : Nat} (hL : L + 1 = 2 ^ k)
    (q : SyncQueue α) (ts : List α) (hr : q.readPos = 0) (hw : q.writePos = 0)
    (hc : q.clearing = false) (hn : ts.length ≤ L) :
    ∃ q1 q2,
      runOps L (ts.map QueueOp.push) q = some (List.replicate ts.length true, q1) ∧
      queueReadSize L q1 = some ((ts.length : Int), q1) ∧
      runOps L (List.replicate (ts.length + 1) QueueOp.pop) q1 =
        some (List.replicate ts.length true ++ [false], q2) := by
  obtain ⟨q1, h1, h2, h3, h4⟩ := runOps_pushes hL ts q hr (by omega)
  rw [hw, Nat.zero_add] at h3
  rw [hc] at h4
  refine ⟨q1, { q1 with readPos := q1.writePos }, h1, ?_, ?_⟩
  · rw [queueReadSize_of_not_clearing L q1 h4, queueDepth_eq L q1 h4, h2, h3]
    by_cases h0 : ts.length = 0
    · simp [h0]
    · rw [if_pos (by omega)]; simp
  · rw [List.replicate_succ']
    exact runOps_pops hL ts.length q1 h4 (by omega) (by omega)

/-- The scenario of C1: five pattern entries pushed into a reset queue of
capacity 7 (`SYNC_QUEUE_LEN = 7`). -/
theorem fill_then_drain_witness :
    (7 + 1 = 2 ^ 3 ∧ resetPattQueue.readPos = 0 ∧ resetPattQueue.writePos = 0 ∧
      resetPattQueue.clearing = false ∧ fiveEntries.length ≤ 7) ∧
    ∃ q1 q2,
      runOps 7 (fiveEntries.map QueueOp.push) resetPattQueue
        = some (List.replicate fiveEntries.length true, q1) ∧
      pattQueueReadSize 7 q1 = some ((fiveEntries.length : Int), q1) ∧
      runOps 7 (List.replicate (fiveEntries.length + 1) QueueOp.pop) q1 =
        some (List.replicate fiveEntries.length true ++ [false], q2) :=
  ⟨⟨by decide, rfl, rfl, rfl, by decide⟩,
   fill_then_drain (k := 3) (by decide) resetPattQueue fiveEntries rfl rfl rfl (by decide)⟩

/-- C2 as stated fails: after three pushes, two pops and six more pushes on a
reset queue with `SYNC_QUEUE_LEN = 7` every call has returned true (9 pushes,
2 pops), yet the depth is 1, which is not 7 modulo 7 and not 7 modulo 8. -/
theorem depth_formula_counterexample :
    ∃ bs q1, runOps 7 wrappedRunThenPush resetPattQueue = some (bs, q1) ∧
      pushesTrue wrappedRunThenPush bs = 9 ∧ popsTrue wrappedRunThenPush bs = 2 ∧
      queueDepth 7 q1 = 1 ∧
      ¬ (queueDepth 7 q1 ≡
          (pushesTrue wrappedRunThenPush bs : Int) - popsTrue wrappedRunThenPush bs [ZMOD 7]) ∧
      ¬ (queueDepth 7 q1 ≡
          (pushesTrue wrappedRunThenPush bs : Int) - popsTrue wrappedRunThenPush bs [ZMOD 8]) := by
  obtain ⟨q1, h1, _, _, h4⟩ :=
    run_facts 7 wrappedRunThenPush resetPattQueue (List.replicate 11 true) 0 1 1 rfl
  have hp : pushesTrue wrappedRunThenPush (List.replicate 11 true) = 9 := by rfl
  have hq : popsTrue wrappedRunThenPush (List.replicate 11 true) = 2 := by rfl
  refine ⟨_, q1, h1, hp, hq, h4, ?_, ?_⟩
  · rw [h4, hp, hq]; decide
  · rw [h4, hp, hq]; decide

/-- C2, amended: with `SYNC_QUEUE_LEN = 2 ^ k - 1`, every finite sequence of
push and pop calls on a reset queue returns, and the depth afterwards equals
the pushes that returned true minus the pops that returned true minus the
unread entries thrown away by clearing resets; it lies in
`[0, SYNC_QUEUE_LEN]`. -/
theorem depth_formula [HasTimestamp α] {k L : Nat} (hL : L + 1 = 2 ^ k)
    (q : SyncQueue α) (ops : List (QueueOp α)) (hr : q.readPos = 0) (hw : q.writePos = 0)
    (hc : q.clearing = false) :
    ∃ bs q1, runOps L ops q = some (bs, q1) ∧
      queueDepth L q1 =
        (pushesTrue ops bs : Int) - (popsTrue ops bs : Int) - discarded L ops q ∧
      0 ≤ queueDepth L q1 ∧ queueDepth L q1 ≤ L := by
  obtain ⟨bs, q1, e1, e2, e3, _, e5⟩ := runOps_spec hL ops q (by omega) (by omega) hc
  have h0 : queueDepth L q = 0 := by
    rw [queueDepth_eq L q hc, hr, hw]; simp
  refine ⟨bs, q1, e1, ?_, queueDepth_nonneg L q1 e2, queueDepth_le L q1 e3⟩
  rw [e5, h0]; ring

/-- The amended C2 on the run that refutes the original statement. -/
theorem depth_formula_witness :
    (7 + 1 = 2 ^ 3 ∧ resetPattQueue.readPos = 0 ∧ resetPattQueue.writePos = 0 ∧
      resetPattQueue.clearing = false) ∧
    ∃ bs q1, runOps 7 wrappedRunThenPush resetPattQueue = some (bs, q1) ∧
      queueDepth 7 q1 =
        (pushesTrue wrappedRunThenPush bs : Int) - (popsTrue wrappedRunThenPush bs : Int)
          - discarded 7 wrappedRunThenPush resetPattQueue ∧
      0 ≤ queueDepth 7 q1 ∧ queueDepth 7 q1 ≤ (7 : Nat) :=
  ⟨⟨by decide, rfl, rfl, rfl⟩,
   depth_formula (k := 3) (by decide) resetPattQueue wrappedRunThenPush rfl rfl rfl⟩

/-- C3 as stated fails: one push, one pop and seven pushes on a reset queue
with `SYNC_QUEUE_LEN = 7` reach a state with seven unread entries (read index
1, write index 0) in which a further push returns true and moves the read
index to 0. -/
theorem push_when_full_counterexample :
    ∃ bs q1, runOps 7 fullWrappedRun resetPattQueue = some (bs, q1) ∧
      queueDepth 7 q1 = 7 ∧ q1.readPos = 1 ∧
      (pattQueuePush 7 q1 (sampleEntry 9)).1 = true ∧
      (pattQueuePush 7 q1 (sampleEntry 9)).2.readPos = 0 := by
  obtain ⟨q1, h1, h2, h3, h4⟩ :=
    run_facts 7 fullWrappedRun resetPattQueue (List.replicate 9 true) 1 0 7 rfl
  have hp := queuePush_behind 7 q1 (sampleEntry 9) (by omega) (by omega)
  refine ⟨_, q1, h1, h4, h2, ?_, ?_⟩
  · show (queuePush 7 q1 (sampleEntry 9)).1 = true
    rw [hp]
  · show (queuePush 7 q1 (sampleEntry 9)).2.readPos = 0
    rw [hp]

/-- C3, amended: in every queue state with the read index in range and
`queueDepth() = SYNC_QUEUE_LEN`, a
push made while the write index is ahead of the read index returns false and
leaves the read index, the write index and every stored entry unchanged; a push
made while the write index is behind the read index takes the clearing branch
instead: it returns true, and afterwards the read index is 0, the write index
is `1 & SYNC_QUEUE_LEN` and slot 0 holds the pushed entry. -/
theorem push_when_full [HasTimestamp α] (L : Nat) (q : SyncQueue α) (t : α)
    (hr : q.readPos ≤ L) (hc : q.clearing = false) (hfull : queueDepth L q = L) :
    (q.readPos < q.writePos → queuePush L q t = (false, q)) ∧
    (q.writePos < q.readPos →
      (queuePush L q t).1 = true ∧ (queuePush L q t).2.readPos = 0 ∧
      (queuePush L q t).2.writePos = 1 &&& L ∧ (queuePush L q t).2.data 0 = t) := by
  have hd := queueDepth_eq L q hc
  constructor
  · intro h
    rw [hd, if_pos h] at hfull
    exact queuePush_full L q t (by omega)
  · intro h
    rw [hd, if_neg (by omega), if_pos h] at hfull
    rw [queuePush_behind L q t h (by omega)]
    exact ⟨rfl, rfl, rfl, by simp⟩

/-- The amended C3 on a pattern queue of capacity 7 with seven unread
entries: the push is refused. -/
theorem push_when_full_witness :
    (fullQueue.readPos ≤ 7 ∧ fullQueue.clearing = false ∧
      queueDepth 7 fullQueue = (7 : Nat) ∧ fullQueue.readPos < fullQueue.writePos) ∧
    pattQueuePush 7 fullQueue (sampleEntry 8) = (false, fullQueue) :=
  ⟨⟨by decide, rfl, by decide, by decide⟩,
   (push_when_full 7 fullQueue (sampleEntry 8) (by decide) rfl (by decide)).1 (by decide)⟩

/-- C4: with `SYNC_QUEUE_LEN = 2 ^ k - 1`, for every queue state with indices in
`[0, SYNC_QUEUE_LEN]`, `pop` returns true exactly when the depth before the call
is positive; a successful pop changes only the read index, to
`(readPos + 1) & SYNC_QUEUE_LEN`, and lowers the depth by exactly 1; a failed
pop leaves the queue unchanged. -/
theorem pop_iff_nonempty {k L : Nat} (hL : L + 1 = 2 ^ k) (q : SyncQueue α)
    (hr : q.readPos ≤ L) (hw : q.writePos ≤ L) (hc : q.clearing = false) :
    ∃ b q1, queuePop L q = some (b, q1) ∧
      (b = true ↔ 0 < queueDepth L q) ∧
      (b = true →
        q1 = { q with readPos := (q.readPos + 1) &&& L } ∧
        queueDepth L q1 = queueDepth L q - 1) ∧
      (b = false → q1 = q) := by
  obtain ⟨hz, hnz⟩ := queuePop_spec hL q hr hw hc
  by_cases hd : queueDepth L q = 0
  · refine ⟨false, q, hz hd, ?_, ?_, fun _ => rfl⟩
    · rw [hd]; simp
    · intro h; cases h
  · obtain ⟨hpos, hp, _, hdec⟩ := hnz hd
    refine ⟨true, _, hp, ?_, fun _ => ⟨rfl, hdec⟩, ?_⟩
    · simp [hpos]
    · intro h; cases h

/-- C4 on a pattern queue of capacity 7 holding entries in slots 2 and 3. -/
theorem pop_iff_nonempty_witness :
    (7 + 1 = 2 ^ 3 ∧ twoUnread.readPos ≤ 7 ∧ twoUnread.writePos ≤ 7 ∧
      twoUnread.clearing = false) ∧
    ∃ b q1, pattQueuePop 7 twoUnread = some (b, q1) ∧
      (b = true ↔ 0 < queueDepth 7 twoUnread) ∧
      (b = true →
        q1 = { twoUnread with readPos := (twoUnread.readPos + 1) &&& 7 } ∧
        queueDepth 7 q1 = queueDepth 7 twoUnread - 1) ∧
      (b = false → q1 = twoUnread) :=
  ⟨⟨by decide, by decide, by decide, rfl⟩,
   pop_iff_nonempty (k := 3) (L := 7) (by decide) twoUnread (by decide) (by decide) rfl⟩

/-- C5: in every queue state (no clearing in progress) the read-size, peek and
timestamp accessors return the queue unchanged: same read index, write index
and stored entries.  On an empty queue peek returns `NULL` and the timestamp
accessor returns 0; on a non-empty queue peek returns the address of the entry
at the read index and the timestamp accessor returns that entry's timestamp. -/
theorem accessors_do_not_mutate [HasTimestamp α] (L : Nat) (q : SyncQueue α)
    (hc : q.clearing = false) :
    queueReadSize L q = some (queueDepth L q, q) ∧
    (queueDepth L q = 0 →
      queuePeek L q = some (none, q) ∧ getQueueTimestamp L q = some (0, q)) ∧
    (queueDepth L q ≠ 0 →
      queuePeek L q = some (some q.readPos, q) ∧
      getQueueTimestamp L q = some (HasTimestamp.timestamp (q.data q.readPos), q)) := by
  have h := queueReadSize_of_not_clearing L q hc
  refine ⟨h, ?_, ?_⟩
  · intro h0
    simp only [queuePeek, getQueueTimestamp, h, h0, if_true, and_self]
  · intro hne
    simp only [queuePeek, getQueueTimestamp, h, hne, if_false, and_self]

/-- C5 on a pattern queue of capacity 7 holding entries in slots 2 and 3. -/
theorem accessors_do_not_mutate_witness :
    (twoUnread.clearing = false ∧ queueDepth 7 twoUnread ≠ 0) ∧
    pattQueuePeek 7 twoUnread = some (some twoUnread.readPos, twoUnread) ∧
    getPattQueueTimestamp 7 twoUnread
      = some (HasTimestamp.timestamp (twoUnread.data twoUnread.readPos), twoUnread) :=
  ⟨⟨rfl, by decide⟩, (accessors_do_not_mutate 7 twoUnread rfl).2.2 (by decide)⟩

/-- The write-size computation when the write index is behind the read index:
the clearing branch. -/
theorem queueWriteSize_behind [HasTimestamp α] (L : Nat) (q : SyncQueue α)
    (h : q.writePos < q.readPos) :
    queueWriteSize L q =
      ((L : Int), { data := Function.update q.data 0 (HasTimestamp.setTimestamp (q.data 0) 0),
                    readPos := 0, writePos := 0, clearing := false }) := by
  unfold queueWriteSize
  rw [if_neg (by omega), if_pos h]

/-- The write-size computation when the write index is not behind the read
index changes nothing. -/
theorem queueWriteSize_not_behind [HasTimestamp α] (L : Nat) (q : SyncQueue α)
    (h : q.readPos ≤ q.writePos) : (queueWriteSize L q).2 = q := by
  unfold queueWriteSize
  split_ifs with h1 h2
  · rfl
  · omega
  · rfl

/-- C6 as stated fails: three pushes, two pops and five pushes on a reset
queue with `SYNC_QUEUE_LEN = 7` reach a state with six unread entries, fewer
than the capacity, in which the write-size computation of the next push takes
the clearing branch: both indices become 0, entry 0 gets timestamp 0 and no
unread entry is left. -/
theorem clearing_only_when_full_counterexample :
    ∃ bs q1, runOps 7 wrappedRun resetPattQueue = some (bs, q1) ∧
      queueDepth 7 q1 = 6 ∧ queueDepth 7 q1 ≠ (7 : Nat) ∧ q1.readPos = 2 ∧
      (pattQueueWriteSize 7 q1).2.readPos = 0 ∧ (pattQueueWriteSize 7 q1).2.writePos = 0 ∧
      ((pattQueueWriteSize 7 q1).2.data 0).timestamp = 0 ∧
      queueDepth 7 (pattQueueWriteSize 7 q1).2 = 0 := by
  obtain ⟨q1, h1, h2, h3, h4⟩ :=
    run_facts 7 wrappedRun resetPattQueue (List.replicate 10 true) 2 0 6 rfl
  have hw := queueWriteSize_behind 7 q1 (by omega)
  refine ⟨_, q1, h1, h4, by rw [h4]; decide, h2, ?_, ?_, ?_, ?_⟩
  · show (queueWriteSize 7 q1).2.readPos = 0
    rw [hw]
  · show (queueWriteSize 7 q1).2.writePos = 0
    rw [hw]
  · show ((queueWriteSize 7 q1).2.data 0).timestamp = 0
    rw [hw]
    simp [HasTimestamp.setTimestamp]
  · show queueDepth 7 (queueWriteSize 7 q1).2 = 0
    rw [hw, queueDepth_eq 7 _ rfl]
    simp

/-- C6, amended: with `SYNC_QUEUE_LEN = 2 ^ k - 1` and indices in
`[0, SYNC_QUEUE_LEN]`, the clearing reset inside the write-size computation of
a push happens exactly when the write index is behind the read index, whatever
the number of unread entries: then both indices become 0, entry 0 gets
timestamp 0 and every unread entry (at least one) is discarded.  When the
write index is not behind the read index the write-size computation changes
nothing and the push discards nothing: the read index stays and the depth
grows by one if the push succeeds and stays otherwise. -/
theorem clearing_iff_behind [HasTimestamp α] {k L : Nat} (hL : L + 1 = 2 ^ k)
    (q : SyncQueue α) (t : α) (hr : q.readPos ≤ L) (hw : q.writePos ≤ L)
    (hc : q.clearing = false) :
    (q.writePos < q.readPos →
      (queueWriteSize L q).2 =
        { data := Function.update q.data 0 (HasTimestamp.setTimestamp (q.data 0) 0),
          readPos := 0, writePos := 0, clearing := false } ∧
      0 < queueDepth L q ∧ queueDepth L (queueWriteSize L q).2 = 0) ∧
    (q.readPos ≤ q.writePos →
      (queueWriteSize L q).2 = q ∧ (queuePush L q t).2.readPos = q.readPos ∧
      queueDepth L (queuePush L q t).2 =
        queueDepth L q + (if (queuePush L q t).1 = true then 1 else 0)) := by
  constructor
  · intro h
    rw [queueWriteSize_behind L q h, queueDepth_eq L q hc, queueDepth_eq L _ rfl]
    refine ⟨rfl, ?_, by simp⟩
    rw [if_neg (by omega), if_pos h]
    omega
  · intro h
    obtain ⟨_, _, _, h4⟩ := queuePush_spec hL q t hr hw hc
    rw [if_neg (show ¬ q.writePos < q.readPos by omega)] at h4
    refine ⟨queueWriteSize_not_behind L q h, ?_, by rw [h4]; ring⟩
    have hrp : (queuePush L q t).2.readPos = (queueWriteSize L q).2.readPos := by
      unfold queuePush
      simp only []
      split_ifs <;> rfl
    rw [hrp, queueWriteSize_not_behind L q h]

/-- The amended C6 on the wrapped pattern queue of capacity 7 (six unread
entries): the reset happens although the queue is not full. -/
theorem clearing_iff_behind_witness :
    (7 + 1 = 2 ^ 3 ∧ wrappedQueue.readPos ≤ 7 ∧ wrappedQueue.writePos ≤ 7 ∧
      wrappedQueue.clearing = false ∧ wrappedQueue.writePos < wrappedQueue.readPos) ∧
    (pattQueueWriteSize 7 wrappedQueue).2 =
      { data := Function.update wrappedQueue.data 0
          (HasTimestamp.setTimestamp (wrappedQueue.data 0) 0),
        readPos := 0, writePos := 0, clearing := false } ∧
    0 < queueDepth 7 wrappedQueue ∧
    queueDepth 7 (pattQueueWriteSize 7 wrappedQueue).2 = 0 :=
  ⟨⟨by decide, by decide, by decide, rfl, by decide⟩,
   (clearing_iff_behind (k := 3) (L := 7) (by decide) wrappedQueue (sampleEntry 9)
     (by decide) (by decide) rfl).1 (by decide)⟩

/-! ## Triggering a voice -/

theorem wrapInt32_of_fits (x : Int) (h1 : -2 ^ 31 ≤ x) (h2 : x < 2 ^ 31) :
    wrapInt32 x = x := by
  unfold wrapInt32
  rw [Int.emod_eq_of_lt (by omega) (by omega)]
  omega

theorem shiftRight_one (x : Int) : x >>> (1 : Nat) = x / 2 := by
  rw [Int.shiftRight_eq_div_pow]
  norm_num

/-- The end bound that `voiceTrigger` compares the position with. -/
theorem playable_end_eq (lt : Nat) (ll le len1 : Int) :
    (if (if ll < 1 then 0 else lt) > 0 then le else len1)
      = if lt ≠ 0 ∧ 1 ≤ ll then le else len1 := by
  by_cases hll : ll < 1
  · rw [if_pos hll, if_neg (by omega), if_neg (by rintro ⟨_, h⟩; omega)]
  · rw [if_neg hll]
    by_cases hlt : lt = 0
    · rw [if_neg (by omega), if_neg (by rintro ⟨h, _⟩; exact h hlt)]
    · rw [if_pos (by omega), if_pos ⟨hlt, by omega⟩]

/-- When the loop end does not overflow, `voiceTrigger` leaves the voice active
exactly under the three conditions of the specification. -/
theorem voiceTrigger_active_spec [FloatOps F] (audio : audio_t F) (v : voice_t F)
    (s : sampleTyp) (position : Int) (h1 : -2 ^ 31 ≤ s.repS + s.repL)
    (h2 : s.repS + s.repL < 2 ^ 31) :
    (voiceTrigger audio v s position).active = true ↔
      s.pek ≠ none ∧ 1 ≤ specLength s ∧ position < specPlayableEnd s := by
  unfold voiceTrigger specPlayableEnd specLength specLoopLength specLoopEnd specIs16Bit
  rw [wrapInt32_of_fits _ h1 h2]
  simp only [shiftRight_one]
  cases hp : s.pek with
  | none => simp
  | some pek =>
    simp only [apply_ite voice_t.active]
    generalize (if decide (s.typ >>> 4 &&& 1 ≠ 0) = true then s.len / 2 else s.len) = len1
    generalize (if decide (s.typ >>> 4 &&& 1 ≠ 0) = true then s.repL / 2 else s.repL) = ll
    generalize (if decide (s.typ >>> 4 &&& 1 ≠ 0) = true then (s.repS + s.repL) / 2
      else s.repS + s.repL) = le
    generalize s.typ &&& 3 = lt
    by_cases hlen : len1 < 1
    · simp only [if_pos hlen]
      constructor
      · intro h; cases h
      · rintro ⟨_, h, _⟩; omega
    · simp only [if_neg hlen]
      rw [playable_end_eq]
      generalize (if lt ≠ 0 ∧ 1 ≤ ll then le else len1) = pe
      by_cases hpos : position ≥ pe
      · simp only [if_pos hpos]
        constructor
        · intro h; cases h
        · rintro ⟨_, _, h⟩; omega
      · simp only [if_neg hpos]
        exact ⟨fun _ => ⟨by simp, by omega, by omega⟩, fun _ => trivial⟩

/-- A trigger that leaves the voice active stores the start position and the
playable end. -/
theorem voiceTrigger_pos_end [FloatOps F] (audio : audio_t F) (v : voice_t F) (s : sampleTyp)
    (position : Int) (h1 : -2 ^ 31 ≤ s.repS + s.repL) (h2 : s.repS + s.repL < 2 ^ 31)
    (hact : (voiceTrigger audio v s position).active = true) :
    (voiceTrigger audio v s position).pos = position ∧
    (voiceTrigger audio v s position).endPos = specPlayableEnd s := by
  revert hact
  unfold voiceTrigger specPlayableEnd specLength specLoopLength specLoopEnd specIs16Bit
  rw [wrapInt32_of_fits _ h1 h2]
  simp only [shiftRight_one]
  cases hp : s.pek with
  | none => intro h; cases h
  | some pek =>
    simp only [apply_ite voice_t.active, apply_ite voice_t.pos, apply_ite voice_t.endPos]
    generalize (if decide (s.typ >>> 4 &&& 1 ≠ 0) = true then s.len / 2 else s.len) = len1
    generalize (if decide (s.typ >>> 4 &&& 1 ≠ 0) = true then s.repL / 2 else s.repL) = ll
    generalize (if decide (s.typ >>> 4 &&& 1 ≠ 0) = true then (s.repS + s.repL) / 2
      else s.repS + s.repL) = le
    generalize s.typ &&& 3 = lt
    by_cases hlen : len1 < 1
    · simp only [if_pos hlen]
      intro h; cases h
    · simp only [if_neg hlen]
      rw [playable_end_eq]
      intro _
      simp only [ite_self, and_self]

/-- With the loop inside the sample, the playable end is at most the sample
length in sample units. -/
theorem specPlayableEnd_le (s : sampleTyp) (hloop : s.repS + s.repL ≤ s.len) :
    specPlayableEnd s ≤ specLength s := by
  unfold specPlayableEnd specLoopEnd specLength
  split_ifs <;> omega

/-- C7 as stated fails: `overrunSample` (10 bytes of 8-bit data, forward loop
from 5 of length 10) triggered at position 0 leaves the voice active with end
15, beyond the 10 samples of the data; and the same sample triggered at
position -1 leaves the voice active at position -1. -/
theorem trigger_bounds_counterexample :
    (voiceTrigger demoAudio stoppedVoice overrunSample 0).active = true ∧
    (voiceTrigger demoAudio stoppedVoice overrunSample 0).endPos = 15 ∧
    specLength overrunSample = 10 ∧
    ¬ ((voiceTrigger demoAudio stoppedVoice overrunSample 0).endPos
        ≤ specLength overrunSample) ∧
    (voiceTrigger demoAudio stoppedVoice overrunSample (-1)).active = true ∧
    ¬ (0 ≤ (voiceTrigger demoAudio stoppedVoice overrunSample (-1)).pos) := by
  refine ⟨by decide, by decide, by decide, by decide, by decide, by decide⟩

/-- C7, amended: for every sample descriptor whose loop lies inside the sample
(`0 ≤ repS`, `0 ≤ repL`, `repS + repL ≤ len`, with `len` a 32-bit value) and
every non-negative start position for which `voiceTrigger` leaves the voice
active, the read position satisfies `0 ≤ pos < end`, and `end` is at most the
sample length in sample units (`len`, or `len / 2` for 16-bit data). -/
theorem trigger_bounds [FloatOps F] (audio : audio_t F) (v : voice_t F) (s : sampleTyp)
    (position : Int) (hpos : 0 ≤ position) (hS : 0 ≤ s.repS) (hL : 0 ≤ s.repL)
    (hloop : s.repS + s.repL ≤ s.len) (hlen : s.len < 2 ^ 31)
    (hact : (voiceTrigger audio v s position).active = true) :
    0 ≤ (voiceTrigger audio v s position).pos ∧
    (voiceTrigger audio v s position).pos < (voiceTrigger audio v s position).endPos ∧
    (voiceTrigger audio v s position).endPos ≤ specLength s := by
  have h1 : -2 ^ 31 ≤ s.repS + s.repL := by omega
  have h2 : s.repS + s.repL < 2 ^ 31 := by omega
  obtain ⟨hp, he⟩ := voiceTrigger_pos_end audio v s position h1 h2 hact
  obtain ⟨_, _, hlt⟩ := (voiceTrigger_active_spec audio v s position h1 h2).1 hact
  rw [hp, he]
  exact ⟨hpos, hlt, specPlayableEnd_le s hloop⟩

/-- The amended C7 on `loopSample` triggered at position 0. -/
theorem trigger_bounds_witness :
    ((0 : Int) ≤ 0 ∧ 0 ≤ loopSample.repS ∧ 0 ≤ loopSample.repL ∧
      loopSample.repS + loopSample.repL ≤ loopSample.len ∧ loopSample.len < 2 ^ 31 ∧
      (voiceTrigger demoAudio stoppedVoice loopSample 0).active = true) ∧
    0 ≤ (voiceTrigger demoAudio stoppedVoice loopSample 0).pos ∧
    (voiceTrigger demoAudio stoppedVoice loopSample 0).pos
      < (voiceTrigger demoAudio stoppedVoice loopSample 0).endPos ∧
    (voiceTrigger demoAudio stoppedVoice loopSample 0).endPos ≤ specLength loopSample :=
  ⟨⟨by decide, by decide, by decide, by decide, by decide, by decide⟩,
   trigger_bounds demoAudio stoppedVoice loopSample 0 (by decide) (by decide) (by decide)
     (by decide) (by decide) (by decide)⟩

/-- C8: `voiceTrigger` (for a loop end `repS + repL` that fits 32 bits) leaves
the voice active if and only if the sample pointer is non-null, the length in
sample units is at least 1 and the start position is below the playable end:
the loop end when the loop-type bits are non-zero and the loop length is at
least 1, the sample length otherwise.  In every other case the voice is
inactive; the function returns nothing but the voice.  For the even byte
fields of a 16-bit sample the loop end is the halved loop start plus the halved
loop length. -/
theorem trigger_active_iff [FloatOps F] (audio : audio_t F) (v : voice_t F) (s : sampleTyp)
    (position : Int) (h1 : -2 ^ 31 ≤ s.repS + s.repL) (h2 : s.repS + s.repL < 2 ^ 31) :
    ((voiceTrigger audio v s position).active = true ↔
      s.pek ≠ none ∧ 1 ≤ specLength s ∧ position < specPlayableEnd s) ∧
    ((voiceTrigger audio v s position).active = false ↔
      ¬ (s.pek ≠ none ∧ 1 ≤ specLength s ∧ position < specPlayableEnd s)) ∧
    (specIs16Bit s = true → 2 ∣ s.repS → 2 ∣ s.repL →
      specLoopEnd s = s.repS / 2 + s.repL / 2) ∧
    (specIs16Bit s = false → specLoopEnd s = s.repS + s.repL) := by
  have h := voiceTrigger_active_spec audio v s position h1 h2
  refine ⟨h, ?_, ?_, ?_⟩
  · rw [← h]; simp
  · intro h16 ha hb
    unfold specLoopEnd
    rw [if_pos h16]
    omega
  · intro h16
    unfold specLoopEnd
    rw [if_neg (by simp [h16])]

/-- C8 on `loopSample`: triggered at position 0 the voice is active, since
0 is below the loop end 500. -/
theorem trigger_active_iff_witness :
    (-2 ^ 31 ≤ loopSample.repS + loopSample.repL ∧
      loopSample.repS + loopSample.repL < 2 ^ 31) ∧
    (voiceTrigger demoAudio stoppedVoice loopSample 0).active = true ∧
    specPlayableEnd loopSample = 500 :=
  ⟨⟨by decide, by decide⟩,
   (trigger_active_iff demoAudio stoppedVoice loopSample 0 (by decide) (by decide)).1.2
     ⟨by simp [loopSample], by decide, by decide⟩,
   by decide⟩

/-! ## Volume updates and the fade-out voice -/

theorem rampOutIn_gainL [FloatOps F] (E : MixerEnv F) (voice : Nat → voice_t F)
    (i status : Nat) :
    ((rampOutIn E voice i status) i).fVolL = rampStartL E status (voice i) := by
  unfold rampOutIn rampStartL
  split_ifs
  · simp only [Function.update_same]
  · rfl

theorem rampOutIn_gainR [FloatOps F] (E : MixerEnv F) (voice : Nat → voice_t F)
    (i status : Nat) :
    ((rampOutIn E voice i status) i).fVolR = rampStartR E status (voice i) := by
  unfold rampOutIn rampStartR
  split_ifs
  · simp only [Function.update_same]
  · rfl

/-- With ramping enabled `voiceUpdateVolumes` is its three blocks in sequence. -/
theorem voiceUpdateVolumes_ramping [FloatOps F] (E : MixerEnv F) (voice : Nat → voice_t F)
    (i status : Nat) (hramp : E.audio.volumeRampingFlag = true) :
    voiceUpdateVolumes E voice i status =
      rampVolumeChanges E (destVolL E (voice i)) (destVolR E (voice i))
        (rampOutIn E (Function.update voice i (withDestVol E (voice i))) i status) i status := by
  unfold voiceUpdateVolumes destVolL destVolR withDestVol
  simp only [hramp, Bool.true_eq_false, if_false]
  rfl

/-- The ramp that `voiceUpdateVolumes` schedules on voice `i`. -/
theorem voiceUpdateVolumes_ramp [FloatOps F] (E : MixerEnv F) (voice : Nat → voice_t F)
    (i status : Nat) (hramp : E.audio.volumeRampingFlag = true)
    (hsched : ¬ (FloatOps.feq (destVolL E (voice i)) (rampStartL E status (voice i)) = true ∧
      FloatOps.feq (destVolR E (voice i)) (rampStartR E status (voice i)) = true ∧
      ¬ (status &&& E.IS_NyTon ≠ 0))) :
    ((voiceUpdateVolumes E voice i status) i).volRampSamples =
        (if status &&& E.IS_QuickVol ≠ 0 then E.audio.quickVolRampSamples
         else E.audio.samplesPerTick) ∧
    ((voiceUpdateVolumes E voice i status) i).fVolDeltaL =
        (destVolL E (voice i) - rampStartL E status (voice i)) *
          (if status &&& E.IS_QuickVol ≠ 0 then E.audio.fRampQuickVolMul
           else E.audio.fRampTickMul) ∧
    ((voiceUpdateVolumes E voice i status) i).fVolDeltaR =
        (destVolR E (voice i) - rampStartR E status (voice i)) *
          (if status &&& E.IS_QuickVol ≠ 0 then E.audio.fRampQuickVolMul
           else E.audio.fRampTickMul) := by
  rw [voiceUpdateVolumes_ramping E voice i status hramp]
  unfold rampVolumeChanges
  rw [rampOutIn_gainL, rampOutIn_gainR]
  have hL : rampStartL E status (Function.update voice i (withDestVol E (voice i)) i)
      = rampStartL E status (voice i) := by
    simp only [Function.update_same, rampStartL, withDestVol]
  have hR : rampStartR E status (Function.update voice i (withDestVol E (voice i)) i)
      = rampStartR E status (voice i) := by
    simp only [Function.update_same, rampStartR, withDestVol]
  rw [hL, hR, if_neg hsched]
  by_cases hq : status &&& E.IS_QuickVol ≠ 0
  · simp only [if_pos hq, Function.update_same, and_self]
  · simp only [if_neg hq, Function.update_same, and_self]

/-- The fade-out block writes the fade-out copy of voice `i` to
`voice[MAX_VOICES + i]` when a current gain of voice `i` is above zero. -/
theorem setupFadeOutVoice_shadow [FloatOps F] (E : MixerEnv F) (voice : Nat → voice_t F)
    (i : Nat)
    (hg : FloatOps.gt (voice i).fVolL 0 = true ∨ FloatOps.gt (voice i).fVolR 0 = true) :
    (setupFadeOutVoice E voice i) (E.MAX_VOICES + i) = fadeOutCopy E (voice i) := by
  unfold setupFadeOutVoice fadeOutCopy
  rw [if_pos hg]
  simp only [Function.update_same]

theorem setupFadeOutVoice_other [FloatOps F] (E : MixerEnv F) (voice : Nat → voice_t F)
    (i k : Nat) (hk : k ≠ E.MAX_VOICES + i) :
    (setupFadeOutVoice E voice i) k = voice k := by
  unfold setupFadeOutVoice
  split_ifs
  · simp only [Function.update_noteq hk]
  · rfl

theorem setupFadeOutVoice_silent [FloatOps F] (E : MixerEnv F) (voice : Nat → voice_t F)
    (i : Nat)
    (hg : ¬ (FloatOps.gt (voice i).fVolL 0 = true ∨ FloatOps.gt (voice i).fVolR 0 = true)) :
    setupFadeOutVoice E voice i = voice := by
  unfold setupFadeOutVoice
  rw [if_neg hg]

theorem rampOutIn_other [FloatOps F] (E : MixerEnv F) (voice : Nat → voice_t F)
    (i status k : Nat) (hk : k ≠ i) (hk2 : k ≠ E.MAX_VOICES + i) :
    (rampOutIn E voice i status) k = voice k := by
  unfold rampOutIn
  split_ifs
  · simp only [Function.update_noteq hk, setupFadeOutVoice_other E voice i k hk2]
  · rfl

theorem rampOutIn_shadow [FloatOps F] (E : MixerEnv F) (voice : Nat → voice_t F)
    (i status : Nat) (hM : 0 < E.MAX_VOICES) :
    (rampOutIn E voice i status) (E.MAX_VOICES + i) =
      (if status &&& E.IS_NyTon ≠ 0 then setupFadeOutVoice E voice i else voice)
        (E.MAX_VOICES + i) := by
  unfold rampOutIn
  have hne : E.MAX_VOICES + i ≠ i := by omega
  split_ifs
  · simp only [Function.update_noteq hne]
  · rfl

theorem rampVolumeChanges_other [FloatOps F] (E : MixerEnv F) (a b : F)
    (voice : Nat → voice_t F) (i status k : Nat) (hk : k ≠ i) :
    (rampVolumeChanges E a b voice i status) k = voice k := by
  unfold rampVolumeChanges
  split_ifs <;> simp only [Function.update_noteq hk]

theorem rampVolumeChanges_gains [FloatOps F] (E : MixerEnv F) (a b : F)
    (voice : Nat → voice_t F) (i status : Nat) :
    ((rampVolumeChanges E a b voice i status) i).fVolL = (voice i).fVolL ∧
    ((rampVolumeChanges E a b voice i status) i).fVolR = (voice i).fVolR := by
  unfold rampVolumeChanges
  split_ifs <;> simp only [Function.update_same, and_self]

/-- `voiceUpdateVolumes(i, status)` changes no voice other than `voice[i]` and
`voice[MAX_VOICES + i]`. -/
theorem voiceUpdateVolumes_other [FloatOps F] (E : MixerEnv F) (voice : Nat → voice_t F)
    (i status k : Nat) (hk : k ≠ i) (hk2 : k ≠ E.MAX_VOICES + i) :
    (voiceUpdateVolumes E voice i status) k = voice k := by
  by_cases hramp : E.audio.volumeRampingFlag = true
  · rw [voiceUpdateVolumes_ramping E voice i status hramp,
      rampVolumeChanges_other E _ _ _ i status k hk, rampOutIn_other E _ i status k hk hk2,
      Function.update_noteq hk]
  · unfold voiceUpdateVolumes
    have hf : E.audio.volumeRampingFlag = false := by simpa using hramp
    simp only [hf, if_true, Function.update_noteq hk]

/-- What `voiceUpdateVolumes(i, status)` leaves in `voice[MAX_VOICES + i]`. -/
theorem voiceUpdateVolumes_shadow [FloatOps F] (E : MixerEnv F) (voice : Nat → voice_t F)
    (i status : Nat) (hM : 0 < E.MAX_VOICES) :
    ((E.audio.volumeRampingFlag = true ∧ status &&& E.IS_NyTon ≠ 0 ∧
        (FloatOps.gt (voice i).fVolL 0 = true ∨ FloatOps.gt (voice i).fVolR 0 = true)) →
      (voiceUpdateVolumes E voice i status) (E.MAX_VOICES + i)
        = fadeOutCopy E (withDestVol E (voice i))) ∧
    (¬ (E.audio.volumeRampingFlag = true ∧ status &&& E.IS_NyTon ≠ 0 ∧
        (FloatOps.gt (voice i).fVolL 0 = true ∨ FloatOps.gt (voice i).fVolR 0 = true)) →
      (voiceUpdateVolumes E voice i status) (E.MAX_VOICES + i) = voice (E.MAX_VOICES + i)) := by
  have hne : E.MAX_VOICES + i ≠ i := by omega
  have hw : (Function.update voice i (withDestVol E (voice i))) i = withDestVol E (voice i) :=
    Function.update_same _ _ _
  by_cases hramp : E.audio.volumeRampingFlag = true
  · rw [voiceUpdateVolumes_ramping E voice i status hramp,
      rampVolumeChanges_other E _ _ _ i status _ hne, rampOutIn_shadow E _ i status hM]
    by_cases hny : status &&& E.IS_NyTon ≠ 0
    · rw [if_pos hny]
      by_cases hg : FloatOps.gt (voice i).fVolL 0 = true ∨ FloatOps.gt (voice i).fVolR 0 = true
      · refine ⟨fun _ => ?_, fun h => absurd ⟨hramp, hny, hg⟩ h⟩
        rw [setupFadeOutVoice_shadow E _ i (by rw [hw]; exact hg), hw]
      · refine ⟨fun h => absurd h.2.2 hg, fun _ => ?_⟩
        rw [setupFadeOutVoice_silent E _ i (by rw [hw]; exact hg), Function.update_noteq hne]
    · rw [if_neg hny]
      refine ⟨fun h => absurd h.2.1 hny, fun _ => ?_⟩
      rw [Function.update_noteq hne]
  · refine ⟨fun h => absurd h.1 hramp, fun _ => ?_⟩
    unfold voiceUpdateVolumes
    have hf : E.audio.volumeRampingFlag = false := by simpa using hramp
    simp only [hf, if_true, Function.update_noteq hne]

/-- After `voiceUpdateVolumes(i, status)` with ramping enabled the current
gains of voice `i` are the gains the ramp starts from. -/
theorem voiceUpdateVolumes_gains [FloatOps F] (E : MixerEnv F) (voice : Nat → voice_t F)
    (i status : Nat) (hramp : E.audio.volumeRampingFlag = true) :
    ((voiceUpdateVolumes E voice i status) i).fVolL = rampStartL E status (voice i) ∧
    ((voiceUpdateVolumes E voice i status) i).fVolR = rampStartR E status (voice i) := by
  rw [voiceUpdateVolumes_ramping E voice i status hramp]
  obtain ⟨h1, h2⟩ := rampVolumeChanges_gains E (destVolL E (voice i)) (destVolR E (voice i))
    (rampOutIn E (Function.update voice i (withDestVol E (voice i))) i status) i status
  rw [h1, h2, rampOutIn_gainL, rampOutIn_gainR]
  simp only [Function.update_same, rampStartL, rampStartR, withDestVol, and_self]

/-! ## One channel of `updateVoices` -/

/-- A trigger leaves the current gains of the voice as they are. -/
theorem voiceTrigger_gains [FloatOps F] (audio : audio_t F) (v : voice_t F) (s : sampleTyp)
    (position : Int) :
    (voiceTrigger audio v s position).fVolL = v.fVolL ∧
    (voiceTrigger audio v s position).fVolR = v.fVolR := by
  unfold voiceTrigger
  cases s.pek with
  | none => exact ⟨rfl, rfl⟩
  | some pek =>
    simp only [apply_ite voice_t.fVolL, apply_ite voice_t.fVolR, ite_self, and_self]

theorem updateVolPan_stm [FloatOps F] (E : MixerEnv F) (i status : Nat) (st : MixerState F) :
    (updateVolPan E i status st).stm = st.stm := by
  unfold updateVolPan
  simp only []
  split_ifs <;> rfl

/-- The voice table after the volume and pan statements of the loop body. -/
theorem updateVolPan_voice [FloatOps F] (E : MixerEnv F) (i status : Nat) (st : MixerState F) :
    (updateVolPan E i status st).voice =
      if status &&& (E.IS_Vol + E.IS_Pan) ≠ 0 then
        voiceUpdateVolumes E
          (Function.update st.voice i
            (withChannelVolPan E { st.stm i with status := status } (st.voice i))) i status
      else
        Function.update st.voice i
          (withChannelVolPan E { st.stm i with status := status } (st.voice i)) := by
  unfold updateVolPan withChannelVolPan
  by_cases h1 : status &&& E.IS_Vol = 0 <;> by_cases h2 : status &&& E.IS_Pan = 0 <;>
    by_cases h3 : status &&& (E.IS_Vol + E.IS_Pan) = 0 <;>
    simp only [h1, h2, h3, ne_eq, not_true_eq_false, not_false_eq_true, if_true, if_false,
      Function.update_same, Function.update_idem, Function.update_eq_self]

theorem updatePeriod_stm [FloatOps F] (E : MixerEnv F) (i status : Nat) (st : MixerState F) :
    (updatePeriod E i status st).stm = st.stm := by
  unfold updatePeriod
  simp only []
  split_ifs <;> rfl

theorem updatePeriod_other [FloatOps F] (E : MixerEnv F) (i status : Nat) (st : MixerState F)
    (k : Nat) (hk : k ≠ i) : (updatePeriod E i status st).voice k = st.voice k := by
  unfold updatePeriod
  simp only []
  split_ifs <;> simp only [Function.update_noteq hk]

theorem updatePeriod_gains [FloatOps F] (E : MixerEnv F) (i status : Nat) (st : MixerState F) :
    ((updatePeriod E i status st).voice i).fVolL = (st.voice i).fVolL ∧
    ((updatePeriod E i status st).voice i).fVolR = (st.voice i).fVolR := by
  unfold updatePeriod
  simp only []
  split_ifs <;> simp only [Function.update_same, and_self]

theorem updateTrigger_stm [FloatOps F] (E : MixerEnv F) (i status : Nat) (st : MixerState F) :
    (updateTrigger E i status st).stm = st.stm := by
  unfold updateTrigger
  split_ifs <;> rfl

theorem updateTrigger_other [FloatOps F] (E : MixerEnv F) (i status : Nat) (st : MixerState F)
    (k : Nat) (hk : k ≠ i) : (updateTrigger E i status st).voice k = st.voice k := by
  unfold updateTrigger
  split_ifs <;> simp only [Function.update_noteq hk]

theorem updateTrigger_gains [FloatOps F] (E : MixerEnv F) (i status : Nat) (st : MixerState F) :
    ((updateTrigger E i status st).voice i).fVolL = (st.voice i).fVolL ∧
    ((updateTrigger E i status st).voice i).fVolR = (st.voice i).fVolR := by
  unfold updateTrigger
  split_ifs
  · simp only [Function.update_same]
    exact voiceTrigger_gains _ _ _ _
  · exact ⟨rfl, rfl⟩

theorem updateVolPan_other [FloatOps F] (E : MixerEnv F) (i status : Nat) (st : MixerState F)
    (k : Nat) (hk : k ≠ i) (hk2 : k ≠ E.MAX_VOICES + i) :
    (updateVolPan E i status st).voice k = st.voice k := by
  rw [updateVolPan_voice]
  split_ifs
  · rw [voiceUpdateVolumes_other E _ i status k hk hk2, Function.update_noteq hk]
  · rw [Function.update_noteq hk]

/-- The loop body for channel `i` touches no voice other than `voice[i]` and
`voice[MAX_VOICES + i]`. -/
theorem updateVoicesChannel_other [FloatOps F] (E : MixerEnv F) (i : Nat) (st : MixerState F)
    (k : Nat) (hk : k ≠ i) (hk2 : k ≠ E.MAX_VOICES + i) :
    (updateVoicesChannel E i st).voice k = st.voice k := by
  unfold updateVoicesChannel
  simp only []
  split_ifs
  · rfl
  · rw [updateTrigger_other E i _ _ k hk, updatePeriod_other E i _ _ k hk,
      updateVolPan_other E i _ _ k hk hk2]
    rfl

/-- The loop body for channel `i` touches no channel other than `stm[i]`. -/
theorem updateVoicesChannel_stm_other [FloatOps F] (E : MixerEnv F) (i : Nat)
    (st : MixerState F) (k : Nat) (hk : k ≠ i) :
    (updateVoicesChannel E i st).stm k = st.stm k := by
  unfold updateVoicesChannel
  simp only []
  split_ifs
  · simp only [storeTmpStatus, Function.update_noteq hk]
  · rw [updateTrigger_stm, updatePeriod_stm, updateVolPan_stm]
    simp only [clearStatus, storeTmpStatus, Function.update_noteq hk]

/-- The fade-out voice of channel `i` after the loop body for channel `i`, and
the current gains of its primary voice. -/
theorem updateVoicesChannel_shadow [FloatOps F] (E : MixerEnv F) (i : Nat)
    (st : MixerState F) (hM : 0 < E.MAX_VOICES) :
    (Retriggers E (st.stm i) (st.voice i) →
      (updateVoicesChannel E i st).voice (E.MAX_VOICES + i)
        = fadeOutCopy E (withDestVol E (withChannelVolPan E (st.stm i) (st.voice i))) ∧
      ((updateVoicesChannel E i st).voice i).fVolL = 0 ∧
      ((updateVoicesChannel E i st).voice i).fVolR = 0) ∧
    (¬ Retriggers E (st.stm i) (st.voice i) →
      (updateVoicesChannel E i st).voice (E.MAX_VOICES + i) = st.voice (E.MAX_VOICES + i)) := by
  have hne : E.MAX_VOICES + i ≠ i := by omega
  unfold Retriggers
  unfold updateVoicesChannel
  simp only []
  by_cases h0 : (st.stm i).status = 0
  · rw [if_pos h0]
    refine ⟨fun h => ?_, fun _ => rfl⟩
    rw [h0] at h
    exact absurd (Nat.zero_and _) h.2.1
  · rw [if_neg h0]
    have hv2 : (clearStatus i (storeTmpStatus i st)).voice = st.voice := rfl
    have hch : withChannelVolPan E
        { (clearStatus i (storeTmpStatus i st)).stm i with status := (st.stm i).status }
        (st.voice i) = withChannelVolPan E (st.stm i) (st.voice i) := by
      simp only [withChannelVolPan, clearStatus, storeTmpStatus, Function.update_same]
    generalize clearStatus i (storeTmpStatus i st) = st2 at hv2 hch
    rw [updateTrigger_other E i _ _ _ hne, updatePeriod_other E i _ _ _ hne]
    obtain ⟨t1, t2⟩ := updateTrigger_gains E i (st.stm i).status
      (updatePeriod E i (st.stm i).status (updateVolPan E i (st.stm i).status st2))
    obtain ⟨p1, p2⟩ := updatePeriod_gains E i (st.stm i).status
      (updateVolPan E i (st.stm i).status st2)
    rw [t1, t2, p1, p2, updateVolPan_voice, hv2, hch]
    have hgL : (withChannelVolPan E (st.stm i) (st.voice i)).fVolL = (st.voice i).fVolL := rfl
    have hgR : (withChannelVolPan E (st.stm i) (st.voice i)).fVolR = (st.voice i).fVolR := rfl
    by_cases hvp : (st.stm i).status &&& (E.IS_Vol + E.IS_Pan) ≠ 0
    · rw [if_pos hvp]
      obtain ⟨s1, s2⟩ := voiceUpdateVolumes_shadow E
        (Function.update st.voice i (withChannelVolPan E (st.stm i) (st.voice i))) i
        (st.stm i).status hM
      simp only [Function.update_same, Function.update_noteq hne, hgL, hgR] at s1 s2
      constructor
      · intro h
        obtain ⟨g1, g2⟩ := voiceUpdateVolumes_gains E
          (Function.update st.voice i (withChannelVolPan E (st.stm i) (st.voice i))) i
          (st.stm i).status h.1
        rw [g1, g2]
        refine ⟨s1 ⟨h.1, h.2.1, h.2.2.2⟩, ?_, ?_⟩
        · unfold rampStartL; rw [if_pos h.2.1]
        · unfold rampStartR; rw [if_pos h.2.1]
      · intro h
        exact s2 (fun h2 => h ⟨h2.1, h2.2.1, hvp, h2.2.2⟩)
    · rw [if_neg hvp]
      refine ⟨fun h => absurd h.2.2.1 hvp, fun _ => ?_⟩
      rw [Function.update_noteq hne]

/-! ## The loop of `updateVoices` -/

/-- The loop over the channels `a .. a + n - 1`, all below `MAX_VOICES`: voices
below `a` are untouched, the fade-out voice of a channel in range is set up
exactly when the channel retriggers, and no other fade-out voice changes. -/
theorem updateVoicesFrom_spec [FloatOps F] (E : MixerEnv F) (n : Nat) :
    ∀ (a : Nat) (st : MixerState F), a + n ≤ E.MAX_VOICES →
      (∀ k, k < a → (updateVoicesFrom E n a st).voice k = st.voice k) ∧
      (∀ j, a ≤ j → j < a + n → Retriggers E (st.stm j) (st.voice j) →
        (updateVoicesFrom E n a st).voice (E.MAX_VOICES + j)
          = fadeOutCopy E (withDestVol E (withChannelVolPan E (st.stm j) (st.voice j))) ∧
        ((updateVoicesFrom E n a st).voice j).fVolL = 0 ∧
        ((updateVoicesFrom E n a st).voice j).fVolR = 0) ∧
      (∀ j, ¬ (a ≤ j ∧ j < a + n ∧ Retriggers E (st.stm j) (st.voice j)) →
        (updateVoicesFrom E n a st).voice (E.MAX_VOICES + j) = st.voice (E.MAX_VOICES + j)) := by
  induction n with
  | zero =>
    intro a st _
    refine ⟨fun _ _ => rfl, fun j h1 h2 _ => ?_, fun _ _ => rfl⟩
    omega
  | succ n ih =>
    intro a st hle
    obtain ⟨I1, I2, I3⟩ := ih (a + 1) (updateVoicesChannel E a st) (by omega)
    obtain ⟨S3, S4⟩ := updateVoicesChannel_shadow E a st (by omega)
    have hvoice : ∀ j, j ≠ a → j < E.MAX_VOICES →
        (updateVoicesChannel E a st).voice j = st.voice j := fun j h1 h2 =>
      updateVoicesChannel_other E a st j h1 (by omega)
    have hshadow : ∀ j, j ≠ a →
        (updateVoicesChannel E a st).voice (E.MAX_VOICES + j) = st.voice (E.MAX_VOICES + j) :=
      fun j h1 => updateVoicesChannel_other E a st _ (by omega) (by omega)
    have hstm : ∀ j, j ≠ a → (updateVoicesChannel E a st).stm j = st.stm j := fun j h1 =>
      updateVoicesChannel_stm_other E a st j h1
    show _ ∧ _ ∧ _
    simp only [updateVoicesFrom]
    refine ⟨fun k hk => ?_, fun j h1 h2 hr => ?_, fun j hj => ?_⟩
    · rw [I1 k (by omega), hvoice k (by omega) (by omega)]
    · by_cases hja : j = a
      · subst hja
        obtain ⟨e1, e2, e3⟩ := S3 hr
        rw [I3 j (by omega), I1 j (by omega)]
        exact ⟨e1, e2, e3⟩
      · have hr2 : Retriggers E ((updateVoicesChannel E a st).stm j)
            ((updateVoicesChannel E a st).voice j) := by
          rw [hstm j hja, hvoice j hja (by omega)]; exact hr
        obtain ⟨e1, e2, e3⟩ := I2 j (by omega) (by omega) hr2
        rw [hstm j hja, hvoice j hja (by omega)] at e1
        exact ⟨e1, e2, e3⟩
    · by_cases hja : j = a
      · subst hja
        have hnr : ¬ Retriggers E (st.stm j) (st.voice j) := fun h => hj ⟨by omega, by omega, h⟩
        rw [I3 j (by omega), S4 hnr]
      · rw [I3 j ?_, hshadow j hja]
        rintro ⟨h1, h2, h3⟩
        rw [hstm j hja, hvoice j hja (by omega)] at h3
        exact hj ⟨by omega, by omega, h3⟩

/-! ## The volume-ramp properties -/

/-- C9 as stated fails.  First run: ramping disabled, channel 0 flags a trigger
together with volume, pan and quick-volume changes (status 29) while its voice
plays at left gain 1; the fade-out voice at index 32 stays the stopped voice it
was, not marked as fade-out.  Second run: ramping enabled, channel 0 flags the
trigger alone (status 4); again the fade-out voice stays as it was. -/
theorem fade_out_counterexample :
    ((demoState 29).stm 0).status &&& demoEnvNoRamp.IS_NyTon ≠ 0 ∧
    FloatOps.feq ((demoState 29).voice 0).fVolL 0 = false ∧
    (updateVoices demoEnvNoRamp (demoState 29)).voice (demoEnvNoRamp.MAX_VOICES + 0)
      = stoppedVoice ∧
    ((demoState 4).stm 0).status &&& demoEnv.IS_NyTon ≠ 0 ∧
    FloatOps.feq ((demoState 4).voice 0).fVolL 0 = false ∧
    (updateVoices demoEnv (demoState 4)).voice (demoEnv.MAX_VOICES + 0) = stoppedVoice ∧
    stoppedVoice.isFadeOutVoice = false ∧
    stoppedVoice.volRampSamples ≠ demoEnv.audio.quickVolRampSamples := by
  refine ⟨by decide, by decide, ?_, by decide, by decide, ?_, rfl, by decide⟩
  · have h := (updateVoicesFrom_spec demoEnvNoRamp demoEnvNoRamp.antChn 0 (demoState 29)
      (by decide)).2.2 0 (fun h => absurd h.2.2.1 (by decide))
    exact h
  · have h := (updateVoicesFrom_spec demoEnv demoEnv.antChn 0 (demoState 4)
      (by decide)).2.2 0 (fun h => absurd h.2.2.2.2.1 (by decide))
    exact h

/-- C9, amended: for every tick update (`updateVoices`, with
`song.antChn ≤ MAX_VOICES`) with volume ramping enabled in which the status of
a channel `i < song.antChn` has the trigger bit together with the volume or pan
bit while the current left or right gain of its primary voice is above zero,
the fade-out voice at index `MAX_VOICES + i` becomes a copy of the primary
voice as it is just before the trigger (with the volume, pan and destination
gains of this tick stored), marked as fade-out, with ramp count
`quickVolRampSamples` and gain deltas `-gainL * fRampQuickVolMul` and
`-gainR * fRampQuickVolMul`; the current gains of the primary voice are 0
afterwards; and the fade-out voice of every channel that does not meet these
conditions is unchanged. -/
theorem retrigger_fade_out [FloatOps F] (E : MixerEnv F) (st : MixerState F) (i : Nat)
    (hi : i < E.antChn) (hA : E.antChn ≤ E.MAX_VOICES)
    (hr : Retriggers E (st.stm i) (st.voice i)) :
    (updateVoices E st).voice (E.MAX_VOICES + i)
      = fadeOutCopy E (withDestVol E (withChannelVolPan E (st.stm i) (st.voice i))) ∧
    ((updateVoices E st).voice i).fVolL = 0 ∧
    ((updateVoices E st).voice i).fVolR = 0 ∧
    (∀ j, ¬ (j < E.antChn ∧ Retriggers E (st.stm j) (st.voice j)) →
      (updateVoices E st).voice (E.MAX_VOICES + j) = st.voice (E.MAX_VOICES + j)) := by
  obtain ⟨_, h2, h3⟩ := updateVoicesFrom_spec E E.antChn 0 st (by omega)
  obtain ⟨e1, e2, e3⟩ := h2 i (by omega) (by omega) hr
  refine ⟨e1, e2, e3, fun j hj => h3 j ?_⟩
  rintro ⟨_, k1, k2⟩
  exact hj ⟨by omega, k2⟩

/-- The amended C9 on a run with ramping enabled in which channel 0 flags a
trigger with volume, pan and quick-volume changes (status 29) while its voice
plays at left gain 1. -/
theorem retrigger_fade_out_witness :
    (0 < demoEnv.antChn ∧ demoEnv.antChn ≤ demoEnv.MAX_VOICES ∧
      Retriggers demoEnv ((demoState 29).stm 0) ((demoState 29).voice 0)) ∧
    (updateVoices demoEnv (demoState 29)).voice (demoEnv.MAX_VOICES + 0)
      = fadeOutCopy demoEnv (withDestVol demoEnv
          (withChannelVolPan demoEnv ((demoState 29).stm 0) ((demoState 29).voice 0))) ∧
    ((updateVoices demoEnv (demoState 29)).voice 0).fVolL = 0 ∧
    ((updateVoices demoEnv (demoState 29)).voice 0).fVolR = 0 :=
  ⟨⟨by decide, by decide, rfl, by decide, by decide, Or.inl (by decide)⟩,
   (retrigger_fade_out demoEnv (demoState 29) 0 (by decide) (by decide)
     ⟨rfl, by decide, by decide, Or.inl (by decide)⟩).1,
   (retrigger_fade_out demoEnv (demoState 29) 0 (by decide) (by decide)
     ⟨rfl, by decide, by decide, Or.inl (by decide)⟩).2.1,
   (retrigger_fade_out demoEnv (demoState 29) 0 (by decide) (by decide)
     ⟨rfl, by decide, by decide, Or.inl (by decide)⟩).2.2.1⟩

/-- C10 as stated fails: with ramping enabled, an update of a playing voice
whose status has the volume and trigger bits but not the quick-volume bit
(status 5) schedules a ramp of `samplesPerTick` = 960 samples, not of
`quickVolRampSamples` = 240. -/
theorem ramp_length_counterexample :
    demoEnv.audio.volumeRampingFlag = true ∧ 5 &&& demoEnv.IS_NyTon ≠ 0 ∧
    ((voiceUpdateVolumes demoEnv (demoState 5).voice 0 5) 0).volRampSamples = 960 ∧
    demoEnv.audio.quickVolRampSamples = 240 ∧
    ((voiceUpdateVolumes demoEnv (demoState 5).voice 0 5) 0).volRampSamples
      ≠ demoEnv.audio.quickVolRampSamples := by
  have h := (voiceUpdateVolumes_ramp demoEnv (demoState 5).voice 0 5 rfl
    (fun h => h.2.2 (by decide))).1
  have h2 : ((voiceUpdateVolumes demoEnv (demoState 5).voice 0 5) 0).volRampSamples = 960 :=
    h.trans (by decide)
  refine ⟨rfl, by decide, h2, rfl, ?_⟩
  rw [h2]
  decide

/-- C10, amended: for every `voiceUpdateVolumes` call with ramping enabled
that schedules a ramp (a destination gain differs from the gain the ramp starts
from, or a trigger is flagged), the ramp count is `quickVolRampSamples` when the
status has the quick-volume bit and `samplesPerTick` otherwise, whether or not
a trigger is flagged; the gain deltas are the destination gain minus the
starting gain (0 after a trigger, the current gain otherwise) times the matching
multiplier, `fRampQuickVolMul` or `fRampTickMul`. -/
theorem ramp_length [FloatOps F] (E : MixerEnv F) (voice : Nat → voice_t F)
    (i status : Nat) (hramp : E.audio.volumeRampingFlag = true)
    (hsched : ¬ (FloatOps.feq (destVolL E (voice i)) (rampStartL E status (voice i)) = true ∧
      FloatOps.feq (destVolR E (voice i)) (rampStartR E status (voice i)) = true ∧
      ¬ (status &&& E.IS_NyTon ≠ 0))) :
    ((voiceUpdateVolumes E voice i status) i).volRampSamples =
        (if status &&& E.IS_QuickVol ≠ 0 then E.audio.quickVolRampSamples
         else E.audio.samplesPerTick) ∧
    ((voiceUpdateVolumes E voice i status) i).fVolDeltaL =
        (destVolL E (voice i) - rampStartL E status (voice i)) *
          (if status &&& E.IS_QuickVol ≠ 0 then E.audio.fRampQuickVolMul
           else E.audio.fRampTickMul) ∧
    ((voiceUpdateVolumes E voice i status) i).fVolDeltaR =
        (destVolR E (voice i) - rampStartR E status (voice i)) *
          (if status &&& E.IS_QuickVol ≠ 0 then E.audio.fRampQuickVolMul
           else E.audio.fRampTickMul) :=
  voiceUpdateVolumes_ramp E voice i status hramp hsched

/-- The amended C10 on a playing voice whose volume drops from 1 to 1/2 with
no trigger and no quick-volume bit (status 1): a ramp over the 960 samples of a
tick, with left delta `(1/2 - 1) * (1/960)`. -/
theorem ramp_length_witness :
    (demoEnv.audio.volumeRampingFlag = true ∧
      ¬ (FloatOps.feq (destVolL demoEnv (quieterVoices 0))
            (rampStartL demoEnv 1 (quieterVoices 0)) = true ∧
          FloatOps.feq (destVolR demoEnv (quieterVoices 0))
            (rampStartR demoEnv 1 (quieterVoices 0)) = true ∧
          ¬ (1 &&& demoEnv.IS_NyTon ≠ 0))) ∧
    ((voiceUpdateVolumes demoEnv quieterVoices 0 1) 0).volRampSamples = 960 ∧
    ((voiceUpdateVolumes demoEnv quieterVoices 0 1) 0).fVolDeltaL
      = (1 / 2 - 1) * (1 / 960) := by
  have hs : ¬ (FloatOps.feq (destVolL demoEnv (quieterVoices 0))
            (rampStartL demoEnv 1 (quieterVoices 0)) = true ∧
          FloatOps.feq (destVolR demoEnv (quieterVoices 0))
            (rampStartR demoEnv 1 (quieterVoices 0)) = true ∧
          ¬ (1 &&& demoEnv.IS_NyTon ≠ 0)) := by
    intro h
    have h1 := h.1
    simp [FloatOps.feq, destVolL, rampStartL, quieterVoices, playingVoice, stoppedVoice,
      demoEnv, demoPanTab] at h1
  obtain ⟨h1, h2, _⟩ := ramp_length demoEnv quieterVoices 0 1 rfl hs
  refine ⟨⟨rfl, hs⟩, h1.trans (by decide), h2.trans ?_⟩
  simp [destVolL, rampStartL, quieterVoices, playingVoice, stoppedVoice, demoEnv, demoPanTab,
    demoAudio]

/-! ## Ramp count and gains after a volume update -/

theorem setupFadeOutVoice_dest [FloatOps F] (E : MixerEnv F) (voice : Nat → voice_t F)
    (i : Nat) :
    ((setupFadeOutVoice E voice i) i).fDestVolL = (voice i).fDestVolL ∧
    ((setupFadeOutVoice E voice i) i).fDestVolR = (voice i).fDestVolR := by
  unfold setupFadeOutVoice
  split_ifs
  · simp only [Function.update_same, Function.update_apply]
    split_ifs <;> exact ⟨rfl, rfl⟩
  · exact ⟨rfl, rfl⟩

theorem rampOutIn_dest [FloatOps F] (E : MixerEnv F) (voice : Nat → voice_t F)
    (i status : Nat) :
    ((rampOutIn E voice i status) i).fDestVolL = (voice i).fDestVolL ∧
    ((rampOutIn E voice i status) i).fDestVolR = (voice i).fDestVolR := by
  unfold rampOutIn
  split_ifs
  · simp only [Function.update_same]
    exact setupFadeOutVoice_dest E voice i
  · exact ⟨rfl, rfl⟩

theorem rampVolumeChanges_dest [FloatOps F] (E : MixerEnv F) (a b : F)
    (voice : Nat → voice_t F) (i status : Nat) :
    ((rampVolumeChanges E a b voice i status) i).fDestVolL = (voice i).fDestVolL ∧
    ((rampVolumeChanges E a b voice i status) i).fDestVolR = (voice i).fDestVolR := by
  unfold rampVolumeChanges
  split_ifs <;> simp only [Function.update_same, and_self]

/-- After `voiceUpdateVolumes(i, status)` with ramping enabled the destination
gains of voice `i` are the gains computed from its volume and pan. -/
theorem voiceUpdateVolumes_dest [FloatOps F] (E : MixerEnv F) (voice : Nat → voice_t F)
    (i status : Nat) (hramp : E.audio.volumeRampingFlag = true) :
    ((voiceUpdateVolumes E voice i status) i).fDestVolL = destVolL E (voice i) ∧
    ((voiceUpdateVolumes E voice i status) i).fDestVolR = destVolR E (voice i) := by
  rw [voiceUpdateVolumes_ramping E voice i status hramp]
  obtain ⟨h1, h2⟩ := rampVolumeChanges_dest E (destVolL E (voice i)) (destVolR E (voice i))
    (rampOutIn E (Function.update voice i (withDestVol E (voice i))) i status) i status
  obtain ⟨h3, h4⟩ := rampOutIn_dest E (Function.update voice i (withDestVol E (voice i))) i
    status
  rw [h1, h2, h3, h4]
  simp only [Function.update_same, withDestVol, and_self]

/-- The ramp count that `voiceUpdateVolumes(i, status)` leaves with ramping
enabled: 0 when both destination gains compare equal to the gains the ramp
would start from and no trigger is flagged, and the quick or the tick count
otherwise. -/
theorem voiceUpdateVolumes_count [FloatOps F] (E : MixerEnv F) (voice : Nat → voice_t F)
    (i status : Nat) (hramp : E.audio.volumeRampingFlag = true) :
    ((voiceUpdateVolumes E voice i status) i).volRampSamples =
      if FloatOps.feq (destVolL E (voice i)) (rampStartL E status (voice i)) = true ∧
          FloatOps.feq (destVolR E (voice i)) (rampStartR E status (voice i)) = true ∧
          ¬ (status &&& E.IS_NyTon ≠ 0) then 0
      else if status &&& E.IS_QuickVol ≠ 0 then E.audio.quickVolRampSamples
      else E.audio.samplesPerTick := by
  by_cases hs : FloatOps.feq (destVolL E (voice i)) (rampStartL E status (voice i)) = true ∧
      FloatOps.feq (destVolR E (voice i)) (rampStartR E status (voice i)) = true ∧
      ¬ (status &&& E.IS_NyTon ≠ 0)
  · rw [if_pos hs, voiceUpdateVolumes_ramping E voice i status hramp]
    unfold rampVolumeChanges
    rw [rampOutIn_gainL, rampOutIn_gainR]
    have hL : rampStartL E status (Function.update voice i (withDestVol E (voice i)) i)
        = rampStartL E status (voice i) := by
      simp only [Function.update_same, rampStartL, withDestVol]
    have hR : rampStartR E status (Function.update voice i (withDestVol E (voice i)) i)
        = rampStartR E status (voice i) := by
      simp only [Function.update_same, rampStartR, withDestVol]
    rw [hL, hR, if_pos hs]
    simp only [Function.update_same]
  · rw [if_neg hs]
    exact (voiceUpdateVolumes_ramp E voice i status hramp hs).1

/-- C11 as stated fails: with ramping enabled, a trigger with the volume and
quick-volume bits (status 21) on a voice that has just been given the volume 0
leaves current gains equal to the destination gains (all 0) and a ramp count of
240, not 0. -/
theorem ramp_count_counterexample :
    demoEnv.audio.volumeRampingFlag = true ∧
    0 < demoEnv.audio.quickVolRampSamples ∧ 0 < demoEnv.audio.samplesPerTick ∧
    ((voiceUpdateVolumes demoEnv mutedVoices 0 21) 0).fVolL
      = ((voiceUpdateVolumes demoEnv mutedVoices 0 21) 0).fDestVolL ∧
    ((voiceUpdateVolumes demoEnv mutedVoices 0 21) 0).fVolR
      = ((voiceUpdateVolumes demoEnv mutedVoices 0 21) 0).fDestVolR ∧
    ((voiceUpdateVolumes demoEnv mutedVoices 0 21) 0).volRampSamples = 240 := by
  obtain ⟨g1, g2⟩ := voiceUpdateVolumes_gains demoEnv mutedVoices 0 21 rfl
  obtain ⟨d1, d2⟩ := voiceUpdateVolumes_dest demoEnv mutedVoices 0 21 rfl
  have hc := voiceUpdateVolumes_count demoEnv mutedVoices 0 21 rfl
  rw [if_neg (fun h => h.2.2 (by decide))] at hc
  refine ⟨rfl, by decide, by decide, ?_, ?_, hc.trans (by decide)⟩
  · rw [g1, d1]
    simp [rampStartL, destVolL, mutedVoices, playingVoice, stoppedVoice, demoEnv, demoPanTab]
  · rw [g2, d2]
    simp [rampStartR, destVolR, mutedVoices, playingVoice, stoppedVoice, demoEnv, demoPanTab]

/-- C11, amended: after every `voiceUpdateVolumes` call with ramping enabled
and positive `quickVolRampSamples` and `samplesPerTick`, the ramp count of the
voice is 0 exactly when its destination gains compare equal (`==`) to its
current gains and no trigger is flagged; in particular, when the computed
target compares equal to the current gains and no trigger is flagged, the call
sets the ramp count to 0 and leaves the current gains unchanged. -/
theorem ramp_count_zero_iff [FloatOps F] (E : MixerEnv F) (voice : Nat → voice_t F)
    (i status : Nat) (hramp : E.audio.volumeRampingFlag = true)
    (hq : 0 < E.audio.quickVolRampSamples) (hs : 0 < E.audio.samplesPerTick) :
    (((voiceUpdateVolumes E voice i status) i).volRampSamples = 0 ↔
      (FloatOps.feq ((voiceUpdateVolumes E voice i status) i).fDestVolL
          ((voiceUpdateVolumes E voice i status) i).fVolL = true ∧
        FloatOps.feq ((voiceUpdateVolumes E voice i status) i).fDestVolR
          ((voiceUpdateVolumes E voice i status) i).fVolR = true ∧
        ¬ (status &&& E.IS_NyTon ≠ 0))) ∧
    ((¬ (status &&& E.IS_NyTon ≠ 0) ∧
        FloatOps.feq (destVolL E (voice i)) (voice i).fVolL = true ∧
        FloatOps.feq (destVolR E (voice i)) (voice i).fVolR = true) →
      ((voiceUpdateVolumes E voice i status) i).volRampSamples = 0 ∧
      ((voiceUpdateVolumes E voice i status) i).fVolL = (voice i).fVolL ∧
      ((voiceUpdateVolumes E voice i status) i).fVolR = (voice i).fVolR) := by
  obtain ⟨g1, g2⟩ := voiceUpdateVolumes_gains E voice i status hramp
  obtain ⟨d1, d2⟩ := voiceUpdateVolumes_dest E voice i status hramp
  have hc := voiceUpdateVolumes_count E voice i status hramp
  rw [g1, g2, d1, d2, hc]
  constructor
  · constructor
    · intro h0
      by_contra hn
      rw [if_neg hn] at h0
      split_ifs at h0 <;> omega
    · intro h
      rw [if_pos h]
  · rintro ⟨hny, e1, e2⟩
    have hL : rampStartL E status (voice i) = (voice i).fVolL := by
      unfold rampStartL; rw [if_neg hny]
    have hR : rampStartR E status (voice i) = (voice i).fVolR := by
      unfold rampStartR; rw [if_neg hny]
    rw [hL, hR, if_pos ⟨e1, e2, hny⟩]
    exact ⟨rfl, rfl, rfl⟩

/-- The amended C11 on a playing voice whose volume and pan are unchanged
(status 1, no trigger): no ramp is scheduled and the gains stay. -/
theorem ramp_count_zero_iff_witness :
    (demoEnv.audio.volumeRampingFlag = true ∧ 0 < demoEnv.audio.quickVolRampSamples ∧
      0 < demoEnv.audio.samplesPerTick ∧ ¬ (1 &&& demoEnv.IS_NyTon ≠ 0) ∧
      FloatOps.feq (destVolL demoEnv ((demoState 1).voice 0)) ((demoState 1).voice 0).fVolL
        = true ∧
      FloatOps.feq (destVolR demoEnv ((demoState 1).voice 0)) ((demoState 1).voice 0).fVolR
        = true) ∧
    ((voiceUpdateVolumes demoEnv (demoState 1).voice 0 1) 0).volRampSamples = 0 ∧
    ((voiceUpdateVolumes demoEnv (demoState 1).voice 0 1) 0).fVolL
      = ((demoState 1).voice 0).fVolL ∧
    ((voiceUpdateVolumes demoEnv (demoState 1).voice 0 1) 0).fVolR
      = ((demoState 1).voice 0).fVolR := by
  have e1 : FloatOps.feq (destVolL demoEnv ((demoState 1).voice 0))
      ((demoState 1).voice 0).fVolL = true := by
    simp [FloatOps.feq, destVolL, demoState, playingVoice, stoppedVoice, demoEnv, demoPanTab]
  have e2 : FloatOps.feq (destVolR demoEnv ((demoState 1).voice 0))
      ((demoState 1).voice 0).fVolR = true := by
    simp [FloatOps.feq, destVolR, demoState, playingVoice, stoppedVoice, demoEnv, demoPanTab]
  exact ⟨⟨rfl, by decide, by decide, by decide, e1, e2⟩,
    (ramp_count_zero_iff demoEnv (demoState 1).voice 0 1 rfl (by decide) (by decide)).2
      ⟨by decide, e1, e2⟩⟩

/-- C12: with volume ramping disabled, `voiceUpdateVolumes(i, status)` sets the
current left gain of voice `i` to `fVol * fPanningTab[256 - pan]`, the current
right gain to `fVol * fPanningTab[pan]` and the ramp count to 0, changes nothing
else in voice `i`, and changes no other voice (so no fade-out voice), for every
status value, the trigger bit included. -/
theorem snap_without_ramping [FloatOps F] (E : MixerEnv F) (voice : Nat → voice_t F)
    (i status : Nat) (hramp : E.audio.volumeRampingFlag = false) :
    voiceUpdateVolumes E voice i status =
      Function.update voice i
        { voice i with
          fVolL := (voice i).fVol * E.fPanningTab (256 - (voice i).pan)
          fVolR := (voice i).fVol * E.fPanningTab (voice i).pan
          volRampSamples := 0 } ∧
    ((voiceUpdateVolumes E voice i status) i).fVolL
      = (voice i).fVol * E.fPanningTab (256 - (voice i).pan) ∧
    ((voiceUpdateVolumes E voice i status) i).fVolR
      = (voice i).fVol * E.fPanningTab (voice i).pan ∧
    ((voiceUpdateVolumes E voice i status) i).volRampSamples = 0 ∧
    (∀ k, k ≠ i → (voiceUpdateVolumes E voice i status) k = voice k) := by
  have h : voiceUpdateVolumes E voice i status =
      Function.update voice i
        { voice i with
          fVolL := (voice i).fVol * E.fPanningTab (256 - (voice i).pan)
          fVolR := (voice i).fVol * E.fPanningTab (voice i).pan
          volRampSamples := 0 } := by
    unfold voiceUpdateVolumes
    simp only [hramp, if_true]
  rw [h]
  refine ⟨rfl, ?_, ?_, ?_, fun k hk => Function.update_noteq hk _ _⟩ <;>
    simp only [Function.update_same]

/-- C12 on a playing voice retriggered with every status bit set (status 31)
while ramping is disabled: the fade-out voice at index 32 is untouched. -/
theorem snap_without_ramping_witness :
    demoEnvNoRamp.audio.volumeRampingFlag = false ∧
    ((voiceUpdateVolumes demoEnvNoRamp (demoState 31).voice 0 31) 0).volRampSamples = 0 ∧
    (voiceUpdateVolumes demoEnvNoRamp (demoState 31).voice 0 31) 32
      = (demoState 31).voice 32 :=
  ⟨rfl,
   (snap_without_ramping demoEnvNoRamp (demoState 31).voice 0 31 rfl).2.2.2.1,
   (snap_without_ramping demoEnvNoRamp (demoState 31).voice 0 31 rfl).2.2.2.2 32 (by decide)⟩

/-! ## What `updateVoices` leaves in the channels -/

theorem updateVoicesChannel_stm_self [FloatOps F] (E : MixerEnv F) (i : Nat)
    (st : MixerState F) :
    ((updateVoicesChannel E i st).stm i).status = 0 ∧
    ((updateVoicesChannel E i st).stm i).tmpStatus = (st.stm i).status := by
  unfold updateVoicesChannel
  simp only []
  split_ifs with h0
  · simp only [storeTmpStatus, Function.update_same, h0, and_self]
  · rw [updateTrigger_stm, updatePeriod_stm, updateVolPan_stm]
    simp only [clearStatus, storeTmpStatus, Function.update_same, and_self]

/-- The loop over the channels `a .. a + n - 1`: it touches the channels in
that range only, leaves each of them with status 0 and its old status in
`tmpStatus`, and touches no voice other than the primary and fade-out voices
of those channels. -/
theorem updateVoicesFrom_frame [FloatOps F] (E : MixerEnv F) (n : Nat) :
    ∀ (a : Nat) (st : MixerState F),
      (∀ j, (j < a ∨ a + n ≤ j) → (updateVoicesFrom E n a st).stm j = st.stm j) ∧
      (∀ j, a ≤ j → j < a + n →
        ((updateVoicesFrom E n a st).stm j).status = 0 ∧
        ((updateVoicesFrom E n a st).stm j).tmpStatus = (st.stm j).status) ∧
      (∀ k, (k < a ∨ a + n ≤ k) → (k < E.MAX_VOICES + a ∨ E.MAX_VOICES + a + n ≤ k) →
        (updateVoicesFrom E n a st).voice k = st.voice k) := by
  induction n with
  | zero =>
    intro a st
    refine ⟨fun _ _ => rfl, fun j h1 h2 => ?_, fun _ _ _ => rfl⟩
    omega
  | succ n ih =>
    intro a st
    obtain ⟨I1, I2, I3⟩ := ih (a + 1) (updateVoicesChannel E a st)
    obtain ⟨s1, s2⟩ := updateVoicesChannel_stm_self E a st
    show _ ∧ _ ∧ _
    simp only [updateVoicesFrom]
    refine ⟨fun j hj => ?_, fun j h1 h2 => ?_, fun k h1 h2 => ?_⟩
    · rw [I1 j (by omega), updateVoicesChannel_stm_other E a st j (by omega)]
    · by_cases hja : j = a
      · subst hja
        rw [I1 j (by omega)]
        exact ⟨s1, s2⟩
      · have h := I2 j (by omega) (by omega)
        rw [updateVoicesChannel_stm_other E a st j hja] at h
        exact h
    · rw [I3 k (by omega) (by omega),
        updateVoicesChannel_other E a st k (by omega) (by omega)]

/-- C13: after `updateVoices`, every channel `i < song.antChn` has status 0
and its `tmpStatus` equals the status it had before the call; the channels with
index `>= song.antChn` are unchanged, and so are their voices (the primary
voice of a channel below `MAX_VOICES`, and its fade-out voice); and the loop
body for channel `i` modifies no voice other than `voice[i]` and
`voice[MAX_VOICES + i]`. -/
theorem update_voices_frame [FloatOps F] (E : MixerEnv F) (st : MixerState F) :
    (∀ i, i < E.antChn →
      ((updateVoices E st).stm i).status = 0 ∧
      ((updateVoices E st).stm i).tmpStatus = (st.stm i).status) ∧
    (∀ j, E.antChn ≤ j → (updateVoices E st).stm j = st.stm j) ∧
    (∀ j, E.antChn ≤ j → j < E.MAX_VOICES → (updateVoices E st).voice j = st.voice j) ∧
    (∀ j, E.antChn ≤ j →
      (updateVoices E st).voice (E.MAX_VOICES + j) = st.voice (E.MAX_VOICES + j)) ∧
    (∀ (i k : Nat) (s : MixerState F), k ≠ i → k ≠ E.MAX_VOICES + i →
      (updateVoicesChannel E i s).voice k = s.voice k) := by
  obtain ⟨h1, h2, h3⟩ := updateVoicesFrom_frame E E.antChn 0 st
  refine ⟨fun i hi => h2 i (by omega) (by omega), fun j hj => h1 j (by omega),
    fun j hj hm => h3 j (by omega) (by omega), fun j hj => h3 _ (by omega) (by omega),
    fun i k s hk hk2 => updateVoicesChannel_other E i s k hk hk2⟩

/-! ## Tick length -/

/-- C14: `P_SetSpeed(0)` changes no state, and neither does `P_SetSpeed(bpm)`
for `bpm > MAX_BPM`; for `1 <= bpm <= MAX_BPM` the samples-per-tick value, its
rounding, the integer and fractional tick time length and the tick ramp
multiplier are set from table entry `bpm`, and nothing else changes. -/
theorem set_speed_guard (T : SpeedTables F) (st : TickTiming F) :
    P_SetSpeed T 0 st = st ∧
    (∀ bpm, T.MAX_BPM < bpm → P_SetSpeed T bpm st = st) ∧
    (∀ bpm, 1 ≤ bpm → bpm ≤ T.MAX_BPM →
      (P_SetSpeed T bpm st).dSamplesPerTick = T.dSamplesPerTickTab bpm ∧
      (P_SetSpeed T bpm st).audio.samplesPerTick
        = truncToInt (T.dSamplesPerTickTab bpm + 1 / 2) ∧
      (P_SetSpeed T bpm st).tickTimeLen = (T.tickTimeTab bpm >>> 32) % 2 ^ 32 ∧
      (P_SetSpeed T bpm st).tickTimeLenFrac = T.tickTimeTab bpm &&& (2 ^ 32 - 1) ∧
      (P_SetSpeed T bpm st).audio.fRampTickMul = T.fRampTickMulTab bpm ∧
      (P_SetSpeed T bpm st).audio =
        { st.audio with
          samplesPerTick := truncToInt (T.dSamplesPerTickTab bpm + 1 / 2)
          fRampTickMul := T.fRampTickMulTab bpm }) := by
  refine ⟨?_, fun bpm h => ?_, fun bpm h1 h2 => ?_⟩
  · unfold P_SetSpeed
    rw [if_pos rfl]
  · unfold P_SetSpeed
    by_cases h0 : bpm = 0
    · rw [if_pos h0]
    · rw [if_neg h0, if_pos h]
  · unfold P_SetSpeed
    rw [if_neg (by omega), if_neg (by omega)]
    exact ⟨rfl, rfl, rfl, rfl, rfl, rfl⟩

/-! ## The scheduling loop of the audio callback -/

/-- One iteration of the scheduling loop. -/
theorem audioCallbackLoop_succ {σ : Type} (tick : σ → ℚ → σ × ℚ) (mix : σ → Int → σ)
    (fuel : Nat) (samplesLeft : Int) (st : CallbackState σ) (h : samplesLeft > 0)
    (c : ℚ) (s : ℚ) (w : σ)
    (hc : c = if st.dTickSampleCounter ≤ 0 then
        st.dTickSampleCounter + (tick st.world st.dSamplesPerTick).2
      else st.dTickSampleCounter)
    (hs : s = if st.dTickSampleCounter ≤ 0 then (tick st.world st.dSamplesPerTick).2
      else st.dSamplesPerTick)
    (hw : w = if st.dTickSampleCounter ≤ 0 then (tick st.world st.dSamplesPerTick).1
      else st.world) :
    audioCallbackLoop tick mix (fuel + 1) samplesLeft st =
      match audioCallbackLoop tick mix fuel
          (samplesLeft - (if samplesLeft > ⌈c⌉ then ⌈c⌉ else samplesLeft))
          { world := mix w (if samplesLeft > ⌈c⌉ then ⌈c⌉ else samplesLeft),
            dTickSampleCounter := c - ((if samplesLeft > ⌈c⌉ then ⌈c⌉ else samplesLeft : Int) : ℚ),
            dSamplesPerTick := s } with
      | none => none
      | some (calls, st4) =>
        some ({ samples := (if samplesLeft > ⌈c⌉ then ⌈c⌉ else samplesLeft), counter := c }
          :: calls, st4) := by
  subst hc hs hw
  rw [audioCallbackLoop]
  rw [if_pos h]
  by_cases h0 : st.dTickSampleCounter ≤ 0
  · simp only [if_pos h0]
  · simp only [if_neg h0]

/-- With the tick counter above -1 and at least one sample per tick after
every replayer tick, the loop ends within `samplesLeft` iterations; every block
it mixes has at least one sample and at most the ceiling of the tick counter;
the blocks add up to `samplesLeft`; and the tick counter is above -1 again. -/
theorem audioCallbackLoop_spec {σ : Type} (tick : σ → ℚ → σ × ℚ) (mix : σ → Int → σ)
    (htick : ∀ w s, 1 ≤ (tick w s).2) (fuel : Nat) :
    ∀ (samplesLeft : Int) (st : CallbackState σ), 0 ≤ samplesLeft → samplesLeft ≤ fuel →
      -1 < st.dTickSampleCounter →
      ∃ calls st1, audioCallbackLoop tick mix fuel samplesLeft st = some (calls, st1) ∧
        (calls.map MixCall.samples).sum = samplesLeft ∧
        (∀ c ∈ calls, 1 ≤ c.samples ∧ c.samples ≤ ⌈c.counter⌉) ∧
        -1 < st1.dTickSampleCounter := by
  induction fuel with
  | zero =>
    intro samplesLeft st h0 h1 hc
    have : samplesLeft = 0 := by omega
    subst this
    exact ⟨[], st, by simp [audioCallbackLoop], by simp, by simp, hc⟩
  | succ fuel ih =>
    intro samplesLeft st h0 h1 hc
    by_cases hz : samplesLeft = 0
    · subst hz
      exact ⟨[], st, by simp [audioCallbackLoop], by simp, by simp, hc⟩
    · have hpos : samplesLeft > 0 := by omega
      rw [audioCallbackLoop_succ tick mix fuel samplesLeft st hpos _ _ _ rfl rfl rfl]
      generalize hcdef : (if st.dTickSampleCounter ≤ 0 then
        st.dTickSampleCounter + (tick st.world st.dSamplesPerTick).2
        else st.dTickSampleCounter) = c
      have hcpos : 0 < c := by
        rw [← hcdef]
        split_ifs with h
        · have := htick st.world st.dSamplesPerTick
          linarith
        · linarith
      have hceil : 1 ≤ ⌈c⌉ := by
        have : (0 : Int) < ⌈c⌉ := Int.lt_ceil.2 (by exact_mod_cast hcpos)
        omega
      generalize hmdef : (if samplesLeft > ⌈c⌉ then ⌈c⌉ else samplesLeft) = m
      have hm1 : 1 ≤ m := by rw [← hmdef]; split_ifs <;> omega
      have hm2 : m ≤ ⌈c⌉ := by rw [← hmdef]; split_ifs <;> omega
      have hm3 : m ≤ samplesLeft := by rw [← hmdef]; split_ifs <;> omega
      have hnew : -1 < c - (m : ℚ) := by
        have h1 := Int.ceil_lt_add_one c
        have h2 : (m : ℚ) ≤ (⌈c⌉ : ℚ) := by exact_mod_cast hm2
        linarith
      generalize (if st.dTickSampleCounter ≤ 0 then (tick st.world st.dSamplesPerTick).2
        else st.dSamplesPerTick) = s
      generalize (if st.dTickSampleCounter ≤ 0 then (tick st.world st.dSamplesPerTick).1
        else st.world) = w
      obtain ⟨calls, st1, e1, e2, e3, e4⟩ := ih (samplesLeft - m)
        { world := mix w m, dTickSampleCounter := c - (m : ℚ), dSamplesPerTick := s }
        (by omega) (by omega) hnew
      rw [e1]
      refine ⟨_, st1, rfl, ?_, ?_, e4⟩
      · simp only [List.map_cons, List.sum_cons, e2]
        omega
      · intro x hx
        rcases List.mem_cons.1 hx with hx | hx
        · subst hx
          exact ⟨hm1, hm2⟩
        · exact e3 x hx

/-- The callback on a request of at least one frame is the scheduling loop on
`len / pmpCountDiv` frames. -/
theorem audioCallback_eq_loop {σ : Type} (tick : σ → ℚ → σ × ℚ) (mix : σ → Int → σ)
    (pmpCountDiv len : Int) (fuel : Nat) (st : CallbackState σ) (hdiv : 0 < pmpCountDiv)
    (hlen : pmpCountDiv ≤ len) :
    audioCallback tick mix false pmpCountDiv fuel len st =
      audioCallbackLoop tick mix fuel (len / pmpCountDiv) st ∧
    1 ≤ len / pmpCountDiv ∧ Int.tdiv len pmpCountDiv = len / pmpCountDiv := by
  have h1 : Int.tdiv len pmpCountDiv = len / pmpCountDiv :=
    Int.tdiv_eq_ediv (by omega) (by omega)
  have h2 : 1 ≤ len / pmpCountDiv := Int.le_ediv_of_mul_le hdiv (by omega)
  refine ⟨?_, h2, h1⟩
  unfold audioCallback
  simp only [Bool.false_eq_true, if_false, h1]
  rw [if_neg (by omega)]

/-- C15 as stated fails: with half a sample per tick (a positive value), tick
counter 0 and a request of two frames (`len = 2`, `pmpCountDiv = 1`), the
callback calls `mixAudio` with block sizes 1, 0 and 1: the second block has no
sample. -/
theorem tick_schedule_counterexample :
    (1 : Int) ≤ 2 ∧ (0 : Int) < 1 ∧ (∀ w s, 0 < (halfSampleTick w s).2) ∧
    ∃ st1, audioCallback halfSampleTick (fun w _ => w) false 1 3 2 freshCallback =
      some ([{ samples := 1, counter := 1 / 2 }, { samples := 0, counter := 0 },
             { samples := 1, counter := 1 / 2 }], st1) := by
  have hceil : ⌈(1 / 2 : ℚ)⌉ = 1 := by rw [Int.ceil_eq_iff]; norm_num
  refine ⟨by decide, by decide, fun w s => by simp [halfSampleTick], ?_⟩
  rw [(audioCallback_eq_loop halfSampleTick (fun w _ => w) 1 2 3 freshCallback
    (by decide) (by decide)).1]
  rw [audioCallbackLoop_succ halfSampleTick (fun w _ => w) 2 (2 / 1) freshCallback
    (by decide) (1 / 2) (1 / 2) ()
    (by simp [freshCallback, halfSampleTick]) (by simp [freshCallback, halfSampleTick])
    (by simp)]
  rw [hceil]
  have e1 : (2 / 1 : Int) - (if (2 / 1 : Int) > 1 then 1 else 2 / 1) = 1 := by decide
  have e2 : (if (2 / 1 : Int) > 1 then (1 : Int) else 2 / 1) = 1 := by decide
  rw [e1, e2]
  rw [audioCallbackLoop_succ halfSampleTick (fun w _ => w) 1 1 _
    (by decide) 0 (1 / 2) ()
    (by norm_num [halfSampleTick]) (by norm_num [halfSampleTick])
    (by simp)]
  rw [Int.ceil_zero]
  have e3 : (1 : Int) - (if (1 : Int) > 0 then 0 else 1) = 1 := by decide
  have e4 : (if (1 : Int) > 0 then (0 : Int) else 1) = 0 := by decide
  rw [e3, e4]
  rw [audioCallbackLoop_succ halfSampleTick (fun w _ => w) 0 1 _
    (by decide) (1 / 2) (1 / 2) ()
    (by simp [halfSampleTick]) (by simp [halfSampleTick])
    (by simp)]
  rw [hceil]
  have e5 : (1 : Int) - (if (1 : Int) > 1 then 1 else 1) = 0 := by decide
  have e6 : (if (1 : Int) > 1 then (1 : Int) else 1) = 1 := by decide
  rw [e5, e6]
  simp only [audioCallbackLoop, gt_iff_lt, lt_self_iff_false, if_false]
  exact ⟨_, rfl⟩

/-- C15, amended: for every audio callback with `len >= pmpCountDiv > 0`, a
tick counter above -1 on entry (it is 0 after `setupAudio`, and above -1 after
every callback) and at least one sample per tick after every replayer tick
(exact rational arithmetic), the scheduling loop ends within
`len / pmpCountDiv` iterations, every block passed to `mixAudio` has a size
between 1 and the ceiling of the tick counter, the block sizes add up to
exactly `len / pmpCountDiv`, and the tick counter is above -1 on return. -/
theorem tick_schedule {σ : Type} (tick : σ → ℚ → σ × ℚ) (mix : σ → Int → σ)
    (pmpCountDiv len : Int) (st : CallbackState σ) (hdiv : 0 < pmpCountDiv)
    (hlen : pmpCountDiv ≤ len) (htick : ∀ w s, 1 ≤ (tick w s).2)
    (hc : -1 < st.dTickSampleCounter) :
    ∃ calls st1,
      audioCallback tick mix false pmpCountDiv (Int.tdiv len pmpCountDiv).toNat len st
        = some (calls, st1) ∧
      (calls.map MixCall.samples).sum = Int.tdiv len pmpCountDiv ∧
      (∀ c ∈ calls, 1 ≤ c.samples ∧ c.samples ≤ ⌈c.counter⌉) ∧
      -1 < st1.dTickSampleCounter := by
  obtain ⟨h1, h2, h3⟩ := audioCallback_eq_loop tick mix pmpCountDiv len
    (Int.tdiv len pmpCountDiv).toNat st hdiv hlen
  rw [h1, h3]
  exact audioCallbackLoop_spec tick mix htick _ _ st (by omega) (by omega) hc

/-- The amended C15 on a request of 8 bytes with 2 bytes per frame, 5/2 samples
per tick and tick counter 0. -/
theorem tick_schedule_witness :
    ((0 : Int) < 2 ∧ (2 : Int) ≤ 8 ∧ (∀ w s, 1 ≤ (shortTick w s).2) ∧
      -1 < freshCallback.dTickSampleCounter) ∧
    ∃ calls st1,
      audioCallback shortTick (fun w _ => w) false 2 (Int.tdiv 8 2).toNat 8 freshCallback
        = some (calls, st1) ∧
      (calls.map MixCall.samples).sum = Int.tdiv 8 2 ∧
      (∀ c ∈ calls, 1 ≤ c.samples ∧ c.samples ≤ ⌈c.counter⌉) ∧
      -1 < st1.dTickSampleCounter :=
  ⟨⟨by decide, by decide, fun w s => by norm_num [shortTick],
     by simp [freshCallback]⟩,
   tick_schedule shortTick (fun w _ => w) 2 8 freshCallback (by decide) (by decide)
     (fun w s => by norm_num [shortTick]) (by simp [freshCallback])⟩

/-! ## The send routines -/

theorem padFrames_length {α : Type} (n : Nat) (z : α) (hn : 2 ≤ n) :
    ∀ (k : Nat) (l : List α), l.length = 2 * k → (padFrames n z l).length = n * k := by
  intro k
  induction k with
  | zero =>
    intro l hl
    have : l = [] := List.length_eq_zero.1 (by omega)
    subst this
    simp [padFrames]
  | succ k ih =>
    intro l hl
    match l, hl with
    | a :: b :: rest, hl =>
      have hr : rest.length = 2 * k := by simp only [List.length_cons] at hl; omega
      simp only [padFrames, List.length_cons, List.length_append, List.length_replicate, ih rest hr]
      have : n * (k + 1) = n * k + n := by ring
      omega

theorem sendSamples16BitDitherStereoFrom_length [FloatConv F] (B : OutEnv F) (n : Nat) :
    ∀ (i : Nat) (d : DitherState F),
      (sendSamples16BitDitherStereoFrom B n i d).1.length = 2 * n := by
  induction n with
  | zero => intro i d; rfl
  | succ n ih =>
    intro i d
    simp only [sendSamples16BitDitherStereoFrom, List.length_cons, ih]
    omega

theorem sendSamples32BitStereoFrom_length [FloatConv F] (B : OutEnv F) (n : Nat) :
    ∀ (i : Nat), (sendSamples32BitStereoFrom B n i).length = 2 * n := by
  induction n with
  | zero => intro i; rfl
  | succ n ih =>
    intro i
    simp only [sendSamples32BitStereoFrom, List.length_cons, ih]
    omega

/-- The 16-bit multi-channel loop writes the frames of the stereo loop, each
widened with zeroes, and leaves the same dither state. -/
theorem sendSamples16BitDitherMultiChanFrom_eq [FloatConv F] (B : OutEnv F) (c : Nat)
    (n : Nat) :
    ∀ (i : Nat) (d : DitherState F),
      sendSamples16BitDitherMultiChanFrom B c n i d =
        (padFrames c 0 (sendSamples16BitDitherStereoFrom B n i d).1,
         (sendSamples16BitDitherStereoFrom B n i d).2) := by
  induction n with
  | zero => intro i d; rfl
  | succ n ih =>
    intro i d
    simp only [sendSamples16BitDitherMultiChanFrom, sendSamples16BitDitherStereoFrom, ih,
      padFrames]

/-- The 32-bit multi-channel loop writes the frames of the stereo loop, each
widened with zeroes. -/
theorem sendSamples32BitMultiChanFrom_eq [FloatConv F] (B : OutEnv F) (c : Nat) (n : Nat) :
    ∀ (i : Nat),
      sendSamples32BitMultiChanFrom B c n i = padFrames c 0 (sendSamples32BitStereoFrom B n i) := by
  induction n with
  | zero => intro i; rfl
  | succ n ih =>
    intro i
    simp only [sendSamples32BitMultiChanFrom, sendSamples32BitStereoFrom, ih, padFrames]

/-- C17: for every channel count `n > 2`, block length, mix-buffer content and
dither state, the 16-bit multi-channel routine writes the stream of the stereo
routine with every frame widened to `n` elements (left, right, then `n - 2`
zeroes) and leaves the same dither state as the stereo routine; the 32-bit
multi-channel routine writes the stream of the 32-bit stereo routine widened in
the same way; both write `n` elements per frame.  The stereo routines ignore
their channel-count argument `m`. -/
theorem multichan_refines_stereo [FloatConv F] (B : OutEnv F) (n m len : Nat)
    (d : DitherState F) (hn : 2 < n) :
    (sendSamples16BitDitherMultiChan B len n d).1
      = padFrames n 0 (sendSamples16BitDitherStereo B len m d).1 ∧
    (sendSamples16BitDitherMultiChan B len n d).2
      = (sendSamples16BitDitherStereo B len m d).2 ∧
    sendSamples32BitMultiChan B len n = padFrames n 0 (sendSamples32BitStereo B len m) ∧
    (sendSamples16BitDitherMultiChan B len n d).1.length = n * len ∧
    (sendSamples32BitMultiChan B len n).length = n * len := by
  have h16 := sendSamples16BitDitherMultiChanFrom_eq B n len 0 d
  have h32 := sendSamples32BitMultiChanFrom_eq B n len 0
  unfold sendSamples16BitDitherMultiChan sendSamples16BitDitherStereo
    sendSamples32BitMultiChan sendSamples32BitStereo
  rw [h16, h32]
  refine ⟨rfl, rfl, rfl, ?_, ?_⟩
  · exact padFrames_length n 0 (by omega) len _
      (sendSamples16BitDitherStereoFrom_length B len 0 d)
  · exact padFrames_length n 0 (by omega) len _ (sendSamples32BitStereoFrom_length B len 0)

/-- C17 on a six-channel device: two frames of silence from the reset dither
state. -/
theorem multichan_refines_stereo_witness :
    (2 : Nat) < 6 ∧
    (sendSamples16BitDitherMultiChan (zeroMix 1) 2 6
        (resetAudioDither { randSeed := 0, fPrngStateL := 0, fPrngStateR := 0 })).1
      = padFrames 6 0 (sendSamples16BitDitherStereo (zeroMix 1) 2 2
          (resetAudioDither { randSeed := 0, fPrngStateL := 0, fPrngStateR := 0 })).1 ∧
    (sendSamples16BitDitherMultiChan (zeroMix 1) 2 6
        (resetAudioDither { randSeed := 0, fPrngStateL := 0, fPrngStateR := 0 })).1.length
      = 6 * 2 :=
  ⟨by decide,
   (multichan_refines_stereo (zeroMix 1) 6 2 2
     (resetAudioDither { randSeed := 0, fPrngStateL := 0, fPrngStateR := 0 }) (by decide)).1,
   (multichan_refines_stereo (zeroMix 1) 6 2 2
     (resetAudioDither { randSeed := 0, fPrngStateL := 0, fPrngStateR := 0 })
     (by decide)).2.2.2.1⟩

/-! ## Dither on a silent mix buffer -/

theorem wrapInt32_range (x : Int) : -2147483648 ≤ wrapInt32 x ∧ wrapInt32 x ≤ 2147483647 := by
  unfold wrapInt32
  have h1 : 0 ≤ (x + 2 ^ 31) % 2 ^ 32 := Int.emod_nonneg _ (by norm_num)
  have h2 : (x + 2 ^ 31) % 2 ^ 32 < 2 ^ 32 := Int.emod_lt_of_pos _ (by norm_num)
  constructor <;> omega

theorem random32_range (s : Int) : -2147483648 ≤ random32 s ∧ random32 s ≤ 2147483647 :=
  wrapInt32_range _

theorem ditherValue_abs (s : Int) : |ditherValue (random32 s)| < 1 := by
  obtain ⟨h1, h2⟩ := random32_range s
  have h1q : (-2147483648 : ℚ) ≤ ((random32 s : Int) : ℚ) := by exact_mod_cast h1
  have h2q : ((random32 s : Int) : ℚ) ≤ 2147483647 := by exact_mod_cast h2
  unfold ditherValue
  rw [abs_lt]
  constructor
  · norm_num
    linarith
  · norm_num
    linarith

theorem truncToInt_of_nonneg (x : ℚ) (h : 0 ≤ x) : truncToInt x = ⌊x⌋ := by
  unfold truncToInt
  rw [Rat.floor_def, Int.tdiv_eq_ediv (Rat.num_nonneg.2 h) (by exact_mod_cast Nat.zero_le _)]

theorem truncToInt_neg (x : ℚ) : truncToInt (-x) = -truncToInt x := by
  unfold truncToInt
  rw [Rat.neg_num, Rat.neg_den, Int.neg_tdiv]

/-- Truncation of a value strictly between -2 and 2 is -1, 0 or 1. -/
theorem truncToInt_small (x : ℚ) (h : |x| < 2) :
    truncToInt x = -1 ∨ truncToInt x = 0 ∨ truncToInt x = 1 := by
  rw [abs_lt] at h
  rcases le_total 0 x with hx | hx
  · rw [truncToInt_of_nonneg x hx]
    have h0 : 0 ≤ ⌊x⌋ := Int.floor_nonneg.2 hx
    have h2 : ⌊x⌋ < 2 := Int.floor_lt.2 (by exact_mod_cast h.2)
    omega
  · have hn : 0 ≤ -x := by linarith
    have e : truncToInt x = -⌊-x⌋ := by
      rw [← truncToInt_of_nonneg (-x) hn, truncToInt_neg, neg_neg]
    rw [e]
    have h0 : 0 ≤ ⌊-x⌋ := Int.floor_nonneg.2 hn
    have h2 : ⌊-x⌋ < 2 := Int.floor_lt.2 (by push_cast; linarith)
    omega

theorem CLAMP16_small (i : Int) (h : i = -1 ∨ i = 0 ∨ i = 1) : CLAMP16 i = i := by
  unfold CLAMP16
  rcases h with h | h | h <;> subst h <;> decide

/-- One channel step of the 16-bit conversion on a silent buffer: the value
written is the truncation of the new dither value minus the previous one. -/
theorem dither_step (mul prev : ℚ) (r : Int) (hp : |prev| < 1) :
    CLAMP16 (FloatConv.toInt32
        ((((0 : ℚ) * mul) + ((random32 r : Int) : ℚ) * (FloatConv.half / ((2147483647 : Int) : ℚ)))
          - prev))
      = truncToInt (ditherValue (random32 r) - prev) ∧
    (truncToInt (ditherValue (random32 r) - prev) = -1 ∨
      truncToInt (ditherValue (random32 r) - prev) = 0 ∨
      truncToInt (ditherValue (random32 r) - prev) = 1) := by
  have hc := ditherValue_abs r
  have hs : |ditherValue (random32 r) - prev| < 2 := by
    rw [abs_lt] at hc hp ⊢
    constructor <;> linarith
  have hr := truncToInt_small _ hs
  refine ⟨?_, hr⟩
  have e : (((0 : ℚ) * mul) + ((random32 r : Int) : ℚ) * (FloatConv.half / ((2147483647 : Int) : ℚ)))
      - prev = ditherValue (random32 r) - prev := by
    show ((0 : ℚ) * mul + ((random32 r : Int) : ℚ) * ((1 / 2) / ((2147483647 : Int) : ℚ))) - prev
      = ditherValue (random32 r) - prev
    unfold ditherValue
    ring
  rw [e]
  exact CLAMP16_small _ hr

/-- The 16-bit stereo loop on a silent mix buffer, from any seed and any
feedback state of magnitude below 1. -/
theorem silent_loop (mul : ℚ) (n : Nat) :
    ∀ (i : Nat) (d : DitherState ℚ), |d.fPrngStateL| < 1 → |d.fPrngStateR| < 1 →
      (sendSamples16BitDitherStereoFrom (zeroMix mul) n i d).1
        = List.zipWith (fun cur prev => truncToInt (cur - prev))
            ((prngValues (2 * n) d.randSeed).map ditherValue)
            (d.fPrngStateL :: d.fPrngStateR :: (prngValues (2 * n) d.randSeed).map ditherValue) ∧
      ∀ x ∈ (sendSamples16BitDitherStereoFrom (zeroMix mul) n i d).1, x = -1 ∨ x = 0 ∨ x = 1 := by
  induction n with
  | zero =>
    intro i d _ _
    simp [sendSamples16BitDitherStereoFrom, prngValues]
  | succ n ih =>
    intro i d hL hR
    obtain ⟨eL, rL⟩ := dither_step mul d.fPrngStateL d.randSeed hL
    obtain ⟨eR, rR⟩ := dither_step mul d.fPrngStateR (random32 d.randSeed) hR
    have hih := ih (i + 1)
      { randSeed := random32 (random32 d.randSeed),
        fPrngStateL := ditherValue (random32 d.randSeed),
        fPrngStateR := ditherValue (random32 (random32 d.randSeed)) }
      (ditherValue_abs _) (ditherValue_abs _)
    have e2 : 2 * (n + 1) = (2 * n + 1) + 1 := by ring
    have step : sendSamples16BitDitherStereoFrom (zeroMix mul) (n + 1) i d
        = (truncToInt (ditherValue (random32 d.randSeed) - d.fPrngStateL)
            :: truncToInt (ditherValue (random32 (random32 d.randSeed)) - d.fPrngStateR)
            :: (sendSamples16BitDitherStereoFrom (zeroMix mul) n (i + 1)
                { randSeed := random32 (random32 d.randSeed),
                  fPrngStateL := ditherValue (random32 d.randSeed),
                  fPrngStateR := ditherValue (random32 (random32 d.randSeed)) }).1,
           (sendSamples16BitDitherStereoFrom (zeroMix mul) n (i + 1)
                { randSeed := random32 (random32 d.randSeed),
                  fPrngStateL := ditherValue (random32 d.randSeed),
                  fPrngStateR := ditherValue (random32 (random32 d.randSeed)) }).2) := by
      rw [← eL, ← eR]
      rfl
    rw [step]
    constructor
    · rw [e2]
      simp only [prngValues, List.map_cons, List.zipWith_cons_cons]
      rw [hih.1]
    · intro x hx
      simp only [List.mem_cons] at hx
      rcases hx with hx | hx | hx
      · rw [hx]; exact rL
      · rw [hx]; exact rR
      · exact hih.2 x hx

theorem sum_small : ∀ (l : List Int), (∀ x ∈ l, x = -1 ∨ x = 0 ∨ x = 1) →
    |l.sum| ≤ (l.length : Int)
  | [], _ => by simp
  | a :: l, h => by
    have ha := h a (List.mem_cons_self _ _)
    have hl := sum_small l (fun x hx => h x (List.mem_cons_of_mem _ hx))
    simp only [List.sum_cons, List.length_cons]
    rw [abs_le] at hl ⊢
    push_cast
    constructor <;> omega

/-- C18: for a mix buffer that is 0.0 in every sample, any normalisation
multiplier and any block length `n`, the 16-bit stereo conversion started from
the reset dither state writes, as its k-th element, the truncation of the k-th
dither value minus the dither value two elements earlier (the previous one of
the same side, 0 for the first two elements); every element written is -1, 0
or 1, so the sum of the block is at most its length in magnitude (the average
is within one LSB of zero). -/
theorem zero_input_dither (mul : ℚ) (n c : Nat) (d : DitherState ℚ) :
    (sendSamples16BitDitherStereo (zeroMix mul) n c (resetAudioDither d)).1
      = List.zipWith (fun cur prev => truncToInt (cur - prev))
          ((prngValues (2 * n) INITIAL_DITHER_SEED).map ditherValue)
          (0 :: 0 :: (prngValues (2 * n) INITIAL_DITHER_SEED).map ditherValue) ∧
    (∀ x ∈ (sendSamples16BitDitherStereo (zeroMix mul) n c (resetAudioDither d)).1,
      x = -1 ∨ x = 0 ∨ x = 1) ∧
    (sendSamples16BitDitherStereo (zeroMix mul) n c (resetAudioDither d)).1.length = 2 * n ∧
    |(sendSamples16BitDitherStereo (zeroMix mul) n c (resetAudioDither d)).1.sum|
      ≤ (2 * n : Int) := by
  have h := silent_loop mul n 0 (resetAudioDither d)
    (by simp [resetAudioDither]) (by simp [resetAudioDither])
  have hlen := sendSamples16BitDitherStereoFrom_length (zeroMix mul) n 0 (resetAudioDither d)
  have hsum := sum_small _ h.2
  rw [hlen] at hsum
  unfold sendSamples16BitDitherStereo
  refine ⟨?_, h.2, hlen, ?_⟩
  · exact h.1
  · exact_mod_cast hsum

/-! ## Channel mixing: calls on the fade-out voices -/

theorem callsOn_append (t : Nat) (l m : List KernelCall) :
    callsOn t (l ++ m) = callsOn t l ++ callsOn t m := by
  simp [callsOn]

theorem callMixFunc_voice_other {β : Type} (K : MixKernels F β) (k j : Nat) (n : Int)
    (s : ChannelMixState F β) (m : Nat) (h : m ≠ j) :
    (callMixFunc K k j n s).voice m = s.voice m := by
  simp [callMixFunc, Function.update_noteq h]

theorem callSilenceMix_voice_other {β : Type} (K : MixKernels F β) (j : Nat) (n : Int)
    (s : ChannelMixState F β) (m : Nat) (h : m ≠ j) :
    (callSilenceMix K j n s).voice m = s.voice m := by
  simp [callSilenceMix, Function.update_noteq h]

theorem callMixFunc_callsOn_other {β : Type} (K : MixKernels F β) (k j : Nat) (n : Int)
    (s : ChannelMixState F β) (t : Nat) (h : t ≠ j) :
    callsOn t (callMixFunc K k j n s).calls = callsOn t s.calls := by
  have h2 : ¬ j = t := fun e => h e.symm
  simp [callMixFunc, callsOn, h2]

theorem callSilenceMix_callsOn_other {β : Type} (K : MixKernels F β) (j : Nat) (n : Int)
    (s : ChannelMixState F β) (t : Nat) (h : t ≠ j) :
    callsOn t (callSilenceMix K j n s).calls = callsOn t s.calls := by
  have h2 : ¬ j = t := fun e => h e.symm
  simp [callSilenceMix, callsOn, h2]

theorem callMixFunc_callsOn_self {β : Type} (K : MixKernels F β) (k j : Nat) (n : Int)
    (s : ChannelMixState F β) :
    callsOn j (callMixFunc K k j n s).calls
      = callsOn j s.calls ++ [{ routine := some k, voiceIdx := j, samples := n }] := by
  simp [callMixFunc, callsOn]

/-- The primary half of the loop body touches only voice `i`. -/
theorem mixPrimaryVoice_voice_other [FloatOps F] {β : Type} (K : MixKernels F β) (n : Int)
    (i : Nat) (s : ChannelMixState F β) (m : Nat) (h : m ≠ i) :
    (mixPrimaryVoice K n i s).1.voice m = s.voice m := by
  unfold mixPrimaryVoice
  dsimp only
  split_ifs
  · exact callMixFunc_voice_other K _ i n s m h
  · exact callSilenceMix_voice_other K i n s m h
  · exact callMixFunc_voice_other K _ i n s m h
  · rfl

/-- The primary half of the loop body calls kernels only on voice `i`. -/
theorem mixPrimaryVoice_callsOn_other [FloatOps F] {β : Type} (K : MixKernels F β) (n : Int)
    (i : Nat) (s : ChannelMixState F β) (t : Nat) (h : t ≠ i) :
    callsOn t (mixPrimaryVoice K n i s).1.calls = callsOn t s.calls := by
  unfold mixPrimaryVoice
  dsimp only
  split_ifs
  · exact callMixFunc_callsOn_other K _ i n s t h
  · exact callSilenceMix_callsOn_other K i n s t h
  · exact callMixFunc_callsOn_other K _ i n s t h
  · rfl

/-- The primary half of the loop body goes on to the fade-out voice unless the
primary voice is active, has no ramp pending and has both gains zero. -/
theorem mixPrimaryVoice_continues [FloatOps F] {β : Type} (K : MixKernels F β) (n : Int)
    (i : Nat) (s : ChannelMixState F β) :
    (mixPrimaryVoice K n i s).2 = false ↔
      ((s.voice i).active = true ∧ ¬ (s.voice i).volRampSamples > 0 ∧
        (FloatOps.feq (s.voice i).fVolL 0 && FloatOps.feq (s.voice i).fVolR 0) = true) := by
  unfold mixPrimaryVoice
  dsimp only
  split_ifs with h1 h2 h3
  · simp only [decide_eq_true_eq] at h2
    simp [h2]
  · simp only [decide_eq_true_eq] at h2
    simp [h1, h2, h3]
  · simp only [decide_eq_true_eq] at h2
    simp [h3]
  · simp [h1]

theorem mixFadeOutVoice_voice_other [FloatOps F] {β : Type} (E : MixerEnv F)
    (K : MixKernels F β) (n : Int) (i : Nat) (s : ChannelMixState F β) (m : Nat)
    (h : m ≠ E.MAX_VOICES + i) :
    (mixFadeOutVoice E K n i s).voice m = s.voice m := by
  unfold mixFadeOutVoice
  dsimp only
  split_ifs
  · exact callMixFunc_voice_other K _ _ n s m h
  · rfl

theorem mixFadeOutVoice_callsOn_other [FloatOps F] {β : Type} (E : MixerEnv F)
    (K : MixKernels F β) (n : Int) (i : Nat) (s : ChannelMixState F β) (t : Nat)
    (h : t ≠ E.MAX_VOICES + i) :
    callsOn t (mixFadeOutVoice E K n i s).calls = callsOn t s.calls := by
  unfold mixFadeOutVoice
  dsimp only
  split_ifs
  · exact callMixFunc_callsOn_other K _ _ n s t h
  · rfl

theorem mixFadeOutVoice_callsOn_self [FloatOps F] {β : Type} (E : MixerEnv F)
    (K : MixKernels F β) (n : Int) (i : Nat) (s : ChannelMixState F β)
    (h : (s.voice (E.MAX_VOICES + i)).active = true) :
    callsOn (E.MAX_VOICES + i) (mixFadeOutVoice E K n i s).calls
      = callsOn (E.MAX_VOICES + i) s.calls
          ++ [fadeOutCall (s.voice (E.MAX_VOICES + i)) (E.MAX_VOICES + i) n] := by
  unfold mixFadeOutVoice
  dsimp only
  rw [if_pos h, callMixFunc_callsOn_self]
  simp only [fadeOutCall, Nat.mul_comm]

/-- The loop body for channel `j` touches only the voices `j` and
`MAX_VOICES + j`. -/
theorem doChannelMixingSlot_voice_other [FloatOps F] {β : Type} (E : MixerEnv F)
    (K : MixKernels F β) (n : Int) (j : Nat) (s : ChannelMixState F β) (m : Nat)
    (h1 : m ≠ j) (h2 : m ≠ E.MAX_VOICES + j) :
    (doChannelMixingSlot E K n j s).voice m = s.voice m := by
  unfold doChannelMixingSlot
  split_ifs
  · rw [mixFadeOutVoice_voice_other E K n j _ m h2, mixPrimaryVoice_voice_other K n j s m h1]
  · exact mixPrimaryVoice_voice_other K n j s m h1

/-- The loop body for channel `j` calls kernels only on the voices `j` and
`MAX_VOICES + j`. -/
theorem doChannelMixingSlot_callsOn_other [FloatOps F] {β : Type} (E : MixerEnv F)
    (K : MixKernels F β) (n : Int) (j : Nat) (s : ChannelMixState F β) (t : Nat)
    (h1 : t ≠ j) (h2 : t ≠ E.MAX_VOICES + j) :
    callsOn t (doChannelMixingSlot E K n j s).calls = callsOn t s.calls := by
  unfold doChannelMixingSlot
  split_ifs
  · rw [mixFadeOutVoice_callsOn_other E K n j _ t h2, mixPrimaryVoice_callsOn_other K n j s t h1]
  · exact mixPrimaryVoice_callsOn_other K n j s t h1

/-- The loop body for channel `i`, when the fade-out voice is active and the
primary voice is not in the silent case: one call on the fade-out voice. -/
theorem doChannelMixingSlot_fadeOut [FloatOps F] {β : Type} (E : MixerEnv F)
    (K : MixKernels F β) (n : Int) (i : Nat) (s : ChannelMixState F β)
    (hM : 0 < E.MAX_VOICES)
    (hr : (s.voice (E.MAX_VOICES + i)).active = true)
    (hp : ¬ ((s.voice i).active = true ∧ ¬ (s.voice i).volRampSamples > 0 ∧
        (FloatOps.feq (s.voice i).fVolL 0 && FloatOps.feq (s.voice i).fVolR 0) = true)) :
    callsOn (E.MAX_VOICES + i) (doChannelMixingSlot E K n i s).calls
      = callsOn (E.MAX_VOICES + i) s.calls
          ++ [fadeOutCall (s.voice (E.MAX_VOICES + i)) (E.MAX_VOICES + i) n] := by
  have hne : E.MAX_VOICES + i ≠ i := by omega
  have hgo : (mixPrimaryVoice K n i s).2 = true := by
    rw [← Bool.not_eq_false]
    exact fun h => hp ((mixPrimaryVoice_continues K n i s).1 h)
  have hv := mixPrimaryVoice_voice_other K n i s (E.MAX_VOICES + i) hne
  unfold doChannelMixingSlot
  rw [if_pos hgo, mixFadeOutVoice_callsOn_self E K n i _ (by rw [hv]; exact hr), hv,
    mixPrimaryVoice_callsOn_other K n i s _ hne]

/-- The loop body for channel `i`, when the primary voice is in the silent
case: no call on the fade-out voice. -/
theorem doChannelMixingSlot_silent [FloatOps F] {β : Type} (E : MixerEnv F)
    (K : MixKernels F β) (n : Int) (i : Nat) (s : ChannelMixState F β)
    (hM : 0 < E.MAX_VOICES)
    (hp : (s.voice i).active = true ∧ ¬ (s.voice i).volRampSamples > 0 ∧
        (FloatOps.feq (s.voice i).fVolL 0 && FloatOps.feq (s.voice i).fVolR 0) = true) :
    callsOn (E.MAX_VOICES + i) (doChannelMixingSlot E K n i s).calls
      = callsOn (E.MAX_VOICES + i) s.calls := by
  have hne : E.MAX_VOICES + i ≠ i := by omega
  have hgo : (mixPrimaryVoice K n i s).2 = false := (mixPrimaryVoice_continues K n i s).2 hp
  unfold doChannelMixingSlot
  rw [if_neg (by simp [hgo]), mixPrimaryVoice_callsOn_other K n i s _ hne]

/-- The rest of the loop, from a channel above `i` on, makes no call on the
fade-out voice of channel `i`. -/
theorem doChannelMixingFrom_after [FloatOps F] {β : Type} (E : MixerEnv F)
    (K : MixKernels F β) (n : Int) (i : Nat) (k : Nat) :
    ∀ (a : Nat) (s : ChannelMixState F β), i < a → a + k ≤ E.MAX_VOICES →
      callsOn (E.MAX_VOICES + i) (doChannelMixingFrom E K n k a s).calls
        = callsOn (E.MAX_VOICES + i) s.calls := by
  induction k with
  | zero => intro a s _ _; rfl
  | succ k ih =>
    intro a s ha hk
    simp only [doChannelMixingFrom]
    rw [ih (a + 1) _ (by omega) (by omega),
      doChannelMixingSlot_callsOn_other E K n a s _ (by omega) (by omega)]

/-- The loop from channel `a ≤ i` on: what it adds to the calls on the
fade-out voice of channel `i` is decided by the loop body for channel `i`,
run on the voices `i` and `MAX_VOICES + i` as they were at the start. -/
theorem doChannelMixingFrom_callsOn [FloatOps F] {β : Type} (E : MixerEnv F)
    (K : MixKernels F β) (n : Int) (i : Nat) (k : Nat) :
    ∀ (a : Nat) (s : ChannelMixState F β), a ≤ i → i < a + k → a + k ≤ E.MAX_VOICES →
      ∃ s1 : ChannelMixState F β,
        s1.voice i = s.voice i ∧
        s1.voice (E.MAX_VOICES + i) = s.voice (E.MAX_VOICES + i) ∧
        callsOn (E.MAX_VOICES + i) s1.calls = callsOn (E.MAX_VOICES + i) s.calls ∧
        callsOn (E.MAX_VOICES + i) (doChannelMixingFrom E K n k a s).calls
          = callsOn (E.MAX_VOICES + i) (doChannelMixingSlot E K n i s1).calls := by
  induction k with
  | zero => intro a s h1 h2 _; omega
  | succ k ih =>
    intro a s h1 h2 h3
    simp only [doChannelMixingFrom]
    rcases Nat.eq_or_lt_of_le h1 with e | hlt
    · subst e
      refine ⟨s, rfl, rfl, rfl, ?_⟩
      exact doChannelMixingFrom_after E K n a k (a + 1) _ (by omega) (by omega)
    · obtain ⟨s1, e1, e2, e3, e4⟩ := ih (a + 1) (doChannelMixingSlot E K n a s)
        (by omega) (by omega) (by omega)
      refine ⟨s1, ?_, ?_, ?_, e4⟩
      · rw [e1]
        exact doChannelMixingSlot_voice_other E K n a s i (by omega) (by omega)
      · rw [e2]
        exact doChannelMixingSlot_voice_other E K n a s _ (by omega) (by omega)
      · rw [e3]
        exact doChannelMixingSlot_callsOn_other E K n a s _ (by omega) (by omega)

/-- C19 at a voice table whose voice 0 is active, silent and not ramping while
its fade-out voice (index 32) is active: `doChannelMixing` calls the silence
routine on voice 0, leaves the loop body with `continue`, and makes no call at
all on voice 32. -/
theorem fade_out_skipped :
    (silentWithFadeOut (demoEnv.MAX_VOICES + 0)).active = true ∧
    (0 : Nat) < demoEnv.antChn ∧
    (doChannelMixing demoEnv idleKernels 64
        { voice := silentWithFadeOut, buffers := (), calls := [] }).calls
      = [{ routine := none, voiceIdx := 0, samples := 64 }] ∧
    callsOn (demoEnv.MAX_VOICES + 0)
      (doChannelMixing demoEnv idleKernels 64
        { voice := silentWithFadeOut, buffers := (), calls := [] }).calls = [] := by
  refine ⟨?_, by decide, ?_, ?_⟩
  · simp [silentWithFadeOut, demoEnv, playingVoice, stoppedVoice]
  · simp [doChannelMixing, doChannelMixingFrom, doChannelMixingSlot, mixPrimaryVoice,
      mixFadeOutVoice, callSilenceMix, callMixFunc, idleKernels, silentWithFadeOut, demoEnv,
      playingVoice, stoppedVoice, FloatOps.feq]
  · simp [callsOn, doChannelMixing, doChannelMixingFrom, doChannelMixingSlot, mixPrimaryVoice,
      mixFadeOutVoice, callSilenceMix, callMixFunc, idleKernels, silentWithFadeOut, demoEnv,
      playingVoice, stoppedVoice, FloatOps.feq]

/-- The paths of the loop body that go on to the fade-out voice: for every
channel `i < song.antChn` (with `song.antChn` at most `MAX_VOICES`) whose
fade-out voice is active at the start of the block, and whose primary voice is
not at once active, without a pending ramp and with both current gains zero,
`doChannelMixing` makes exactly one kernel call on the fade-out voice:
`mixFuncTab[36 * center + 18 + mixFuncOffset]` with the block length, where
`center` says that the two destination gains and the two gain deltas of the
fade-out voice are equal. -/
theorem doChannelMixing_fadeOut [FloatOps F] {β : Type} (E : MixerEnv F) (K : MixKernels F β)
    (samplesToMix : Int) (s : ChannelMixState F β) (i : Nat)
    (hA : E.antChn ≤ E.MAX_VOICES) (hi : i < E.antChn)
    (hr : (s.voice (E.MAX_VOICES + i)).active = true)
    (hp : ¬ ((s.voice i).active = true ∧ ¬ (s.voice i).volRampSamples > 0 ∧
        (FloatOps.feq (s.voice i).fVolL 0 && FloatOps.feq (s.voice i).fVolR 0) = true)) :
    callsOn (E.MAX_VOICES + i) (doChannelMixing E K samplesToMix s).calls
      = callsOn (E.MAX_VOICES + i) s.calls
          ++ [fadeOutCall (s.voice (E.MAX_VOICES + i)) (E.MAX_VOICES + i) samplesToMix] := by
  obtain ⟨s1, e1, e2, e3, e4⟩ :=
    doChannelMixingFrom_callsOn E K samplesToMix i E.antChn 0 s (by omega) (by omega) (by omega)
  unfold doChannelMixing
  rw [e4, doChannelMixingSlot_fadeOut E K samplesToMix i s1 (by omega) (by rw [e2]; exact hr)
    (by rw [e1]; exact hp), e2, e3]

/-- A voice table whose voice 0 plays at gain 1 while its fade-out voice
(index 32) is active: one call of kernel 18 on voice 32. -/
theorem doChannelMixing_fadeOut_audible :
    callsOn (demoEnv.MAX_VOICES + 0)
        (doChannelMixing demoEnv idleKernels 64
          { voice := audibleWithFadeOut, buffers := (), calls := [] }).calls
      = [{ routine := some 18, voiceIdx := 32, samples := 64 }] := by
  have h := doChannelMixing_fadeOut demoEnv idleKernels 64
    { voice := audibleWithFadeOut, buffers := (), calls := [] } 0 (by decide) (by decide)
    (by simp [audibleWithFadeOut, silentWithFadeOut, demoEnv, playingVoice, stoppedVoice])
    (by simp [audibleWithFadeOut, playingVoice, stoppedVoice, FloatOps.feq])
  rw [h]
  simp [callsOn, fadeOutCall, audibleWithFadeOut, silentWithFadeOut, demoEnv, playingVoice,
    stoppedVoice, FloatOps.feq]

/-! ## Elements written per frame -/

theorem sendSamples16BitDitherMultiChanFrom_length [FloatConv F] (B : OutEnv F) (c : Nat)
    (hc : 2 ≤ c) (n : Nat) (i : Nat) (d : DitherState F) :
    (sendSamples16BitDitherMultiChanFrom B c n i d).1.length = c * n := by
  rw [sendSamples16BitDitherMultiChanFrom_eq]
  exact padFrames_length c 0 hc n _ (sendSamples16BitDitherStereoFrom_length B n i d)

theorem sendSamples32BitMultiChanFrom_length [FloatConv F] (B : OutEnv F) (c : Nat)
    (hc : 2 ≤ c) (n : Nat) (i : Nat) :
    (sendSamples32BitMultiChanFrom B c n i).length = c * n := by
  rw [sendSamples32BitMultiChanFrom_eq]
  exact padFrames_length c 0 hc n _ (sendSamples32BitStereoFrom_length B n i)

/-- The stereo routines write two elements per frame whatever the channel
count they are given: `2 * n` bytes more per frame count `n` for each byte of
the element size. -/
theorem callSendRoutine_stereo_bytes [FloatConv F] (B : OutEnv F) (n c : Nat)
    (w : StreamState F) :
    bytesWritten (callSendRoutine B SendRoutine.sendSamples16BitDitherStereo n c w)
      = bytesWritten w + 2 * (2 * n) ∧
    bytesWritten (callSendRoutine B SendRoutine.sendSamples32BitStereo n c w)
      = bytesWritten w + 4 * (2 * n) := by
  simp only [callSendRoutine, bytesWritten, List.length_append, sendSamples16BitDitherStereo,
    sendSamples32BitStereo, sendSamples16BitDitherStereoFrom_length,
    sendSamples32BitStereoFrom_length]
  constructor <;> ring

/-- The multi-channel routines write `c` elements per frame for `c ≥ 2`. -/
theorem callSendRoutine_multi_bytes [FloatConv F] (B : OutEnv F) (n c : Nat) (hc : 2 ≤ c)
    (w : StreamState F) :
    bytesWritten (callSendRoutine B SendRoutine.sendSamples16BitDitherMultiChan n c w)
      = bytesWritten w + 2 * (c * n) ∧
    bytesWritten (callSendRoutine B SendRoutine.sendSamples32BitMultiChan n c w)
      = bytesWritten w + 4 * (c * n) := by
  simp only [callSendRoutine, bytesWritten, List.length_append, sendSamples16BitDitherMultiChan,
    sendSamples32BitMultiChan, sendSamples16BitDitherMultiChanFrom_length B c hc,
    sendSamples32BitMultiChanFrom_length B c hc]
  constructor <;> ring
/-! ## Opening the device: result and failure paths -/

theorem freeAudioBuffers_spec (s : AudioSetup) :
    (freeAudioBuffers s).dev = s.dev ∧
    (freeAudioBuffers s).hostCalls = s.hostCalls ∧
    (freeAudioBuffers s).currOutputDevice = s.currOutputDevice ∧
    (freeAudioBuffers s).lastWorkingAudioFreq = s.lastWorkingAudioFreq ∧
    (freeAudioBuffers s).lastWorkingAudioBits = s.lastWorkingAudioBits ∧
    (freeAudioBuffers s).lastWorkingAudioDeviceName = s.lastWorkingAudioDeviceName ∧
    (freeAudioBuffers s).fMixBufferLUnaligned = false ∧
    (freeAudioBuffers s).fMixBufferRUnaligned = false ∧
    (freeAudioBuffers s).fMixBufferL = false ∧
    (freeAudioBuffers s).fMixBufferR = false := by
  unfold freeAudioBuffers
  dsimp only
  split_ifs with h1 h2 h2 <;> simp_all

/-- After `closeAudio` there is no device and no mix buffer, the settings
snapshot is as before, and a device that was open has been closed. -/
theorem closeAudio_spec (s : AudioSetup) :
    (closeAudio s).dev = 0 ∧
    (closeAudio s).currOutputDevice = s.currOutputDevice ∧
    (closeAudio s).lastWorkingAudioFreq = s.lastWorkingAudioFreq ∧
    (closeAudio s).lastWorkingAudioBits = s.lastWorkingAudioBits ∧
    (closeAudio s).lastWorkingAudioDeviceName = s.lastWorkingAudioDeviceName ∧
    (closeAudio s).fMixBufferLUnaligned = false ∧
    (closeAudio s).fMixBufferRUnaligned = false ∧
    (closeAudio s).fMixBufferL = false ∧
    (closeAudio s).fMixBufferR = false ∧
    (s.dev ≠ 0 → HostCall.SDL_CloseAudioDevice s.dev ∈ (closeAudio s).hostCalls) := by
  unfold closeAudio
  dsimp only
  split_ifs with h
  · obtain ⟨a, b, c, d, e, f, g, h1, i, j⟩ := freeAudioBuffers_spec
      { s with
        hostCalls := s.hostCalls
          ++ [HostCall.SDL_PauseAudioDevice s.dev, HostCall.SDL_CloseAudioDevice s.dev],
        dev := 0 }
    refine ⟨a, c, d, e, f, g, h1, i, j, ?_⟩
    intro _
    rw [b]
    simp
  · obtain ⟨a, b, c, d, e, f, g, h1, i, j⟩ := freeAudioBuffers_spec s
    have h0 : s.dev = 0 := by omega
    exact ⟨by rw [a, h0], c, d, e, f, g, h1, i, j, fun hn => absurd h0 hn⟩

theorem reportSetupError_spec (b : Bool) (m : SetupError) (s : AudioSetup) :
    (reportSetupError b m s).dev = s.dev ∧
    (reportSetupError b m s).lastWorkingAudioFreq = s.lastWorkingAudioFreq ∧
    (reportSetupError b m s).lastWorkingAudioBits = s.lastWorkingAudioBits ∧
    (reportSetupError b m s).lastWorkingAudioDeviceName = s.lastWorkingAudioDeviceName ∧
    (reportSetupError b m s).fMixBufferLUnaligned = s.fMixBufferLUnaligned ∧
    (reportSetupError b m s).fMixBufferRUnaligned = s.fMixBufferRUnaligned ∧
    (reportSetupError b m s).fMixBufferL = s.fMixBufferL ∧
    (reportSetupError b m s).fMixBufferR = s.fMixBufferR := by
  unfold reportSetupError
  split_ifs <;> simp

theorem setupWant_spec (K : AudioConsts) (s : AudioSetup) :
    (setupWant K s).1.dev = s.dev ∧
    (setupWant K s).1.lastWorkingAudioFreq = s.lastWorkingAudioFreq ∧
    (setupWant K s).1.lastWorkingAudioBits = s.lastWorkingAudioBits ∧
    (setupWant K s).1.lastWorkingAudioDeviceName = s.lastWorkingAudioDeviceName ∧
    (setupWant K s).1.fMixBufferLUnaligned = s.fMixBufferLUnaligned ∧
    (setupWant K s).1.fMixBufferRUnaligned = s.fMixBufferRUnaligned ∧
    (setupWant K s).1.fMixBufferL = s.fMixBufferL ∧
    (setupWant K s).1.fMixBufferR = s.fMixBufferR := by
  unfold setupWant
  dsimp only
  split_ifs <;> simp

theorem setupAudioBuffers_spec (H : HostOracle) (s : AudioSetup) :
    ((setupAudioBuffers H s).1 = true ↔
      (H.mallocMixBufferL = true ∧ H.mallocMixBufferR = true)) ∧
    (setupAudioBuffers H s).2.dev = s.dev ∧
    (setupAudioBuffers H s).2.lastWorkingAudioFreq = s.lastWorkingAudioFreq ∧
    (setupAudioBuffers H s).2.lastWorkingAudioBits = s.lastWorkingAudioBits ∧
    (setupAudioBuffers H s).2.lastWorkingAudioDeviceName = s.lastWorkingAudioDeviceName := by
  unfold setupAudioBuffers
  dsimp only
  split_ifs with h
  · refine ⟨?_, rfl, rfl, rfl, rfl⟩
    rcases h with h | h <;> simp [h]
  · refine ⟨?_, rfl, rfl, rfl, rfl⟩
    simp only [not_or, Bool.not_eq_false] at h
    simp [h.1, h.2]

/-- C20: with `SDL_OpenAudioDevice` and the allocations as oracles,
`setupAudio` returns true if and only if the device opened (a non-zero id), the
obtained format is `AUDIO_S16` or `AUDIO_F32`, the obtained rate is 44100,
48000, 96000 or 192000 and both mix buffers were allocated; whenever it returns
false, `audio.dev` is 0, the three last-working settings are as before the
call, no mix buffer is left allocated and, if the device had opened, it was
passed to `SDL_CloseAudioDevice`. -/
theorem setup_audio_result (K : AudioConsts) (H : HostOracle) (showErrorMsg : Bool)
    (s : AudioSetup) :
    ((setupAudio K H showErrorMsg s).1 = true ↔
      ((openedDevice K H s).1 ≠ 0 ∧
       ((openedDevice K H s).2.format = K.AUDIO_S16 ∨
          (openedDevice K H s).2.format = K.AUDIO_F32) ∧
       ((openedDevice K H s).2.freq = 44100 ∨ (openedDevice K H s).2.freq = 48000 ∨
          (openedDevice K H s).2.freq = 96000 ∨ (openedDevice K H s).2.freq = 192000) ∧
       H.mallocMixBufferL = true ∧ H.mallocMixBufferR = true)) ∧
    ((setupAudio K H showErrorMsg s).1 = false →
      ((setupAudio K H showErrorMsg s).2.dev = 0 ∧
       (setupAudio K H showErrorMsg s).2.lastWorkingAudioFreq = s.lastWorkingAudioFreq ∧
       (setupAudio K H showErrorMsg s).2.lastWorkingAudioBits = s.lastWorkingAudioBits ∧
       (setupAudio K H showErrorMsg s).2.lastWorkingAudioDeviceName
         = s.lastWorkingAudioDeviceName ∧
       (setupAudio K H showErrorMsg s).2.fMixBufferLUnaligned = false ∧
       (setupAudio K H showErrorMsg s).2.fMixBufferRUnaligned = false ∧
       ((openedDevice K H s).1 ≠ 0 →
         HostCall.SDL_CloseAudioDevice (openedDevice K H s).1
           ∈ (setupAudio K H showErrorMsg s).2.hostCalls))) := by
  obtain ⟨c1, _, c3, c4, c5, c6, c7, _, _, _⟩ := closeAudio_spec s
  obtain ⟨w1, w2, w3, w4, w5, w6, _, _⟩ := setupWant_spec K (closeAudio s)
  unfold setupAudio openedDevice
  dsimp only
  generalize hres : H.SDL_OpenAudioDevice (setupWant K (closeAudio s)).1.currOutputDevice
    (setupWant K (closeAudio s)).2 = res
  split_ifs with h1 h2 h3 h4
  · -- the device did not open
    obtain ⟨r1, r2, r3, r4, r5, r6, _, _⟩ := reportSetupError_spec showErrorMsg
      SetupError.couldNotOpen { (setupWant K (closeAudio s)).1 with dev := res.1 }
    refine ⟨?_, fun _ => ⟨?_, ?_, ?_, ?_, ?_, ?_, ?_⟩⟩
    · simp [h1]
    · rw [r1]; exact h1
    · rw [r2]; show (setupWant K (closeAudio s)).1.lastWorkingAudioFreq = _; rw [w2, c3]
    · rw [r3]; show (setupWant K (closeAudio s)).1.lastWorkingAudioBits = _; rw [w3, c4]
    · rw [r4]; show (setupWant K (closeAudio s)).1.lastWorkingAudioDeviceName = _; rw [w4, c5]
    · rw [r5]; show (setupWant K (closeAudio s)).1.fMixBufferLUnaligned = _; rw [w5, c6]
    · rw [r6]; show (setupWant K (closeAudio s)).1.fMixBufferRUnaligned = _; rw [w6, c7]
    · intro hn; exact absurd h1 hn
  · -- the format is not supported
    obtain ⟨r1, r2, r3, r4, _, _, _, _⟩ := reportSetupError_spec showErrorMsg
      (SetupError.badFormat res.2.format) { (setupWant K (closeAudio s)).1 with dev := res.1 }
    obtain ⟨d1, _, d3, d4, d5, d6, d7, _, _, d10⟩ := closeAudio_spec
      (reportSetupError showErrorMsg (SetupError.badFormat res.2.format)
        { (setupWant K (closeAudio s)).1 with dev := res.1 })
    refine ⟨?_, fun _ => ⟨d1, ?_, ?_, ?_, d6, d7, ?_⟩⟩
    · simp [h2.1, h2.2]
    · rw [d3, r2]; show (setupWant K (closeAudio s)).1.lastWorkingAudioFreq = _; rw [w2, c3]
    · rw [d4, r3]; show (setupWant K (closeAudio s)).1.lastWorkingAudioBits = _; rw [w3, c4]
    · rw [d5, r4]; show (setupWant K (closeAudio s)).1.lastWorkingAudioDeviceName = _
      rw [w4, c5]
    · intro hn
      rw [r1] at d10
      exact d10 hn
  · -- the rate is not supported
    obtain ⟨r1, r2, r3, r4, _, _, _, _⟩ := reportSetupError_spec showErrorMsg
      (SetupError.badRate res.2.freq) { (setupWant K (closeAudio s)).1 with dev := res.1 }
    obtain ⟨d1, _, d3, d4, d5, d6, d7, _, _, d10⟩ := closeAudio_spec
      (reportSetupError showErrorMsg (SetupError.badRate res.2.freq)
        { (setupWant K (closeAudio s)).1 with dev := res.1 })
    refine ⟨?_, fun _ => ⟨d1, ?_, ?_, ?_, d6, d7, ?_⟩⟩
    · simp [h3.1, h3.2.1, h3.2.2.1, h3.2.2.2]
    · rw [d3, r2]; show (setupWant K (closeAudio s)).1.lastWorkingAudioFreq = _; rw [w2, c3]
    · rw [d4, r3]; show (setupWant K (closeAudio s)).1.lastWorkingAudioBits = _; rw [w3, c4]
    · rw [d5, r4]; show (setupWant K (closeAudio s)).1.lastWorkingAudioDeviceName = _
      rw [w4, c5]
    · intro hn
      rw [r1] at d10
      exact d10 hn
  · -- the mix buffers could not be allocated
    obtain ⟨b0, b1, b2, b3, b4⟩ := setupAudioBuffers_spec H
      { (setupWant K (closeAudio s)).1 with dev := res.1 }
    obtain ⟨r1, r2, r3, r4, _, _, _, _⟩ := reportSetupError_spec showErrorMsg
      SetupError.notEnoughMemory
      (setupAudioBuffers H { (setupWant K (closeAudio s)).1 with dev := res.1 }).2
    obtain ⟨d1, _, d3, d4, d5, d6, d7, _, _, d10⟩ := closeAudio_spec
      (reportSetupError showErrorMsg SetupError.notEnoughMemory
        (setupAudioBuffers H { (setupWant K (closeAudio s)).1 with dev := res.1 }).2)
    refine ⟨?_, fun _ => ⟨d1, ?_, ?_, ?_, d6, d7, ?_⟩⟩
    · have hb : ¬ (H.mallocMixBufferL = true ∧ H.mallocMixBufferR = true) := by
        rw [← b0, h4]; simp
      simp only [Bool.false_eq_true, false_iff, not_and]
      intro _ _ _ hL hR
      exact hb ⟨hL, hR⟩
    · rw [d3, r2, b2]; show (setupWant K (closeAudio s)).1.lastWorkingAudioFreq = _; rw [w2, c3]
    · rw [d4, r3, b3]; show (setupWant K (closeAudio s)).1.lastWorkingAudioBits = _; rw [w3, c4]
    · rw [d5, r4, b4]; show (setupWant K (closeAudio s)).1.lastWorkingAudioDeviceName = _
      rw [w4, c5]
    · intro hn
      rw [r1, b1] at d10
      exact d10 hn
  · -- success
    obtain ⟨b0, _, _, _, _⟩ := setupAudioBuffers_spec H
      { (setupWant K (closeAudio s)).1 with dev := res.1 }
    have hb : H.mallocMixBufferL = true ∧ H.mallocMixBufferR = true := by
      rw [← b0]; simpa using h4
    refine ⟨?_, fun h => by simp at h⟩
    simp only [true_iff]
    refine ⟨h1, ?_, ?_, hb.1, hb.2⟩
    · by_contra hc
      simp only [not_or] at hc
      exact h2 ⟨hc.1, hc.2⟩
    · by_contra hc
      simp only [not_or] at hc
      exact h3 ⟨hc.1, hc.2.1, hc.2.2.1, hc.2.2.2⟩
/-! ## Channel count against frame size -/

/-- For a channel count of at least 2 kept in `pmpChannels`, the routine that
`updateSendAudSamplesRoutine` picks writes that many elements per frame. -/
theorem chosen_routine_bytes [FloatConv F] (B : OutEnv F) (BITDEPTH_16 specialFlags : Nat)
    (c n : Nat) (hc : 2 ≤ c) (w : StreamState F) :
    bytesWritten
        (callSendRoutine B (updateSendAudSamplesRoutine BITDEPTH_16 specialFlags (c : Int)) n c w)
      = bytesWritten w
          + (if specialFlags &&& BITDEPTH_16 ≠ 0 then 2 else 4) * (c * n) := by
  unfold updateSendAudSamplesRoutine
  by_cases h16 : specialFlags &&& BITDEPTH_16 ≠ 0
  · rw [if_pos h16, if_pos h16]
    by_cases h2 : (c : Int) > 2
    · rw [if_pos h2]
      exact (callSendRoutine_multi_bytes B n c hc w).1
    · rw [if_neg h2]
      have e : c = 2 := by omega
      subst e
      exact (callSendRoutine_stereo_bytes B n 2 w).1
  · rw [if_neg h16, if_neg h16]
    by_cases h2 : (c : Int) > 2
    · rw [if_pos h2]
      exact (callSendRoutine_multi_bytes B n c hc w).2
    · rw [if_neg h2]
      have e : c = 2 := by omega
      subst e
      exact (callSendRoutine_stereo_bytes B n 2 w).2

/-- C16 at a one-channel device: `setupAudio` succeeds with `pmpChannels = 1`
and `pmpCountDiv = 2`, `updateSendAudSamplesRoutine` picks the 16-bit stereo
routine, which writes two elements per frame, and a callback asked for 4 bytes
mixes 2 frames and writes 8 bytes. -/
theorem mono_device_overrun :
    (setupAudio demoConsts (hostWithChannels 1) false freshSetup).1 = true ∧
    (setupAudio demoConsts (hostWithChannels 1) false freshSetup).2.pmpChannels = 1 ∧
    (setupAudio demoConsts (hostWithChannels 1) false freshSetup).2.pmpCountDiv = 2 ∧
    (setupAudio demoConsts (hostWithChannels 1) false freshSetup).2.sendAudSamplesFunc
      = some SendRoutine.sendSamples16BitDitherStereo ∧
    (∀ (B : OutEnv ℚ) (n : Nat) (w : StreamState ℚ),
      bytesWritten (callSendRoutine B SendRoutine.sendSamples16BitDitherStereo n 1 w)
        = bytesWritten w + 4 * n) ∧
    (audioCallback steadyTick
        (fun w n => mixAudio (fun _ => zeroMix 1) SendRoutine.sendSamples16BitDitherStereo
          n.toNat 1 w)
        false 2 2 4
        { world := freshStream, dTickSampleCounter := 0, dSamplesPerTick := 0 }).map
      (fun r => bytesWritten r.2.world) = some 8 := by
  refine ⟨?_, ?_, ?_, ?_, ?_, ?_⟩
  · decide
  · decide
  · decide
  · decide
  · intro B n w
    rw [(callSendRoutine_stereo_bytes B n 1 w).1]
    ring
  · have hc : ⌈(960 : ℚ)⌉ = 960 := by
      rw [Int.ceil_eq_iff]; norm_num
    have ht : Int.tdiv 4 2 = 2 := by decide
    simp only [audioCallback, audioCallbackLoop, steadyTick, ht]
    norm_num [hc, mixAudio, freshStream]
    have hb := (callSendRoutine_stereo_bytes (zeroMix 1) (Int.toNat 2) 1
      { dither := { randSeed := INITIAL_DITHER_SEED, fPrngStateL := 0, fPrngStateR := 0 },
        out16 := [], out32 := [] }).1
    have h2 : Int.toNat 2 = 2 := by decide
    rw [hb, h2]
    simp [bytesWritten]

/-! ## Triggering: the cached edge sample and the kernel selector -/

/-- What `voiceTrigger` stores when the sample pointer is not null and the
length is at least 1, whether or not the voice stays active. -/
theorem voiceTrigger_stores [FloatOps F] (audio : audio_t F) (v : voice_t F) (s : sampleTyp)
    (position : Int) (pek : SampleData) (hp : s.pek = some pek) (hl : 1 ≤ specLength s)
    (h1 : -2 ^ 31 ≤ s.repS + s.repL) (h2 : s.repS + s.repL < 2 ^ 31) :
    (voiceTrigger audio v s position).hasLooped = false ∧
    (voiceTrigger audio v s position).backwards = false ∧
    (voiceTrigger audio v s position).posFrac = 0 ∧
    (voiceTrigger audio v s position).loopType = specLoopType s ∧
    (voiceTrigger audio v s position).fTapFixSample =
      (if specLoopType s = 1 then ((specSampleAt s pek (specLoopEnd s - 1) : Int) : F)
       else if specLoopType s = 2 then ((specSampleAt s pek (specLoopStart s) : Int) : F)
       else v.fTapFixSample) ∧
    ((voiceTrigger audio v s position).active = true →
      (voiceTrigger audio v s position).mixFuncOffset =
        (specMixFuncOffset (specIs16Bit s) audio.interpolationType (specLoopType s)) % 256) := by
  revert hl
  unfold voiceTrigger specLoopType specSampleAt specMixFuncOffset specLength specLoopLength
    specLoopEnd specLoopStart specIs16Bit
  rw [wrapInt32_of_fits _ h1 h2, hp]
  simp only [shiftRight_one]
  intro hl
  rw [if_neg (by omega)]
  generalize s.typ &&& 3 = lt
  by_cases h16 : decide (s.typ >>> 4 &&& 1 ≠ 0) = true
  · simp only [h16, if_true]
    generalize (if s.repL / 2 < 1 then 0 else lt) = lt1
    simp only [apply_ite voice_t.hasLooped, apply_ite voice_t.backwards,
      apply_ite voice_t.posFrac, apply_ite voice_t.loopType,
      apply_ite voice_t.fTapFixSample, apply_ite voice_t.active,
      apply_ite voice_t.mixFuncOffset, ite_self, true_and]
    generalize (if lt1 > 0 then (s.repS + s.repL) / 2 else s.len / 2) = pe
    by_cases hpos : position ≥ pe
    · rw [if_pos hpos]
      intro h
      cases h
    · rw [if_neg hpos, if_neg hpos]
      intro _
      congr 1
      ring
  · simp only [h16, Bool.false_eq_true, if_false]
    generalize (if s.repL < 1 then 0 else lt) = lt1
    simp only [apply_ite voice_t.hasLooped, apply_ite voice_t.backwards,
      apply_ite voice_t.posFrac, apply_ite voice_t.loopType,
      apply_ite voice_t.fTapFixSample, apply_ite voice_t.active,
      apply_ite voice_t.mixFuncOffset, ite_self, true_and]
    generalize (if lt1 > 0 then s.repS + s.repL else s.len) = pe
    by_cases hpos : position ≥ pe
    · rw [if_pos hpos]
      intro h
      cases h
    · rw [if_neg hpos, if_neg hpos]
      intro _
      congr 1
      ring

/-- C21: for every trigger that passes the null-pointer and length checks
(with a loop end `repS + repL` that fits 32 bits), the cached edge sample is
the sample value at index loop end - 1 when the effective loop type is forward
(1) and the sample value at index loop start when it is ping-pong (2), indices
in sample units and the value read from the 16-bit or 8-bit data according to
the bit-depth flag; when the effective loop type is none (0) the cached edge
sample is as before; and the has-looped flag, the backwards flag and the
fractional position are cleared. -/
theorem trigger_edge_sample [FloatOps F] (audio : audio_t F) (v : voice_t F) (s : sampleTyp)
    (position : Int) (pek : SampleData) (hp : s.pek = some pek) (hl : 1 ≤ specLength s)
    (h1 : -2 ^ 31 ≤ s.repS + s.repL) (h2 : s.repS + s.repL < 2 ^ 31) :
    (specLoopType s = 1 →
      (voiceTrigger audio v s position).fTapFixSample
        = ((specSampleAt s pek (specLoopEnd s - 1) : Int) : F)) ∧
    (specLoopType s = 2 →
      (voiceTrigger audio v s position).fTapFixSample
        = ((specSampleAt s pek (specLoopStart s) : Int) : F)) ∧
    (specLoopType s = 0 →
      (voiceTrigger audio v s position).fTapFixSample = v.fTapFixSample) ∧
    (voiceTrigger audio v s position).hasLooped = false ∧
    (voiceTrigger audio v s position).backwards = false ∧
    (voiceTrigger audio v s position).posFrac = 0 := by
  obtain ⟨a, b, c, _, e, _⟩ := voiceTrigger_stores audio v s position pek hp hl h1 h2
  refine ⟨fun h => ?_, fun h => ?_, fun h => ?_, a, b, c⟩
  · rw [e, if_pos h]
  · rw [e, if_neg (by omega), if_pos h]
  · rw [e, if_neg (by omega), if_neg (by omega)]

/-- C21 on a voice whose cached edge sample is 7: a trigger with a 16-bit
forward loop over units 100 to 500 caches the 16-bit value at index 499, and
clears the has-looped flag. -/
theorem trigger_edge_sample_witness :
    (forwardSample.pek = some rampData ∧ 1 ≤ specLength forwardSample) ∧
    (voiceTrigger demoAudio tappedVoice forwardSample 0).fTapFixSample = 1499 ∧
    (voiceTrigger demoAudio tappedVoice forwardSample 0).hasLooped = false := by
  have hA := trigger_edge_sample demoAudio tappedVoice forwardSample 0 rampData rfl
    (by decide) (by decide) (by decide)
  refine ⟨⟨rfl, by decide⟩, ?_, hA.2.2.2.1⟩
  rw [hA.1 (by decide)]
  have e : specSampleAt forwardSample rampData (specLoopEnd forwardSample - 1) = 1499 := by
    decide
  rw [e]
  norm_num

/-- What a trigger that leaves the voice active stores as loop mode and as
kernel selector. -/
theorem voiceTrigger_selector [FloatOps F] (audio : audio_t F) (v : voice_t F) (s : sampleTyp)
    (position : Int) (hact : (voiceTrigger audio v s position).active = true) :
    (voiceTrigger audio v s position).loopType = specLoopType s ∧
    (voiceTrigger audio v s position).mixFuncOffset =
      (specMixFuncOffset (specIs16Bit s) audio.interpolationType (specLoopType s)) % 256 := by
  revert hact
  unfold voiceTrigger specLoopType specMixFuncOffset specLoopLength specIs16Bit
  simp only [shiftRight_one]
  cases hp : s.pek with
  | none => intro h; cases h
  | some pek =>
    simp only [apply_ite voice_t.active, apply_ite voice_t.loopType,
      apply_ite voice_t.mixFuncOffset]
    generalize (if decide (s.typ >>> 4 &&& 1 ≠ 0) = true then s.len / 2 else s.len) = len1
    generalize (if decide (s.typ >>> 4 &&& 1 ≠ 0) = true then s.repL / 2 else s.repL) = ll
    generalize (if decide (s.typ >>> 4 &&& 1 ≠ 0) = true then wrapInt32 (s.repS + s.repL) / 2
      else wrapInt32 (s.repS + s.repL)) = le
    generalize (if decide (s.typ >>> 4 &&& 1 ≠ 0) = true then 1 else 0) = b
    generalize (if ll < 1 then 0 else s.typ &&& 3) = lt1
    by_cases hlen : len1 < 1
    · simp only [if_pos hlen]
      intro h; cases h
    · simp only [if_neg hlen]
      generalize (if lt1 > 0 then le else len1) = pe
      by_cases hpos : position ≥ pe
      · simp only [if_pos hpos]
        intro h; cases h
      · simp only [if_neg hpos, ite_self, true_and]
        intro _
        congr 1
        ring

theorem specLoopType_le (s : sampleTyp) : specLoopType s ≤ 3 := by
  unfold specLoopType
  split_ifs
  · omega
  · exact Nat.and_le_right

/-- The selector formula separates the triples of a bit depth, an
interpolation type below 3 and a loop mode below 3, and stays below 18. -/
theorem specMixFuncOffset_inj (b b1 : Bool) (i i1 l l1 : Nat) (hi : i ≤ 2) (hi1 : i1 ≤ 2)
    (hl : l ≤ 2) (hl1 : l1 ≤ 2) :
    specMixFuncOffset b i l < 18 ∧
    (specMixFuncOffset b i l = specMixFuncOffset b1 i1 l1 → b = b1 ∧ i = i1 ∧ l = l1) := by
  unfold specMixFuncOffset
  cases b <;> cases b1 <;> simp <;> omega

/-- C22 as stated fails: with both loop bits set (type byte 0x13, a 16-bit
sample with a loop of 400 units) and interpolation type 2, the trigger leaves
the voice active with loop mode 3 and kernel selector 18, and the table index
for a centred ramping voice is 72. -/
theorem kernel_selector_counterexample :
    demoAudioCubic.interpolationType = 2 ∧
    (voiceTrigger demoAudioCubic stoppedVoice bothLoopBitsSample 0).active = true ∧
    (voiceTrigger demoAudioCubic stoppedVoice bothLoopBitsSample 0).loopType = 3 ∧
    (voiceTrigger demoAudioCubic stoppedVoice bothLoopBitsSample 0).mixFuncOffset = 18 ∧
    ¬ (36 * 1 + 18 * 1
        + (voiceTrigger demoAudioCubic stoppedVoice bothLoopBitsSample 0).mixFuncOffset < 72) := by
  have hact : (voiceTrigger demoAudioCubic stoppedVoice bothLoopBitsSample 0).active = true := by
    rw [voiceTrigger_active_spec _ _ _ _ (by decide) (by decide)]
    refine ⟨by simp [bothLoopBitsSample], by decide, by decide⟩
  obtain ⟨h1, h2⟩ := voiceTrigger_selector demoAudioCubic stoppedVoice bothLoopBitsSample 0 hact
  have e1 : specLoopType bothLoopBitsSample = 3 := by decide
  have e2 : specMixFuncOffset (specIs16Bit bothLoopBitsSample) demoAudioCubic.interpolationType
      (specLoopType bothLoopBitsSample) % 256 = 18 := by decide
  rw [e1] at h1
  rw [e2] at h2
  refine ⟨rfl, hact, h1, h2, ?_⟩
  rw [h2]
  decide

/-- C22, amended: for every sample descriptor whose type byte does not have
both loop bits set together with a loop length of at least 1 (in sample
units), and every interpolation type in {0, 1, 2}, a trigger that leaves the
voice active stores a loop mode in {0, 1, 2} and the kernel selector
`9 * is16Bit + 3 * interpolation + loopMode`, which is below 18, so the table
index `36 * center + 18 * ramp + mixFuncOffset` is below 72 for both values of
`center` and of `ramp`; and the selectors of two such triggers are equal only
if bit depth, interpolation type and loop mode are equal. -/
theorem kernel_selector [FloatOps F] (audio : audio_t F) (v : voice_t F) (s : sampleTyp)
    (position : Int) (hint : audio.interpolationType ≤ 2)
    (hbits : ¬ (s.typ &&& 3 = 3 ∧ 1 ≤ specLoopLength s))
    (hact : (voiceTrigger audio v s position).active = true) :
    (voiceTrigger audio v s position).loopType ≤ 2 ∧
    (voiceTrigger audio v s position).loopType = specLoopType s ∧
    (voiceTrigger audio v s position).mixFuncOffset
      = specMixFuncOffset (specIs16Bit s) audio.interpolationType (specLoopType s) ∧
    (voiceTrigger audio v s position).mixFuncOffset < 18 ∧
    (∀ center ramp : Bool,
      36 * center.toNat + 18 * ramp.toNat
        + (voiceTrigger audio v s position).mixFuncOffset < 72) ∧
    (∀ (audio1 : audio_t F) (v1 : voice_t F) (s1 : sampleTyp) (position1 : Int),
      audio1.interpolationType ≤ 2 → ¬ (s1.typ &&& 3 = 3 ∧ 1 ≤ specLoopLength s1) →
      (voiceTrigger audio1 v1 s1 position1).active = true →
      (voiceTrigger audio v s position).mixFuncOffset
        = (voiceTrigger audio1 v1 s1 position1).mixFuncOffset →
      specIs16Bit s = specIs16Bit s1 ∧ audio.interpolationType = audio1.interpolationType ∧
        (voiceTrigger audio v s position).loopType
          = (voiceTrigger audio1 v1 s1 position1).loopType) := by
  have key : ∀ (a : audio_t F) (w : voice_t F) (t : sampleTyp) (p : Int),
      a.interpolationType ≤ 2 → ¬ (t.typ &&& 3 = 3 ∧ 1 ≤ specLoopLength t) →
      (voiceTrigger a w t p).active = true →
      specLoopType t ≤ 2 ∧ (voiceTrigger a w t p).loopType = specLoopType t ∧
      (voiceTrigger a w t p).mixFuncOffset
        = specMixFuncOffset (specIs16Bit t) a.interpolationType (specLoopType t) := by
    intro a w t p ha hb hc
    obtain ⟨h1, h2⟩ := voiceTrigger_selector a w t p hc
    have h3 : specLoopType t ≤ 2 := by
      have h4 := specLoopType_le t
      by_contra hne
      have h5 : specLoopType t = 3 := by omega
      unfold specLoopType at h5
      split_ifs at h5 with h6
      · exact hb ⟨h5, by omega⟩
    have h7 := (specMixFuncOffset_inj (specIs16Bit t) (specIs16Bit t) a.interpolationType
      a.interpolationType (specLoopType t) (specLoopType t) ha ha h3 h3).1
    refine ⟨h3, h1, ?_⟩
    rw [h2, Nat.mod_eq_of_lt (by omega)]
  obtain ⟨k1, k2, k3⟩ := key audio v s position hint hbits hact
  have k4 := (specMixFuncOffset_inj (specIs16Bit s) (specIs16Bit s) audio.interpolationType
    audio.interpolationType (specLoopType s) (specLoopType s) hint hint k1 k1).1
  refine ⟨by rw [k2]; exact k1, k2, k3, by rw [k3]; exact k4, ?_, ?_⟩
  · intro center ramp
    rw [k3]
    cases center <;> cases ramp <;> simp <;> omega
  · intro audio1 v1 s1 position1 hint1 hbits1 hact1 heq
    obtain ⟨m1, m2, m3⟩ := key audio1 v1 s1 position1 hint1 hbits1 hact1
    rw [k3, m3] at heq
    obtain ⟨e1, e2, e3⟩ := (specMixFuncOffset_inj (specIs16Bit s) (specIs16Bit s1)
      audio.interpolationType audio1.interpolationType (specLoopType s) (specLoopType s1)
      hint hint1 k1 m1).2 heq
    exact ⟨e1, e2, by rw [k2, m2, e3]⟩

/-- C22, amended, on a 16-bit ping-pong sample with interpolation type 2: loop
mode 2 and kernel selector 17. -/
theorem kernel_selector_witness :
    (demoAudioCubic.interpolationType ≤ 2 ∧
      ¬ (pingPongSample.typ &&& 3 = 3 ∧ 1 ≤ specLoopLength pingPongSample)) ∧
    (voiceTrigger demoAudioCubic stoppedVoice pingPongSample 0).active = true ∧
    (voiceTrigger demoAudioCubic stoppedVoice pingPongSample 0).loopType = 2 ∧
    (voiceTrigger demoAudioCubic stoppedVoice pingPongSample 0).mixFuncOffset = 17 := by
  have hact : (voiceTrigger demoAudioCubic stoppedVoice pingPongSample 0).active = true := by
    rw [voiceTrigger_active_spec _ _ _ _ (by decide) (by decide)]
    refine ⟨by simp [pingPongSample], by decide, by decide⟩
  have h := kernel_selector demoAudioCubic stoppedVoice pingPongSample 0 (by decide) (by decide)
    hact
  refine ⟨⟨by decide, by decide⟩, hact, ?_, ?_⟩
  · rw [h.2.1]
    decide
  · rw [h.2.2.1]
    decide

/-! ## Delivery order of a queue that never fills -/

/-- What the consumer sees at the head of a queue whose flag is down. -/
theorem queue_head [HasTimestamp α] (L : Nat) (q : SyncQueue α) (hc : q.clearing = false) :
    (q.readPos < q.writePos →
      queuePeek L q = some (some q.readPos, q) ∧
      getQueueTimestamp L q = some (HasTimestamp.timestamp (q.data q.readPos), q)) ∧
    (q.readPos = q.writePos →
      queuePeek L q = some (none, q) ∧ getQueueTimestamp L q = some (0, q)) := by
  have hd := queueDepth_eq L q hc
  constructor
  · intro hlt
    rw [if_pos hlt] at hd
    have hne : queueDepth L q ≠ 0 := by rw [hd]; omega
    unfold queuePeek getQueueTimestamp
    rw [queueReadSize_of_not_clearing L q hc]
    simp only [if_neg hne, and_self]
  · intro heq
    rw [if_neg (by omega), if_neg (by omega)] at hd
    unfold queuePeek getQueueTimestamp
    rw [queueReadSize_of_not_clearing L q hc]
    simp only [hd, if_true, and_self]

/-- A run on a queue that holds the entries `es` in the slots below its write
index and that gets no more pushes than fit: every push is accepted, the read
index counts the successful pops, and the slots hold the entries in push
order. -/
theorem runOps_fifo [HasTimestamp α] {k L : Nat} (hL : L + 1 = 2 ^ k)
    (ops : List (QueueOp α)) :
    ∀ (q : SyncQueue α) (es : List α), q.clearing = false → q.readPos ≤ q.writePos →
      q.writePos = es.length → es.length + (pushedEntries ops).length ≤ L →
      (∀ i, i < es.length → es[i]? = some (q.data i)) →
      ∃ bs q1, runOps L ops q = some (bs, q1) ∧ q1.clearing = false ∧
        q1.readPos = q.readPos + popsTrue ops bs ∧ q1.readPos ≤ q1.writePos ∧
        q1.writePos = es.length + (pushedEntries ops).length ∧
        pushesTrue ops bs = (pushedEntries ops).length ∧
        (∀ i, i < q1.writePos → (es ++ pushedEntries ops)[i]? = some (q1.data i)) := by
  induction ops with
  | nil =>
    intro q es hc hr hw hn hd
    refine ⟨[], q, rfl, hc, by simp [popsTrue], hr, by simp [pushedEntries, hw],
      by simp [pushesTrue, pushedEntries], ?_⟩
    intro i hi
    simp only [pushedEntries, List.append_nil]
    exact hd i (by omega)
  | cons op ops ih =>
    intro q es hc hr hw hn hd
    cases op with
    | push t =>
      simp only [pushedEntries, List.length_cons] at hn
      have hpush := queuePush_ahead L q t hr (by omega)
      have hmask : (q.writePos + 1) &&& L = q.writePos + 1 := by
        rw [mask_succ hL q.writePos (by omega), if_neg (by omega)]
      rw [hmask] at hpush
      obtain ⟨bs, q1, e1, e2, e3, e4, e5, e6, e7⟩ := ih
        { q with data := Function.update q.data q.writePos t, writePos := q.writePos + 1 }
        (es ++ [t]) hc (by simp only; omega) (by simp [hw])
        (by simp only [List.length_append, List.length_singleton]; omega)
        (by
          intro i hi
          simp only [List.length_append, List.length_singleton] at hi
          by_cases hlt : i < es.length
          · rw [List.getElem?_append_left hlt, hd i hlt]
            simp only [Option.some.injEq]
            rw [Function.update_noteq (by omega)]
          · have hi2 : i = es.length := by omega
            subst hi2
            have hu : Function.update q.data q.writePos t es.length = t := by
              rw [← hw, Function.update_same]
            simp [hu])
      refine ⟨true :: bs, q1, ?_, e2, ?_, e4, ?_, ?_, ?_⟩
      · simp only [runOps, hpush, e1]
      · simpa [popsTrue] using e3
      · rw [e5]
        simp only [pushedEntries, List.length_cons, List.length_append, List.length_nil]
        omega
      · have e8 : pushesTrue (QueueOp.push t :: ops) (true :: bs) = 1 + pushesTrue ops bs := by
          simp [pushesTrue]
        rw [e8, e6]
        simp only [pushedEntries, List.length_cons]
        exact Nat.add_comm _ _
      · intro i hi
        have := e7 i hi
        simpa [pushedEntries, List.append_assoc] using this
    | pop =>
      simp only [pushedEntries] at hn
      have hpop := queuePop_of_not_clearing L q hc
      have hdep := queueDepth_eq L q hc
      by_cases hlt : q.readPos < q.writePos
      · rw [if_pos hlt] at hdep
        rw [if_neg (by rw [hdep]; omega)] at hpop
        have hmask : (q.readPos + 1) &&& L = q.readPos + 1 := by
          rw [mask_succ hL q.readPos (by omega), if_neg (by omega)]
        rw [hmask] at hpop
        obtain ⟨bs, q1, e1, e2, e3, e4, e5, e6, e7⟩ := ih
          { q with readPos := q.readPos + 1 } es hc (by simp only; omega) hw hn hd
        refine ⟨true :: bs, q1, ?_, e2, ?_, e4, e5, ?_, e7⟩
        · simp only [runOps, hpop, e1]
        · simp only [popsTrue, if_true] at e3 ⊢
          omega
        · simpa [pushesTrue, pushedEntries] using e6
      · rw [if_neg hlt, if_neg (by omega)] at hdep
        rw [if_pos hdep] at hpop
        obtain ⟨bs, q1, e1, e2, e3, e4, e5, e6, e7⟩ := ih q es hc hr hw hn hd
        refine ⟨false :: bs, q1, ?_, e2, ?_, e4, e5, ?_, e7⟩
        · simp only [runOps, hpop, e1]
        · simpa [popsTrue] using e3
        · simpa [pushesTrue, pushedEntries] using e6

/-- C26: starting from a reset queue whose flag is down, for every sequence of
pushes and pops with at most `SYNC_QUEUE_LEN` pushes, the run ends (no call
spins), every push is accepted, and with `j` the number of successful pops: `j`
is at most the number of pushes; if there is a push number `j + 1`, with entry
`e`, then peek returns the slot `j`, that slot holds `e`, and the timestamp
read is the timestamp of `e`; and if all pushed entries were popped, peek
returns `NULL`. -/
theorem fifo_order [HasTimestamp α] {k L : Nat} (hL : L + 1 = 2 ^ k)
    (ops : List (QueueOp α)) (q0 : SyncQueue α) (hc : q0.clearing = false)
    (hn : (pushedEntries ops).length ≤ L) :
    ∃ bs q1, runOps L ops (resetSyncQueue q0) = some (bs, q1) ∧
      pushesTrue ops bs = (pushedEntries ops).length ∧
      popsTrue ops bs ≤ (pushedEntries ops).length ∧
      (∀ e, (pushedEntries ops)[popsTrue ops bs]? = some e →
        queuePeek L q1 = some (some (popsTrue ops bs), q1) ∧
        q1.data (popsTrue ops bs) = e ∧
        getQueueTimestamp L q1 = some (HasTimestamp.timestamp e, q1)) ∧
      (popsTrue ops bs = (pushedEntries ops).length → queuePeek L q1 = some (none, q1)) := by
  obtain ⟨bs, q1, e1, e2, e3, e4, e5, e6, e7⟩ := runOps_fifo hL ops (resetSyncQueue q0) []
    hc (le_refl _) rfl (by simpa using hn) (by intro i hi; simp at hi)
  have hr : q1.readPos = popsTrue ops bs := by
    rw [e3]
    show 0 + popsTrue ops bs = popsTrue ops bs
    omega
  have hw : q1.writePos = (pushedEntries ops).length := by simpa using e5
  obtain ⟨p1, p2⟩ := queue_head L q1 e2
  refine ⟨bs, q1, e1, e6, by omega, ?_, ?_⟩
  · intro e he
    have hlt : popsTrue ops bs < (pushedEntries ops).length := by
      by_contra hge
      rw [List.getElem?_eq_none (by omega)] at he
      cases he
    have hd := e7 (popsTrue ops bs) (by omega)
    simp only [List.nil_append, he, Option.some.injEq] at hd
    obtain ⟨a, b⟩ := p1 (by omega)
    rw [hr] at a b
    exact ⟨a, hd.symm, by rw [b, ← hd]⟩
  · intro heq
    exact (p2 (by omega)).1

/-- C26 on a pattern queue of capacity 7: after the pushes of the entries with
timestamps 11 and 12, a pop and the push of the entry with timestamp 13, peek
returns slot 1 and the timestamp read is 12. -/
theorem fifo_order_witness :
    ((7 : Nat) + 1 = 2 ^ 3 ∧ (pushedEntries interleavedRun).length ≤ 7) ∧
    ∃ bs q1, runOps 7 interleavedRun resetPattQueue = some (bs, q1) ∧
      popsTrue interleavedRun bs = 1 ∧
      queuePeek 7 q1 = some (some 1, q1) ∧
      q1.data 1 = sampleEntry 12 ∧
      getQueueTimestamp 7 q1 = some (12, q1) := by
  refine ⟨⟨by decide, by decide⟩, ?_⟩
  obtain ⟨bs, q1, e1, e2, e3, e4, e5⟩ := fifo_order (by decide : (7 : Nat) + 1 = 2 ^ 3)
    interleavedRun { data := fun _ => sampleEntry 0, readPos := 0, writePos := 0,
                     clearing := false } rfl (by decide)
  have e0 : runOps 7 interleavedRun resetPattQueue = some (bs, q1) := e1
  have hbs : popsTrue interleavedRun bs = 1 := by
    have h1 : (runOps 7 interleavedRun resetPattQueue).map Prod.fst
        = some [true, true, true, true] := by decide
    rw [e0] at h1
    simp only [Option.map_some', Option.some.injEq] at h1
    rw [h1]
    decide
  rw [hbs] at e4
  obtain ⟨a, b, c⟩ := e4 (sampleEntry 12) (by decide)
  exact ⟨bs, q1, e0, hbs, a, b, c⟩

/-! ## The pitch cache of `updateVoices` -/

/-- The pitch update of one channel: the voice gets the deltas of the
channel's period whether the cache is used or refilled, as in the update
without cache, and the cache stays consistent. -/
theorem updatePeriod_cache [FloatOps F] (E : MixerEnv F) (i status : Nat) (st : MixerState F)
    (hc : CacheConsistent E st) :
    CacheConsistent E (updatePeriod E i status st) ∧
    (updatePeriod E i status st).voice = specUpdatePeriod E i status st.voice st.stm ∧
    (status &&& E.IS_Period ≠ 0 →
      ((updatePeriod E i status st).voice i).delta = E.getMixerDelta (st.stm i).finalPeriod ∧
      ((updatePeriod E i status st).voice i).revDelta
        = E.getRevMixerDelta (st.stm i).finalPeriod) := by
  unfold updatePeriod specUpdatePeriod
  by_cases hs : status &&& E.IS_Period ≠ 0
  · simp only [if_pos hs]
    by_cases hp : ((st.stm i).finalPeriod : Int) ≠ st.oldPeriod
    · simp only [if_pos hp, Function.update_same, true_and, implies_true, and_true]
      right
      simp only [CacheConsistent, Int.toNat_ofNat, and_self]
    · simp only [if_neg hp]
      have he : st.oldPeriod = ((st.stm i).finalPeriod : Int) := by
        by_contra hne
        exact hp (fun h => hne h.symm)
      have hd : st.oldDelta = E.getMixerDelta (st.stm i).finalPeriod ∧
          st.oldRevDelta = E.getRevMixerDelta (st.stm i).finalPeriod := by
        rcases hc with h | h
        · omega
        · rw [he, Int.toNat_ofNat] at h
          exact h
      refine ⟨?_, ?_, fun _ => ?_⟩
      · exact hc
      · rw [hd.1, hd.2]
      · simp only [Function.update_same]
        exact hd
  · simp only [if_neg hs]
    exact ⟨hc, trivial, fun h => absurd h hs⟩

/-- The volume and pan statements of the loop body leave the pitch cache
alone. -/
theorem updateVolPan_cache [FloatOps F] (E : MixerEnv F) (i status : Nat) (st : MixerState F) :
    (updateVolPan E i status st).oldPeriod = st.oldPeriod ∧
    (updateVolPan E i status st).oldDelta = st.oldDelta ∧
    (updateVolPan E i status st).oldRevDelta = st.oldRevDelta := by
  unfold updateVolPan
  simp only []
  split_ifs <;> exact ⟨rfl, rfl, rfl⟩

/-- The trigger statement of the loop body leaves the pitch cache alone. -/
theorem updateTrigger_cache [FloatOps F] (E : MixerEnv F) (i status : Nat) (st : MixerState F) :
    (updateTrigger E i status st).oldPeriod = st.oldPeriod ∧
    (updateTrigger E i status st).oldDelta = st.oldDelta ∧
    (updateTrigger E i status st).oldRevDelta = st.oldRevDelta := by
  unfold updateTrigger
  split_ifs <;> exact ⟨rfl, rfl, rfl⟩

/-- A trigger does not touch the two deltas of the voice. -/
theorem voiceTrigger_delta [FloatOps F] (audio : audio_t F) (v : voice_t F) (s : sampleTyp)
    (position : Int) :
    (voiceTrigger audio v s position).delta = v.delta ∧
    (voiceTrigger audio v s position).revDelta = v.revDelta := by
  unfold voiceTrigger
  cases s.pek with
  | none => exact ⟨rfl, rfl⟩
  | some pek =>
    simp only [apply_ite voice_t.delta, apply_ite voice_t.revDelta, ite_self, and_self]

theorem updateTrigger_delta [FloatOps F] (E : MixerEnv F) (i status : Nat) (st : MixerState F) :
    ((updateTrigger E i status st).voice i).delta = (st.voice i).delta ∧
    ((updateTrigger E i status st).voice i).revDelta = (st.voice i).revDelta := by
  unfold updateTrigger
  split_ifs
  · simp only [Function.update_same]
    exact voiceTrigger_delta _ _ _ _
  · exact ⟨rfl, rfl⟩

theorem cacheConsistent_congr (E : MixerEnv F) (a b : MixerState F)
    (h1 : a.oldPeriod = b.oldPeriod) (h2 : a.oldDelta = b.oldDelta)
    (h3 : a.oldRevDelta = b.oldRevDelta) (h : CacheConsistent E b) : CacheConsistent E a := by
  unfold CacheConsistent at h ⊢
  rw [h1, h2, h3]
  exact h

/-- The loop body for channel `i`: the cache stays consistent, and a channel
with the pitch-changed bit gets the deltas of its period. -/
theorem updateVoicesChannel_cache [FloatOps F] (E : MixerEnv F) (i : Nat) (st : MixerState F)
    (hc : CacheConsistent E st) :
    CacheConsistent E (updateVoicesChannel E i st) ∧
    ((st.stm i).status &&& E.IS_Period ≠ 0 →
      ((updateVoicesChannel E i st).voice i).delta = E.getMixerDelta (st.stm i).finalPeriod ∧
      ((updateVoicesChannel E i st).voice i).revDelta
        = E.getRevMixerDelta (st.stm i).finalPeriod) := by
  unfold updateVoicesChannel
  simp only []
  by_cases h0 : (st.stm i).status = 0
  · rw [if_pos h0]
    refine ⟨cacheConsistent_congr E _ st rfl rfl rfl hc, fun h => ?_⟩
    rw [h0] at h
    simp at h
  · rw [if_neg h0]
    obtain ⟨v1, v2, v3⟩ := updateVolPan_cache E i (st.stm i).status
      (clearStatus i (storeTmpStatus i st))
    have hc1 : CacheConsistent E (updateVolPan E i (st.stm i).status
        (clearStatus i (storeTmpStatus i st))) :=
      cacheConsistent_congr E _ st v1 v2 v3 hc
    obtain ⟨p1, _, p3⟩ := updatePeriod_cache E i (st.stm i).status _ hc1
    obtain ⟨t1, t2, t3⟩ := updateTrigger_cache E i (st.stm i).status
      (updatePeriod E i (st.stm i).status
        (updateVolPan E i (st.stm i).status (clearStatus i (storeTmpStatus i st))))
    obtain ⟨d1, d2⟩ := updateTrigger_delta E i (st.stm i).status
      (updatePeriod E i (st.stm i).status
        (updateVolPan E i (st.stm i).status (clearStatus i (storeTmpStatus i st))))
    refine ⟨cacheConsistent_congr E _ _ t1 t2 t3 p1, fun h => ?_⟩
    rw [d1, d2]
    have hf : ((updateVolPan E i (st.stm i).status
        (clearStatus i (storeTmpStatus i st))).stm i).finalPeriod = (st.stm i).finalPeriod := by
      rw [updateVolPan_stm]
      simp only [clearStatus, storeTmpStatus, Function.update_same]
    rw [← hf]
    exact p3 h

/-- The loop of `updateVoices` from channel `a` on: the cache stays
consistent, and every channel of the range with the pitch-changed bit ends
with the deltas of its period. -/
theorem updateVoicesFrom_cache [FloatOps F] (E : MixerEnv F) (n : Nat) :
    ∀ (a : Nat) (st : MixerState F), a + n ≤ E.MAX_VOICES → CacheConsistent E st →
      CacheConsistent E (updateVoicesFrom E n a st) ∧
      (∀ i, a ≤ i → i < a + n → (st.stm i).status &&& E.IS_Period ≠ 0 →
        ((updateVoicesFrom E n a st).voice i).delta = E.getMixerDelta (st.stm i).finalPeriod ∧
        ((updateVoicesFrom E n a st).voice i).revDelta
          = E.getRevMixerDelta (st.stm i).finalPeriod) := by
  induction n with
  | zero =>
    intro a st _ hc
    exact ⟨hc, fun i h1 h2 => by omega⟩
  | succ n ih =>
    intro a st hn hc
    obtain ⟨c1, c2⟩ := updateVoicesChannel_cache E a st hc
    obtain ⟨I1, I2⟩ := ih (a + 1) (updateVoicesChannel E a st) (by omega) c1
    obtain ⟨_, _, F3⟩ := updateVoicesFrom_frame E n (a + 1) (updateVoicesChannel E a st)
    simp only [updateVoicesFrom]
    refine ⟨I1, fun i h1 h2 hs => ?_⟩
    by_cases hia : i = a
    · subst hia
      rw [F3 i (by omega) (by omega)]
      exact c2 hs
    · have h := I2 i (by omega) (by omega)
      rw [updateVoicesChannel_stm_other E a st i hia] at h
      exact h hs

/-- C25: if on entry the pitch cache is consistent (`oldPeriod` is -1, or
`oldDelta` and `oldRevDelta` are the deltas of `oldPeriod`), then after
`updateVoices` (with `song.antChn` at most `MAX_VOICES`) every channel
`i < song.antChn` whose status had the pitch-changed bit has voice delta
`getMixerDelta(finalPeriod)` and reverse delta `getRevMixerDelta(finalPeriod)`,
and the cache is still consistent; each pitch update on a consistent cache
gives the voice table of the update that recomputes without cache; and the
first pitch update after `resetCachedMixerVars` refills the cache from the
channel's period. -/
theorem pitch_cache [FloatOps F] (E : MixerEnv F) (st : MixerState F)
    (hA : E.antChn ≤ E.MAX_VOICES) (hc : CacheConsistent E st) :
    (∀ i, i < E.antChn → (st.stm i).status &&& E.IS_Period ≠ 0 →
      ((updateVoices E st).voice i).delta = E.getMixerDelta (st.stm i).finalPeriod ∧
      ((updateVoices E st).voice i).revDelta = E.getRevMixerDelta (st.stm i).finalPeriod) ∧
    CacheConsistent E (updateVoices E st) ∧
    (∀ (i status : Nat) (s : MixerState F), CacheConsistent E s →
      (updatePeriod E i status s).voice = specUpdatePeriod E i status s.voice s.stm ∧
      CacheConsistent E (updatePeriod E i status s)) ∧
    (∀ (i status : Nat) (s : MixerState F), status &&& E.IS_Period ≠ 0 →
      (updatePeriod E i status (resetCachedMixerVars s)).oldPeriod = ((s.stm i).finalPeriod : Int) ∧
      (updatePeriod E i status (resetCachedMixerVars s)).oldDelta
        = E.getMixerDelta (s.stm i).finalPeriod ∧
      (updatePeriod E i status (resetCachedMixerVars s)).oldRevDelta
        = E.getRevMixerDelta (s.stm i).finalPeriod) := by
  obtain ⟨h1, h2⟩ := updateVoicesFrom_cache E E.antChn 0 st (by omega) hc
  refine ⟨fun i hi hs => h2 i (by omega) (by omega) hs, h1, fun i status s hs => ?_,
    fun i status s hs => ?_⟩
  · obtain ⟨a, b, _⟩ := updatePeriod_cache E i status s hs
    exact ⟨b, a⟩
  · have hne : (((resetCachedMixerVars s).stm i).finalPeriod : Int)
        ≠ (resetCachedMixerVars s).oldPeriod := by
      show (((s.stm i).finalPeriod : Nat) : Int) ≠ -1
      omega
    unfold updatePeriod
    simp only [if_pos hs, if_pos hne]
    exact ⟨rfl, rfl, rfl⟩

/-- C25 on two channels with the pitch-changed bit, periods 428 and 856, and a
cache that holds period 428: the first voice gets the cached deltas, the second
the recomputed ones. -/
theorem pitch_cache_witness :
    (demoEnv.antChn ≤ demoEnv.MAX_VOICES ∧ CacheConsistent demoEnv pitchState) ∧
    ((updateVoices demoEnv pitchState).voice 0).delta = 2 ^ 32 / 429 ∧
    ((updateVoices demoEnv pitchState).voice 1).delta = 2 ^ 32 / 857 ∧
    ((updateVoices demoEnv pitchState).voice 1).revDelta = 857 := by
  have hc : CacheConsistent demoEnv pitchState := by
    right
    exact ⟨rfl, rfl⟩
  have h := (pitch_cache demoEnv pitchState (by decide) hc).1
  have h0 := h 0 (by decide) (by decide)
  have h1 := h 1 (by decide) (by decide)
  exact ⟨⟨by decide, hc⟩, h0.1, h1.1, h1.2⟩

/-! ## The sync clock -/

/-- The tick length that `P_SetSpeed` stores for a valid BPM: the two halves of
the table entry. -/
theorem P_SetSpeed_tickTime (T : SpeedTables F) (bpm : Nat) (st : TickTiming F)
    (h0 : bpm ≠ 0) (h1 : bpm ≤ T.MAX_BPM) (ht : T.tickTimeTab bpm < 2 ^ 64) :
    (P_SetSpeed T bpm st).tickTimeLen = T.tickTimeTab bpm / 2 ^ 32 ∧
    (P_SetSpeed T bpm st).tickTimeLenFrac = T.tickTimeTab bpm % 2 ^ 32 := by
  unfold P_SetSpeed
  rw [if_neg h0, if_neg (by omega)]
  simp only [Nat.shiftRight_eq_div_pow, Nat.and_pow_two_sub_one_eq_mod]
  refine ⟨Nat.mod_eq_of_lt ?_, trivial⟩
  omega

/-- The advance of the clock by a tick length given by its two halves. -/
theorem advanceTickTime_spec (st : SyncState) (tab : Nat) (ht : tab < 2 ^ 64)
    (hlen : st.tickTimeLen = tab / 2 ^ 32) (hfrac : st.tickTimeLenFrac = tab % 2 ^ 32)
    (hf : st.tickTime64Frac < 2 ^ 32) :
    (advanceTickTime st).tickTime64Frac < 2 ^ 32 ∧
    ((advanceTickTime st).tickTime64 * 2 ^ 32 + (advanceTickTime st).tickTime64Frac) % 2 ^ 96
      = (st.tickTime64 * 2 ^ 32 + st.tickTime64Frac + tab) % 2 ^ 96 ∧
    (st.tickTime64 + tab / 2 ^ 32 + 1 < 2 ^ 64 →
      (advanceTickTime st).tickTime64 * 2 ^ 32 + (advanceTickTime st).tickTime64Frac
        = st.tickTime64 * 2 ^ 32 + st.tickTime64Frac + tab ∧
      st.tickTime64 ≤ (advanceTickTime st).tickTime64) := by
  unfold advanceTickTime
  simp only [Nat.and_pow_two_sub_one_eq_mod]
  rw [hlen, hfrac]
  norm_num at ht hf ⊢
  split_ifs with h
  · simp only []
    refine ⟨by omega, by omega, fun hw => ⟨by omega, by omega⟩⟩
  · simp only []
    refine ⟨by omega, by omega, fun hw => ⟨by omega, by omega⟩⟩

/-- The blocks of `fillVisualsSyncBuffer` before the advance leave the clock
and the tick length alone when no reset is pending. -/
theorem pushSnapshots_clock (L : Nat) (perfCounter : Nat) (uninit : chSyncData_t)
    (st : SyncState) (hreset : st.resetSyncTickTimeFlag = false) :
    resetTickTime perfCounter st = st ∧
    (pushChSnapshot L uninit (pushPattSnapshot L st)).tickTime64 = st.tickTime64 ∧
    (pushChSnapshot L uninit (pushPattSnapshot L st)).tickTime64Frac = st.tickTime64Frac ∧
    (pushChSnapshot L uninit (pushPattSnapshot L st)).tickTimeLen = st.tickTimeLen ∧
    (pushChSnapshot L uninit (pushPattSnapshot L st)).tickTimeLenFrac = st.tickTimeLenFrac ∧
    (pushChSnapshot L uninit (pushPattSnapshot L st)).pattSync =
      (if st.songPlaying = true then (pattQueuePush L st.pattSync (pattSnapshot st)).2
       else st.pattSync) ∧
    (pushChSnapshot L uninit (pushPattSnapshot L st)).chSync =
      (chQueuePush L st.chSync (chSnapshot uninit st)).2 := by
  refine ⟨?_, ?_⟩
  · unfold resetTickTime
    rw [if_neg (by rw [hreset]; simp)]
  · unfold pushChSnapshot pushPattSnapshot chSnapshot
    split_ifs <;> exact ⟨rfl, rfl, rfl, rfl, rfl, rfl⟩

/-- The advance keeps the two queues. -/
theorem advanceTickTime_queues (st : SyncState) :
    (advanceTickTime st).pattSync = st.pattSync ∧ (advanceTickTime st).chSync = st.chSync := by
  unfold advanceTickTime
  simp only []
  split_ifs <;> exact ⟨rfl, rfl⟩

/-- C24: on a tick without a sync-time reset, with the tick length that
`P_SetSpeed` stored for a valid BPM (a table entry below 2^64) and a fraction
below 2^32, `fillVisualsSyncBuffer` pushes the pattern snapshot (when the song
is playing) and the channel snapshot, both stamped with the `tickTime64` of
before the advance; afterwards the fraction is again below 2^32 and
`tickTime64 * 2^32 + tickTime64Frac` has grown by the table entry, modulo
2^96; while `tickTime64` does not wrap the growth is exact and `tickTime64`
does not decrease. -/
theorem sync_clock (L : Nat) (perfCounter : Nat) (uninit : chSyncData_t) (st : SyncState)
    (T : SpeedTables F) (bpm : Nat) (tt : TickTiming F)
    (hreset : st.resetSyncTickTimeFlag = false)
    (h0 : bpm ≠ 0) (h1 : bpm ≤ T.MAX_BPM) (ht : T.tickTimeTab bpm < 2 ^ 64)
    (hlen : st.tickTimeLen = (P_SetSpeed T bpm tt).tickTimeLen)
    (hfrac : st.tickTimeLenFrac = (P_SetSpeed T bpm tt).tickTimeLenFrac)
    (hf : st.tickTime64Frac < 2 ^ 32) :
    (fillVisualsSyncBuffer L perfCounter uninit st).pattSync =
      (if st.songPlaying = true then (pattQueuePush L st.pattSync (pattSnapshot st)).2
       else st.pattSync) ∧
    (pattSnapshot st).timestamp = st.tickTime64 ∧
    (fillVisualsSyncBuffer L perfCounter uninit st).chSync =
      (chQueuePush L st.chSync (chSnapshot uninit st)).2 ∧
    (chSnapshot uninit st).timestamp = st.tickTime64 ∧
    (fillVisualsSyncBuffer L perfCounter uninit st).tickTime64Frac < 2 ^ 32 ∧
    ((fillVisualsSyncBuffer L perfCounter uninit st).tickTime64 * 2 ^ 32
        + (fillVisualsSyncBuffer L perfCounter uninit st).tickTime64Frac) % 2 ^ 96
      = (st.tickTime64 * 2 ^ 32 + st.tickTime64Frac + T.tickTimeTab bpm) % 2 ^ 96 ∧
    (st.tickTime64 + T.tickTimeTab bpm / 2 ^ 32 + 1 < 2 ^ 64 →
      (fillVisualsSyncBuffer L perfCounter uninit st).tickTime64 * 2 ^ 32
          + (fillVisualsSyncBuffer L perfCounter uninit st).tickTime64Frac
        = st.tickTime64 * 2 ^ 32 + st.tickTime64Frac + T.tickTimeTab bpm ∧
      st.tickTime64 ≤ (fillVisualsSyncBuffer L perfCounter uninit st).tickTime64) := by
  obtain ⟨p1, p2⟩ := P_SetSpeed_tickTime T bpm tt h0 h1 ht
  obtain ⟨r0, r1, r2, r3, r4, r5, r6⟩ := pushSnapshots_clock L perfCounter uninit st hreset
  obtain ⟨q1, q2⟩ := advanceTickTime_queues (pushChSnapshot L uninit (pushPattSnapshot L st))
  obtain ⟨a1, a2, a3⟩ := advanceTickTime_spec (pushChSnapshot L uninit (pushPattSnapshot L st))
    (T.tickTimeTab bpm) ht (by rw [r3, hlen, p1]) (by rw [r4, hfrac, p2]) (by rw [r2]; exact hf)
  unfold fillVisualsSyncBuffer
  rw [r0]
  rw [r1, r2] at a2 a3
  exact ⟨by rw [q1, r5], rfl, by rw [q2, r6], rfl, a1, a2, a3⟩

/-- C24 on a clock at 1000.75 and a tick length of 2.75: both snapshots carry
the timestamp 1000, and the clock goes to 1003.5. -/
theorem sync_clock_witness :
    (demoSync.resetSyncTickTimeFlag = false ∧ demoTables.tickTimeTab 125 < 2 ^ 64 ∧
      demoSync.tickTime64Frac < 2 ^ 32) ∧
    (pattSnapshot demoSync).timestamp = 1000 ∧
    (chSnapshot { channels := [], timestamp := 0 } demoSync).timestamp = 1000 ∧
    (fillVisualsSyncBuffer 7 0 { channels := [], timestamp := 0 } demoSync).tickTime64 * 2 ^ 32
        + (fillVisualsSyncBuffer 7 0 { channels := [], timestamp := 0 } demoSync).tickTime64Frac
      = 1003 * 2 ^ 32 + 2 ^ 31 := by
  have h := sync_clock 7 0 { channels := [], timestamp := 0 } demoSync demoTables 125
    demoTiming rfl (by decide) (by decide) (by decide)
    (by rw [(P_SetSpeed_tickTime demoTables 125 demoTiming (by decide) (by decide)
      (by decide)).1]; decide)
    (by rw [(P_SetSpeed_tickTime demoTables 125 demoTiming (by decide) (by decide)
      (by decide)).2]; decide)
    (by decide)
  refine ⟨⟨rfl, by decide, by decide⟩, h.2.1, h.2.2.2.1, ?_⟩
  rw [(h.2.2.2.2.2.2 (by decide)).1]
  decide

/-! ## Tick positions in the sample stream -/

/-- With at least `1 / K` samples per tick, a tick counter above -1 is at most
`K - 1` ticks away from being positive. -/
theorem ticks_to_positive (s x : ℚ) (hs : 0 < s) (K : Nat) (hK : 1 ≤ (K : ℚ) * s)
    (hx : -1 < x) : (⌊-x / s⌋).toNat < K := by
  have h1 : -x / s < (K : ℚ) := by
    rw [div_lt_iff₀ hs]
    linarith
  have h2 : ⌊-x / s⌋ < (K : Int) := by
    rw [Int.floor_lt]
    exact_mod_cast h1
  have hKpos : 0 < K := by
    rcases Nat.eq_zero_or_pos K with h | h
    · subst h
      norm_num at hK
    · exact h
  omega

/-- A replayer tick on a state that satisfies the invariant, with the counter
at or below 0: the tick is at its position and the invariant holds again. -/
theorem traceInv_tick (s : ℚ) (hs : 0 < s) (st : CallbackState TickTrace)
    (hinv : TraceInv s st) (h0 : st.dTickSampleCounter ≤ 0) :
    TraceInv s
      { world := (tracedTick st.world st.dSamplesPerTick).1,
        dTickSampleCounter := st.dTickSampleCounter + (tracedTick st.world st.dSamplesPerTick).2,
        dSamplesPerTick := (tracedTick st.world st.dSamplesPerTick).2 } := by
  obtain ⟨i1, i2, i3, i4⟩ := hinv
  have hceil : ⌈((st.world.ticksAt.length : Nat) : ℚ) * s⌉ = st.world.mixed := by
    rw [Int.ceil_eq_iff]
    constructor <;> linarith
  refine ⟨?_, ?_, ?_, ?_⟩
  · show st.world.ticksAt ++ [st.world.mixed]
      = (List.range (st.world.ticksAt ++ [st.world.mixed]).length).map (fun (n : Nat) => ⌈(n : ℚ) * s⌉)
    rw [List.length_append, List.length_singleton, List.range_succ, List.map_append, ← i1]
    simp only [List.map_cons, List.map_nil, hceil]
  · show st.dTickSampleCounter + st.dSamplesPerTick
      = (((st.world.ticksAt ++ [st.world.mixed]).length : Nat) : ℚ) * s - (st.world.mixed : ℚ)
    rw [List.length_append, List.length_singleton, i4, i2]
    push_cast
    ring
  · show -1 < st.dTickSampleCounter + st.dSamplesPerTick
    rw [i4]
    linarith
  · exact i4

/-- Mixing a block on a state that satisfies the invariant up to the bound on
the counter. -/
theorem traceInv_mix (s : ℚ) (w : TickTrace) (c : ℚ) (m : Int)
    (h1 : w.ticksAt = (List.range w.ticksAt.length).map (fun (n : Nat) => ⌈(n : ℚ) * s⌉))
    (h2 : c = (w.ticksAt.length : ℚ) * s - (w.mixed : ℚ)) (h3 : -1 < c - (m : ℚ)) :
    TraceInv s { world := tracedMix w m, dTickSampleCounter := c - (m : ℚ),
                 dSamplesPerTick := s } := by
  refine ⟨h1, ?_, h3, rfl⟩
  show c - (m : ℚ) = (w.ticksAt.length : ℚ) * s - ((w.mixed + m : Int) : ℚ)
  rw [h2]
  push_cast
  ring

/-- The scheduling loop of the measured run: with enough fuel it ends, mixes
exactly the samples asked for and keeps the invariant; no block is negative or
longer than the ceiling of the tick counter, and the counter is above -1 after
every block. -/
theorem tracedLoop_spec (s : ℚ) (hs : 0 < s) (K : Nat) (hK : 1 ≤ (K : ℚ) * s) (fuel : Nat) :
    ∀ (n : Nat) (st : CallbackState TickTrace), TraceInv s st →
      (⌊-st.dTickSampleCounter / s⌋).toNat + n * (K + 1) ≤ fuel →
      ∃ calls st1,
        audioCallbackLoop tracedTick tracedMix fuel (n : Int) st = some (calls, st1) ∧
        TraceInv s st1 ∧ st1.world.mixed = st.world.mixed + (n : Int) ∧
        (∀ c ∈ calls,
          0 ≤ c.samples ∧ c.samples ≤ ⌈c.counter⌉ ∧ -1 < c.counter - (c.samples : ℚ)) := by
  induction fuel with
  | zero =>
    intro n st hinv hf
    have hn : n = 0 := by
      rcases Nat.eq_zero_or_pos n with h | h
      · exact h
      · have : 1 * (K + 1) ≤ n * (K + 1) := Nat.mul_le_mul_right _ h
        omega
    subst hn
    exact ⟨[], st, by simp [audioCallbackLoop], hinv, by simp, by simp⟩
  | succ fuel ih =>
    intro n st hinv hf
    by_cases hn : n = 0
    · subst hn
      exact ⟨[], st, by simp [audioCallbackLoop], hinv, by simp, by simp⟩
    · have hpos : (n : Int) > 0 := by omega
      rw [audioCallbackLoop_succ tracedTick tracedMix fuel (n : Int) st hpos _ _ _ rfl rfl rfl]
      -- the state after the tick, if there is one
      have hst : ∃ (w : TickTrace) (c : ℚ),
          (if st.dTickSampleCounter ≤ 0 then (tracedTick st.world st.dSamplesPerTick).1
            else st.world) = w ∧
          (if st.dTickSampleCounter ≤ 0 then
            st.dTickSampleCounter + (tracedTick st.world st.dSamplesPerTick).2
            else st.dTickSampleCounter) = c ∧
          (if st.dTickSampleCounter ≤ 0 then (tracedTick st.world st.dSamplesPerTick).2
            else st.dSamplesPerTick) = s ∧
          w.ticksAt = (List.range w.ticksAt.length).map (fun (n : Nat) => ⌈(n : ℚ) * s⌉) ∧
          c = (w.ticksAt.length : ℚ) * s - (w.mixed : ℚ) ∧ -1 < c ∧
          w.mixed = st.world.mixed ∧
          (c ≤ 0 → (⌊-c / s⌋).toNat + 1 ≤ (⌊-st.dTickSampleCounter / s⌋).toNat) := by
        by_cases h0 : st.dTickSampleCounter ≤ 0
        · obtain ⟨t1, t2, t3, t4⟩ := traceInv_tick s hs st hinv h0
          refine ⟨_, _, if_pos h0, if_pos h0, ?_, t1, t2, t3, rfl, ?_⟩
          · rw [if_pos h0]
            exact hinv.2.2.2
          · intro hc
            have e4 : (tracedTick st.world st.dSamplesPerTick).2 = s := hinv.2.2.2
            rw [e4] at hc ⊢
            have e5 : -(st.dTickSampleCounter + s) / s = -st.dTickSampleCounter / s - 1 := by
              field_simp
              ring
            rw [e5, Int.floor_sub_one]
            have e6 : 1 ≤ ⌊-st.dTickSampleCounter / s⌋ := by
              rw [Int.le_floor, le_div_iff₀ hs]
              push_cast
              linarith
            omega
        · obtain ⟨i1, i2, i3, i4⟩ := hinv
          refine ⟨_, _, if_neg h0, if_neg h0, ?_, i1, i2, i3, rfl, ?_⟩
          · rw [if_neg h0]
            exact i4
          · intro hc
            exact absurd hc h0
      obtain ⟨w, c, ew, ec, es, w1, w2, w3, w4, w5⟩ := hst
      rw [ew, ec, es]
      have hceil0 : 0 ≤ ⌈c⌉ := by
        have : (-1 : Int) < ⌈c⌉ := by
          rw [Int.lt_ceil]
          exact_mod_cast w3
        omega
      have hceil1 : (⌈c⌉ : ℚ) < c + 1 := Int.ceil_lt_add_one c
      generalize hm : (if (n : Int) > ⌈c⌉ then ⌈c⌉ else (n : Int)) = m
      have hm0 : 0 ≤ m := by
        rw [← hm]
        split_ifs <;> omega
      have hm1 : m ≤ ⌈c⌉ := by
        rw [← hm]
        split_ifs <;> omega
      have hm2 : m ≤ (n : Int) := by
        rw [← hm]
        split_ifs <;> omega
      have hm3 : -1 < c - (m : ℚ) := by
        have : (m : ℚ) ≤ (⌈c⌉ : ℚ) := by exact_mod_cast hm1
        linarith
      have hinv1 := traceInv_mix s w c m w1 w2 hm3
      have hrest : (n : Int) - m = ((((n : Int) - m).toNat : Nat) : Int) := by
        rw [Int.toNat_of_nonneg (by omega)]
      have hz := ticks_to_positive s (c - (m : ℚ)) hs K hK hm3
      have hfuel : (⌊-(c - (m : ℚ)) / s⌋).toNat + ((n : Int) - m).toNat * (K + 1) ≤ fuel := by
        by_cases hmz : m = 0
        · subst hmz
          have hc0 : c ≤ 0 := by
            have hle : ⌈c⌉ ≤ 0 := by
              rw [← hm]
              split_ifs at hm with h
              · omega
              · omega
            rw [Int.ceil_le] at hle
            exact_mod_cast hle
          have h5 := w5 hc0
          have e7 : ((n : Int) - 0).toNat = n := by simp
          have e8 : c - ((0 : Int) : ℚ) = c := by simp
          rw [e7, e8]
          omega
        · have h6 : ((n : Int) - m).toNat + 1 ≤ n := by omega
          have h7 : (((n : Int) - m).toNat + 1) * (K + 1) ≤ n * (K + 1) :=
            Nat.mul_le_mul_right _ h6
          have h8 : (((n : Int) - m).toNat + 1) * (K + 1)
              = ((n : Int) - m).toNat * (K + 1) + (K + 1) := by ring
          omega
      obtain ⟨calls, st1, r1, r2, r3, r4⟩ := ih ((n : Int) - m).toNat
        { world := tracedMix w m, dTickSampleCounter := c - (m : ℚ), dSamplesPerTick := s }
        hinv1 hfuel
      rw [← hrest] at r1
      rw [r1]
      refine ⟨_, st1, rfl, r2, ?_, ?_⟩
      · rw [r3]
        show w.mixed + m + ((((n : Int) - m).toNat : Nat) : Int) = st.world.mixed + (n : Int)
        rw [← hrest, w4]
        ring
      · intro x hx
        simp only [List.mem_cons] at hx
        rcases hx with hx | hx
        · subst hx
          exact ⟨hm0, hm1, hm3⟩
        · exact r4 x hx

/-- One callback of the measured run. -/
theorem tracedCallback_spec (s : ℚ) (hs : 0 < s) (K : Nat) (hK : 1 ≤ (K : ℚ) * s)
    (pmpCountDiv len : Int) (fuel : Nat) (st : CallbackState TickTrace) (hinv : TraceInv s st)
    (hf : ((Int.tdiv len pmpCountDiv).toNat + 1) * (K + 1) ≤ fuel) :
    ∃ calls st1,
      audioCallback tracedTick tracedMix false pmpCountDiv fuel len st = some (calls, st1) ∧
      TraceInv s st1 ∧
      st1.world.mixed = st.world.mixed + ((Int.tdiv len pmpCountDiv).toNat : Int) ∧
      (∀ c ∈ calls,
        0 ≤ c.samples ∧ c.samples ≤ ⌈c.counter⌉ ∧ -1 < c.counter - (c.samples : ℚ)) := by
  unfold audioCallback
  simp only [Bool.false_eq_true, if_false]
  by_cases h : Int.tdiv len pmpCountDiv ≤ 0
  · rw [if_pos h]
    have e : (Int.tdiv len pmpCountDiv).toNat = 0 := by omega
    exact ⟨[], st, rfl, hinv, by rw [e]; simp, by simp⟩
  · rw [if_neg h]
    have e : Int.tdiv len pmpCountDiv = (((Int.tdiv len pmpCountDiv).toNat : Nat) : Int) := by
      rw [Int.toNat_of_nonneg (by omega)]
    have hz := ticks_to_positive s st.dTickSampleCounter hs K hK hinv.2.2.1
    have h8 : ((Int.tdiv len pmpCountDiv).toNat + 1) * (K + 1)
        = (Int.tdiv len pmpCountDiv).toNat * (K + 1) + (K + 1) := by ring
    obtain ⟨calls, st1, r1, r2, r3, r4⟩ :=
      tracedLoop_spec s hs K hK fuel (Int.tdiv len pmpCountDiv).toNat st hinv (by omega)
    rw [← e] at r1
    exact ⟨calls, st1, r1, r2, r3, r4⟩

/-- A run of callbacks of the measured run. -/
theorem tracedRun_spec (s : ℚ) (hs : 0 < s) (K : Nat) (hK : 1 ≤ (K : ℚ) * s)
    (pmpCountDiv : Int) (fuel : Nat) (lens : List Int) :
    ∀ (st : CallbackState TickTrace), TraceInv s st →
      (∀ len ∈ lens, ((Int.tdiv len pmpCountDiv).toNat + 1) * (K + 1) ≤ fuel) →
      ∃ calls st1,
        runCallbacks tracedTick tracedMix pmpCountDiv fuel lens st = some (calls, st1) ∧
        TraceInv s st1 ∧
        st1.world.mixed = st.world.mixed
          + (lens.map (fun len => ((Int.tdiv len pmpCountDiv).toNat : Int))).sum ∧
        (∀ c ∈ calls,
          0 ≤ c.samples ∧ c.samples ≤ ⌈c.counter⌉ ∧ -1 < c.counter - (c.samples : ℚ)) := by
  induction lens with
  | nil =>
    intro st hinv _
    exact ⟨[], st, rfl, hinv, by simp, by simp⟩
  | cons len lens ih =>
    intro st hinv hf
    obtain ⟨calls, st1, a1, a2, a3, a4⟩ := tracedCallback_spec s hs K hK pmpCountDiv len fuel
      st hinv (hf len (List.mem_cons_self _ _))
    obtain ⟨calls1, st2, b1, b2, b3, b4⟩ := ih st1 a2
      (fun l hl => hf l (List.mem_cons_of_mem _ hl))
    refine ⟨calls ++ calls1, st2, ?_, b2, ?_, ?_⟩
    · simp only [runCallbacks, a1, b1]
    · rw [b3, a3]
      simp only [List.map_cons, List.sum_cons]
      ring
    · intro c hc
      rcases List.mem_append.1 hc with h | h
      · exact a4 c h
      · exact b4 c h

/-- C23: with a constant samples-per-tick value `s > 0` (at least `1 / K`), a
tick counter of 0 at the start and exact rational arithmetic, for every split
of the stream into callbacks of any lengths (`pmpCountDiv > 0` bytes per
frame, enough iterations allowed), the run ends, mixes the frames of all the
callbacks, and replayer tick number `n` (from 0) ran when exactly `ceil (n * s)`
samples had been mixed in total; no block extends past the ceiling of the tick
counter, and the tick counter, which is the ticks' worth of samples minus the
samples mixed, is above -1 after every block and at the end. -/
theorem tick_positions (s : ℚ) (hs : 0 < s) (K : Nat) (hK : 1 ≤ (K : ℚ) * s)
    (pmpCountDiv : Int) (hdiv : 0 < pmpCountDiv) (fuel : Nat) (lens : List Int)
    (hf : ∀ len ∈ lens, ((Int.tdiv len pmpCountDiv).toNat + 1) * (K + 1) ≤ fuel) :
    ∃ calls st1,
      runCallbacks tracedTick tracedMix pmpCountDiv fuel lens (freshTrace s)
        = some (calls, st1) ∧
      st1.world.ticksAt
        = (List.range st1.world.ticksAt.length).map (fun (n : Nat) => ⌈(n : ℚ) * s⌉) ∧
      st1.world.mixed = (lens.map (fun len => ((Int.tdiv len pmpCountDiv).toNat : Int))).sum ∧
      st1.dTickSampleCounter = (st1.world.ticksAt.length : ℚ) * s - (st1.world.mixed : ℚ) ∧
      -1 < st1.dTickSampleCounter ∧
      (∀ c ∈ calls,
        0 ≤ c.samples ∧ c.samples ≤ ⌈c.counter⌉ ∧ -1 < c.counter - (c.samples : ℚ)) := by
  have _ := hdiv
  have h0 : TraceInv s (freshTrace s) := by
    refine ⟨rfl, ?_, ?_, rfl⟩
    · show (0 : ℚ) = (([] : List Int).length : ℚ) * s - ((0 : Int) : ℚ)
      simp
    · show (-1 : ℚ) < 0
      norm_num
  obtain ⟨calls, st1, a1, ⟨i1, i2, i3, _⟩, a3, a4⟩ :=
    tracedRun_spec s hs K hK pmpCountDiv fuel lens (freshTrace s) h0 hf
  refine ⟨calls, st1, a1, i1, ?_, i2, i3, a4⟩
  rw [a3]
  show (0 : Int) + _ = _
  simp

/-- C23 with 5/2 samples per tick and the stream split into callbacks of 3, 1
and 4 frames (2 bytes per frame): 8 samples are mixed and the three ticks ran
after 0, 3 and 5 samples. -/
theorem tick_positions_witness :
    ((0 : ℚ) < 5 / 2 ∧ (1 : ℚ) ≤ ((1 : Nat) : ℚ) * (5 / 2) ∧ (0 : Int) < 2) ∧
    ∃ calls st1,
      runCallbacks tracedTick tracedMix 2 10 [6, 2, 8] (freshTrace (5 / 2))
        = some (calls, st1) ∧
      st1.world.mixed = 8 ∧ st1.world.ticksAt = [0, 3, 5] := by
  refine ⟨⟨by norm_num, by norm_num, by decide⟩, ?_⟩
  obtain ⟨calls, st1, a1, a2, a3, a4, a5, _⟩ := tick_positions (5 / 2) (by norm_num) 1
    (by norm_num) 2 (by decide) 10 [6, 2, 8] (by decide)
  have hmixed : st1.world.mixed = 8 := by
    rw [a3]
    decide
  have c1 : ⌈((1 : Nat) : ℚ) * (5 / 2)⌉ = 3 := by rw [Int.ceil_eq_iff]; norm_num
  have c2 : ⌈((2 : Nat) : ℚ) * (5 / 2)⌉ = 5 := by rw [Int.ceil_eq_iff]; norm_num
  have c0 : ⌈((0 : Nat) : ℚ) * (5 / 2)⌉ = 0 := by simp
  have hlen : st1.world.ticksAt.length = 3 := by
    have t1 : (runCallbacks tracedTick tracedMix 2 10 [6, 2, 8] (freshTrace (5 / 2))).map
        (fun r => r.2.world.ticksAt.length) = some 3 := by
      have k1 : ⌈(5 / 2 : ℚ)⌉ = 3 := by rw [Int.ceil_eq_iff]; norm_num
      have k2 : ⌈(2 : ℚ)⌉ = 2 := by rw [Int.ceil_eq_iff]; norm_num
      have k3 : ⌈(1 : ℚ)⌉ = 1 := by rw [Int.ceil_eq_iff]; norm_num
      have d1 : Int.tdiv 6 2 = 3 := by decide
      have d2 : Int.tdiv 2 2 = 1 := by decide
      have d3 : Int.tdiv 8 2 = 4 := by decide
      simp only [runCallbacks, audioCallback, audioCallbackLoop, tracedTick, tracedMix,
        freshTrace, d1, d2, d3]
      norm_num [k1, k2, k3]
    rw [a1] at t1
    simpa using t1
  refine ⟨calls, st1, a1, hmixed, ?_⟩
  rw [a2, hlen]
  simp only [List.range_succ, List.range_zero, List.nil_append, List.cons_append,
    List.map_cons, List.map_nil, c0, c1, c2]

/-! ## A run of two ticks that ends in the silent case with a live fade-out voice -/

theorem rampVolumeChanges_active [FloatOps F] (E : MixerEnv F) (a b : F)
    (voice : Nat → voice_t F) (i status : Nat) :
    ((rampVolumeChanges E a b voice i status) i).active = (voice i).active := by
  unfold rampVolumeChanges
  split_ifs <;> simp only [Function.update_same]

theorem rampOutIn_active [FloatOps F] (E : MixerEnv F) (voice : Nat → voice_t F)
    (i status : Nat) (hM : 0 < E.MAX_VOICES) :
    ((rampOutIn E voice i status) i).active = (voice i).active := by
  have hne : i ≠ E.MAX_VOICES + i := by omega
  unfold rampOutIn setupFadeOutVoice
  split_ifs <;> simp only [Function.update_same, Function.update_noteq hne]

/-- The volume update keeps the active flag of the voice. -/
theorem voiceUpdateVolumes_active [FloatOps F] (E : MixerEnv F) (voice : Nat → voice_t F)
    (i status : Nat) (hramp : E.audio.volumeRampingFlag = true) (hM : 0 < E.MAX_VOICES) :
    ((voiceUpdateVolumes E voice i status) i).active = (voice i).active := by
  rw [voiceUpdateVolumes_ramping E voice i status hramp, rampVolumeChanges_active,
    rampOutIn_active E _ i status hM]
  simp only [Function.update_same, withDestVol]

/-- The first channel of the loop of `updateVoices` decides voice 0 and its
fade-out voice when there are at most `MAX_VOICES` channels. -/
theorem updateVoices_first [FloatOps F] (E : MixerEnv F) (st : MixerState F)
    (hA : 0 < E.antChn) (hB : E.antChn ≤ E.MAX_VOICES) :
    (updateVoices E st).voice 0 = (updateVoicesChannel E 0 st).voice 0 ∧
    (updateVoices E st).voice (E.MAX_VOICES + 0)
      = (updateVoicesChannel E 0 st).voice (E.MAX_VOICES + 0) := by
  unfold updateVoices
  obtain ⟨n, hn⟩ : ∃ n, E.antChn = n + 1 := ⟨E.antChn - 1, by omega⟩
  rw [hn]
  simp only [updateVoicesFrom]
  obtain ⟨_, _, F3⟩ := updateVoicesFrom_frame E n (0 + 1) (updateVoicesChannel E 0 st)
  exact ⟨F3 0 (by omega) (by omega), F3 (E.MAX_VOICES + 0) (by omega) (by omega)⟩

/-- The loop body on a channel that flags a trigger: the voice is what
`voiceTrigger` leaves. -/
theorem updateVoicesChannel_trigger [FloatOps F] (E : MixerEnv F) (i : Nat) (st : MixerState F)
    (hs : (st.stm i).status &&& E.IS_NyTon ≠ 0) :
    ∃ v : voice_t F, (updateVoicesChannel E i st).voice i
      = voiceTrigger E.audio v (st.stm i).smpPtr (st.stm i).smpStartPos := by
  have h0 : (st.stm i).status ≠ 0 := by
    intro h
    rw [h] at hs
    simp at hs
  unfold updateVoicesChannel
  simp only []
  rw [if_neg h0]
  unfold updateTrigger
  rw [if_pos hs]
  simp only [Function.update_same]
  rw [updatePeriod_stm, updateVolPan_stm]
  have e1 : ((clearStatus i (storeTmpStatus i st)).stm i).smpPtr = (st.stm i).smpPtr := by
    simp only [clearStatus, storeTmpStatus, Function.update_same]
  have e2 : ((clearStatus i (storeTmpStatus i st)).stm i).smpStartPos
      = (st.stm i).smpStartPos := by
    simp only [clearStatus, storeTmpStatus, Function.update_same]
  rw [e1, e2]
  exact ⟨_, rfl⟩

/-- The loop body on a channel that flags a volume change and neither a pitch
change nor a trigger: the voice table is what `voiceUpdateVolumes` leaves. -/
theorem updateVoicesChannel_volume [FloatOps F] (E : MixerEnv F) (i : Nat) (st : MixerState F)
    (hv : (st.stm i).status &&& (E.IS_Vol + E.IS_Pan) ≠ 0)
    (hp : ¬ (st.stm i).status &&& E.IS_Period ≠ 0)
    (ht : ¬ (st.stm i).status &&& E.IS_NyTon ≠ 0) :
    (updateVoicesChannel E i st).voice =
      voiceUpdateVolumes E
        (Function.update st.voice i (withChannelVolPan E (st.stm i) (st.voice i))) i
        (st.stm i).status := by
  have h0 : (st.stm i).status ≠ 0 := by
    intro h
    rw [h] at hv
    simp at hv
  unfold updateVoicesChannel
  simp only []
  rw [if_neg h0]
  unfold updateTrigger
  rw [if_neg ht]
  unfold updatePeriod
  rw [if_neg hp, updateVolPan_voice, if_pos hv]
  simp only [clearStatus, storeTmpStatus, Function.update_same, withChannelVolPan]

/-- A run that ends in the state that `doChannelMixing` skips.  Tick one:
voice 0 plays at gain 1 and its channel flags a trigger with a volume change to
0, so `updateVoices` sets up the fade-out voice 32 and restarts voice 0 from
gain 0.  Tick two, with both voices as tick one left them (the fade-out has not
ended): the channel flags a volume change to 0 again, the target equals the
current gains and `updateVoices` sets the ramp count of voice 0 to 0.  Voice 0
is then active, silent and not ramping, voice 32 is active, and
`doChannelMixing` makes no call on voice 32. -/
theorem silent_primary_run :
    ((updateVoices demoEnv retriggerToSilence).voice 0).active = true ∧
    ((updateVoices demoEnv retriggerToSilence).voice 32).active = true ∧
    ((updateVoices demoEnv
        (volumeTick (updateVoices demoEnv retriggerToSilence))).voice 0).active = true ∧
    ((updateVoices demoEnv
        (volumeTick (updateVoices demoEnv retriggerToSilence))).voice 0).volRampSamples = 0 ∧
    ((updateVoices demoEnv
        (volumeTick (updateVoices demoEnv retriggerToSilence))).voice 0).fVolL = 0 ∧
    ((updateVoices demoEnv
        (volumeTick (updateVoices demoEnv retriggerToSilence))).voice 0).fVolR = 0 ∧
    ((updateVoices demoEnv
        (volumeTick (updateVoices demoEnv retriggerToSilence))).voice 32).active = true ∧
    callsOn 32
      (doChannelMixing demoEnv idleKernels 64
        { voice := (updateVoices demoEnv
            (volumeTick (updateVoices demoEnv retriggerToSilence))).voice,
          buffers := (), calls := [] }).calls = [] := by
  -- tick one
  obtain ⟨f1, _⟩ := updateVoices_first demoEnv retriggerToSilence (by decide) (by decide)
  have hretrig : Retriggers demoEnv (retriggerToSilence.stm 0) (retriggerToSilence.voice 0) := by
    refine ⟨rfl, by decide, by decide, Or.inl ?_⟩
    simp [retriggerToSilence, playingVoice, stoppedVoice, FloatOps.gt]
  have h32 : demoEnv.MAX_VOICES + 0 = 32 := by decide
  obtain ⟨s1, s2, s3⟩ := (updateVoicesFrom_spec demoEnv demoEnv.antChn 0 retriggerToSilence
    (by decide)).2.1 0 (by decide) (by decide) hretrig
  rw [h32] at s1
  have a1 : ((updateVoices demoEnv retriggerToSilence).voice 0).active = true := by
    obtain ⟨v, hv⟩ := updateVoicesChannel_trigger demoEnv 0 retriggerToSilence (by decide)
    rw [f1, hv, voiceTrigger_active_spec _ _ _ _ (by decide) (by decide)]
    exact ⟨by simp [retriggerToSilence, mutedChannel, loopSample], by decide, by decide⟩
  have a2 : ((updateVoices demoEnv retriggerToSilence).voice 32).active = true := by
    unfold updateVoices
    rw [s1]
    simp [fadeOutCopy, withDestVol, withChannelVolPan, retriggerToSilence, playingVoice,
      stoppedVoice]
  have a3 : ((updateVoices demoEnv retriggerToSilence).voice 0).fVolL = 0 := s2
  have a4 : ((updateVoices demoEnv retriggerToSilence).voice 0).fVolR = 0 := s3
  -- tick two
  generalize hS1 : updateVoices demoEnv retriggerToSilence = S1 at a1 a2 a3 a4 ⊢
  obtain ⟨g1, g2⟩ := updateVoices_first demoEnv (volumeTick S1) (by decide) (by decide)
  have hst : (volumeTick S1).stm 0 = mutedChannel 1 := by
    simp only [volumeTick, Function.update_same]
  have hvol := updateVoicesChannel_volume demoEnv 0 (volumeTick S1)
    (by rw [hst]; decide) (by rw [hst]; decide) (by rw [hst]; decide)
  rw [hst] at hvol
  have hvol : (updateVoicesChannel demoEnv 0 (volumeTick S1)).voice
      = voiceUpdateVolumes demoEnv (Function.update (volumeTick S1).voice 0
          (withChannelVolPan demoEnv (mutedChannel 1) ((volumeTick S1).voice 0))) 0 1 := hvol
  have hW : (Function.update (volumeTick S1).voice 0
      (withChannelVolPan demoEnv (mutedChannel 1) ((volumeTick S1).voice 0))) 0
      = { S1.voice 0 with fVol := 0 } := by
    simp [withChannelVolPan, volumeTick, mutedChannel, demoEnv]
  have b1 := voiceUpdateVolumes_active demoEnv (Function.update (volumeTick S1).voice 0
      (withChannelVolPan demoEnv (mutedChannel 1) ((volumeTick S1).voice 0))) 0 1 rfl
      (by decide)
  obtain ⟨b2, b3⟩ := voiceUpdateVolumes_gains demoEnv (Function.update (volumeTick S1).voice 0
      (withChannelVolPan demoEnv (mutedChannel 1) ((volumeTick S1).voice 0))) 0 1 rfl
  have b4 := voiceUpdateVolumes_count demoEnv (Function.update (volumeTick S1).voice 0
      (withChannelVolPan demoEnv (mutedChannel 1) ((volumeTick S1).voice 0))) 0 1 rfl
  have b5 := (voiceUpdateVolumes_shadow demoEnv (Function.update (volumeTick S1).voice 0
      (withChannelVolPan demoEnv (mutedChannel 1) ((volumeTick S1).voice 0))) 0 1
      (by decide)).2 (fun h => absurd h.2.1 (by decide))
  rw [hW] at b1 b2 b3 b4
  rw [← hvol] at b1 b2 b3 b4 b5
  have c1 : ((updateVoices demoEnv (volumeTick S1)).voice 0).active = true := by
    rw [g1, b1]
    exact a1
  have c2 : ((updateVoices demoEnv (volumeTick S1)).voice 0).fVolL = 0 := by
    rw [g1, b2]
    simp only [rampStartL]
    rw [if_neg (by decide)]
    exact a3
  have c3 : ((updateVoices demoEnv (volumeTick S1)).voice 0).fVolR = 0 := by
    rw [g1, b3]
    simp only [rampStartR]
    rw [if_neg (by decide)]
    exact a4
  have c4 : ((updateVoices demoEnv (volumeTick S1)).voice 0).volRampSamples = 0 := by
    rw [g1, b4]
    rw [if_pos]
    refine ⟨?_, ?_, by decide⟩
    · simp only [rampStartL, destVolL]
      rw [if_neg (by decide)]
      simp [a3, FloatOps.feq]
    · simp only [rampStartR, destVolR]
      rw [if_neg (by decide)]
      simp [a4, FloatOps.feq]
  have c5 : ((updateVoices demoEnv (volumeTick S1)).voice 32).active = true := by
    rw [h32] at g2 b5
    rw [g2, b5, Function.update_noteq (by decide)]
    exact a2
  refine ⟨a1, a2, c1, c4, c2, c3, c5, ?_⟩
  -- the block after tick two
  generalize hS2 : updateVoices demoEnv (volumeTick S1) = S2 at c1 c2 c3 c4 c5 ⊢
  obtain ⟨m, e1, _, e3, e4⟩ := doChannelMixingFrom_callsOn demoEnv idleKernels 64 0
    demoEnv.antChn 0 { voice := S2.voice, buffers := (), calls := [] }
    (by decide) (by decide) (by decide)
  have hsil := doChannelMixingSlot_silent demoEnv idleKernels 64 0 m (by decide)
    (by
      rw [e1]
      refine ⟨c1, ?_, ?_⟩
      · show ¬ (S2.voice 0).volRampSamples > 0
        rw [c4]
        decide
      · show (FloatOps.feq (S2.voice 0).fVolL 0 && FloatOps.feq (S2.voice 0).fVolR 0) = true
        rw [c2, c3]
        simp [FloatOps.feq])
  have e5 : callsOn 32 (doChannelMixing demoEnv idleKernels 64
      { voice := S2.voice, buffers := (), calls := [] }).calls
      = callsOn (demoEnv.MAX_VOICES + 0)
          (doChannelMixingSlot demoEnv idleKernels 64 0 m).calls := e4
  rw [e5, hsil]
  exact e3

end FT2Audio
